import Mathlib

/-!
VerifAI chat page (`frontend/src/pages/chat.js`).

A shallow embedding of the message codec (`serializeMessage`, `deserializeMessage`),
of the batch statistics of `VerificationStatsButton.verifyAllReferences`, of
`ReferenceItem.verifyReference` and of the handlers of the `Chat` component over a model
of the Firestore collections of the page, with the properties proved about them.

JavaScript values are an inductive type, JavaScript strings are lists of UTF-16 code
units, and code that can throw returns `Except`.  The platform functions the page calls
(`JSON.parse`, `JSON.stringify`, `ReactDOMServer.renderToString`, Number::toString, the
HTTP call) are arguments of the embedded functions; `JSONparse`, `JSONstringify` and
`numberToString` below are executable models of `JSON.parse`, `JSON.stringify` and
Number::toString.
-/

namespace VerifAI

/-! ## JavaScript values -/

/-- A JavaScript string: its sequence of UTF-16 code units. -/
abbrev JString := List Nat

/-- UTF-16 encoding of one Unicode scalar value. -/
def utf16Char (c : Char) : JString :=
  if c.toNat < 65536 then [c.toNat]
  else [55296 + (c.toNat - 65536) / 1024, 56320 + (c.toNat - 65536) % 1024]

/-- The JavaScript string written as the literal `s`. -/
def utf16 (s : String) : JString :=
  s.toList.foldr (fun c acc => utf16Char c ++ acc) []

/-- Values thrown by the modelled code. -/
inductive JSError where
  | typeError
  | syntaxError
  | other (message : JString)
  deriving DecidableEq

/-- JavaScript values.  A number is a finite decimal number: the integer `num n`, or the
number `frac mantissa scale` = `mantissa / 10 ^ scale`, which is in lowest terms when
`scale` is positive and `mantissa` does not end in the digit zero.  A double is identified
with the shortest decimal that denotes it, the number Number::toString writes and
`JSON.parse` reads back; the rounding of a decimal of more than 15 significant digits, or
beyond the range of doubles, to a double, negative zero, NaN and the infinities are outside
the model.  An object is the list
of its own enumerable string-keyed properties in insertion order; the engine's reordering
of array-index keys and object identity are not modelled. -/
inductive JSValue where
  | undefined
  | null
  | bool (b : Bool)
  | num (n : Int)
  | frac (mantissa : Int) (scale : Nat)
  | str (s : JString)
  | symbol (key : JString)
  | func (name : JString)
  | arr (items : List JSValue)
  | obj (props : List (JString × JSValue))

/-- Property list of an object. -/
abbrev Props := List (JString × JSValue)

/-- Own property lookup; `undefined` when the key is absent. -/
def getOwn : Props → JString → JSValue
  | [], _ => .undefined
  | (k, v) :: rest, key => if k = key then v else getOwn rest key

/-- Whether the object has an own property `key`. -/
def hasOwn : Props → JString → Bool
  | [], _ => false
  | (k, _) :: rest, key => if k = key then true else hasOwn rest key

/-- Assignment of an own property: an existing key keeps its position, a new key is
appended. -/
def setProp : Props → JString → JSValue → Props
  | [], key, v => [(key, v)]
  | (k, w) :: rest, key, v =>
    if k = key then (k, v) :: rest else (k, w) :: setProp rest key v

/-- Property read `value.key`.  Reading from `undefined` or `null` throws a TypeError.
Besides own properties of objects only `length` of arrays and strings is modelled. -/
def getProp (value : JSValue) (key : JString) : Except JSError JSValue :=
  match value with
  | .undefined => .error .typeError
  | .null => .error .typeError
  | .obj props => .ok (getOwn props key)
  | .arr items => .ok (if key = utf16 "length" then .num items.length else .undefined)
  | .str s => .ok (if key = utf16 "length" then .num s.length else .undefined)
  | _ => .ok .undefined

/-- ToBoolean. -/
def truthy : JSValue → Bool
  | .undefined => false
  | .null => false
  | .bool b => b
  | .num n => n != 0
  | .frac m _ => m != 0
  | .str s => !s.isEmpty
  | _ => true

/-- The `typeof` operator. -/
def typeof : JSValue → JString
  | .undefined => utf16 "undefined"
  | .null => utf16 "object"
  | .bool _ => utf16 "boolean"
  | .num _ => utf16 "number"
  | .frac _ _ => utf16 "number"
  | .str _ => utf16 "string"
  | .symbol _ => utf16 "symbol"
  | .func _ => utf16 "function"
  | .arr _ => utf16 "object"
  | .obj _ => utf16 "object"

/-- The test `value === null`. -/
def isNull : JSValue → Bool
  | .null => true
  | _ => false

/-- The test `value === 'literal'` against a string literal. -/
def isString (value : JSValue) (literal : JString) : Bool :=
  match value with
  | .str s => s = literal
  | _ => false

/-- The test `value === Symbol.for(key)`. -/
def isSymbolFor (value : JSValue) (key : JString) : Bool :=
  match value with
  | .symbol k => k = key
  | _ => false

/-- Own enumerable properties copied by an object spread `{...value}`.  Only the spread
of an object is modelled (the program spreads a message only after reading an object or a
string from its `text`, which a non-object never has). -/
def spreadProps : JSValue → Props
  | .obj props => props
  | _ => []

/-! ## React elements -/

/-- The `$$typeof` tag of a React element, `Symbol.for('react.element')`. -/
def REACT_ELEMENT_TYPE : JSValue := .symbol (utf16 "react.element")

/-- Model of `React.isValidElement`: a non-null object whose `$$typeof` is the element
tag. -/
def isValidElement (object : JSValue) : Bool :=
  match object with
  | .obj props => isSymbolFor (getOwn props (utf16 "$$typeof")) (utf16 "react.element")
  | _ => false

/-- The element object built by `React.createElement(type, props)` (JSX `<type ...props />`)
without key or ref. -/
def createElement (type : JSValue) (props : Props) : JSValue :=
  .obj [(utf16 "$$typeof", REACT_ELEMENT_TYPE), (utf16 "type", type), (utf16 "key", .null),
    (utf16 "ref", .null), (utf16 "props", .obj props), (utf16 "_owner", .null)]

/-! ## Model of `JSON.stringify` -/

/-- Lower-case hexadecimal digit. -/
def hexDigit (n : Nat) : Nat := if n < 10 then 48 + n else 87 + n

/-- The escape `\uXXXX` of a code unit. -/
def unicodeEscape (c : Nat) : JString :=
  [92, 117, hexDigit (c / 4096 % 16), hexDigit (c / 256 % 16), hexDigit (c / 16 % 16),
    hexDigit (c % 16)]

/-- Leading (high) surrogate code unit. -/
def isLeadingSurrogate (c : Nat) : Bool := decide (55296 ≤ c ∧ c ≤ 56319)

/-- Trailing (low) surrogate code unit. -/
def isTrailingSurrogate (c : Nat) : Bool := decide (56320 ≤ c ∧ c ≤ 57343)

/-- The text of a code unit that is not part of a surrogate pair: the two-character
escapes, `\u00XX` for other control characters, `\uXXXX` for a lone surrogate, any other
code unit itself. -/
def quoteUnit (c : Nat) : JString :=
  if c = 8 then [92, 98]
  else if c = 9 then [92, 116]
  else if c = 10 then [92, 110]
  else if c = 12 then [92, 102]
  else if c = 13 then [92, 114]
  else if c = 34 then [92, 34]
  else if c = 92 then [92, 92]
  else if c < 32 then unicodeEscape c
  else if isLeadingSurrogate c then unicodeEscape c
  else if isTrailingSurrogate c then unicodeEscape c
  else [c]

/-- The characters of QuoteJSONString between the quotes: a surrogate pair is copied, any
other code unit is written by `quoteUnit`. -/
def quoteBody : JString → JString
  | [] => []
  | [c] => quoteUnit c
  | c :: d :: rest =>
    if isLeadingSurrogate c && isTrailingSurrogate d then c :: d :: quoteBody rest
    else quoteUnit c ++ quoteBody (d :: rest)

/-- QuoteJSONString. -/
def quoteJSONString (s : JString) : JString := 34 :: (quoteBody s ++ [34])

/-- Decimal digits of a natural number, most significant first. -/
def decimalDigits : Nat → Nat → JString → JString
  | 0, _, acc => acc
  | fuel + 1, n, acc =>
    if n < 10 then (48 + n) :: acc
    else decimalDigits fuel (n / 10) ((48 + n % 10) :: acc)

/-- Decimal text of a natural number. -/
def natToDecimal (n : Nat) : JString := decimalDigits (n + 1) n []

/-- Removes the trailing zeros of the decimal digits of `s`, counting them onto `t`: the
significant digits and the number of zeros removed.  The first argument bounds the
recursion. -/
def stripZeros : Nat → Nat → Nat → Nat × Nat
  | 0, s, t => (s, t)
  | fuel + 1, s, t =>
    if s % 10 = 0 ∧ s ≠ 0 then stripZeros fuel (s / 10) (t + 1) else (s, t)

/-- The exponent sign of Number::toString: `-` or `+`. -/
def exponentSign (negative : Bool) : Nat := if negative then 45 else 43

/-- Exponential form of Number::toString: the first digit, a point and the other digits when
there are any, then `e`, the sign and the decimal text of the exponent magnitude. -/
def exponentForm (digits : JString) (negative : Bool) (exponent : Nat) : JString :=
  match digits with
  | [] => []
  | [d] => d :: 101 :: exponentSign negative :: natToDecimal exponent
  | d :: rest => d :: 46 :: (rest ++ 101 :: exponentSign negative :: natToDecimal exponent)

/-- Number::toString of a natural number: its decimal digits below 10^21, the exponential
form of its significant digits from there on. -/
def natText (n : Nat) : JString :=
  if n < 10 ^ 21 then natToDecimal n
  else
    exponentForm (natToDecimal (stripZeros n n 0).1) false
      ((natToDecimal (stripZeros n n 0).1).length + (stripZeros n n 0).2 - 1)

/-- Number::toString of the positive number `m / 10 ^ f` with `k` significant digits
`digits`, where `m` does not end in zero and `f` is positive.  With `n = k - f`: the first
`n` digits, a point and the other digits when `0 < n ≤ 21`; `0.`, `-n` zeros and the digits
when `-6 < n ≤ 0`; otherwise the exponential form with exponent `n - 1`. -/
def fracDigitsText (digits : JString) (f : Nat) : JString :=
  if f < digits.length then
    if digits.length - f ≤ 21 then
      digits.take (digits.length - f) ++ 46 :: digits.drop (digits.length - f)
    else exponentForm digits false (digits.length - f - 1)
  else if f - digits.length < 6 then
    48 :: 46 :: (List.replicate (f - digits.length) 48 ++ digits)
  else exponentForm digits true (f + 1 - digits.length)

/-- The integer `n` or its negation. -/
def signed (negative : Bool) (n : Nat) : Int := if negative then -(n : Int) else (n : Int)

/-- The number `m / 10 ^ f` in lowest terms of ten: an integer when no fraction digit is
left, else a fraction whose mantissa does not end in zero. -/
def scaled (negative : Bool) : Nat → Nat → JSValue
  | m, 0 => .num (signed negative m)
  | m, f + 1 =>
    if m % 10 = 0 then scaled negative (m / 10) f else .frac (signed negative m) (f + 1)

/-- Number::toString of a number in lowest terms; the empty string for a value that is not
a number (where it is not used). -/
def canonicalNumberText : JSValue → JString
  | .num (.ofNat n) => natText n
  | .num (.negSucc n) => 45 :: natText (n + 1)
  | .frac (.ofNat m) f => fracDigitsText (natToDecimal m) f
  | .frac (.negSucc m) f => 45 :: fracDigitsText (natToDecimal (m + 1)) f
  | _ => []

/-- Number::toString of a number value: the text of the number brought to lowest terms. -/
def numberToString : JSValue → JString
  | .frac m f => canonicalNumberText (scaled (decide (m < 0)) m.natAbs f)
  | value => canonicalNumberText value

/-- Comma-separated concatenation. -/
def joinComma : List JString → JString
  | [] => []
  | [s] => s
  | s :: rest => s ++ 44 :: joinComma rest

mutual
/-- SerializeJSONProperty: the JSON text of a value, `none` where the specification
returns `undefined` (for `undefined`, symbols and functions). -/
def serializeJSONProperty : JSValue → Option JString
  | .undefined => none
  | .symbol _ => none
  | .func _ => none
  | .null => some (utf16 "null")
  | .bool true => some (utf16 "true")
  | .bool false => some (utf16 "false")
  | .num n => some (numberToString (.num n))
  | .frac m f => some (numberToString (.frac m f))
  | .str s => some (quoteJSONString s)
  | .arr items => some (91 :: (joinComma (serializeElements items) ++ [93]))
  | .obj props => some (123 :: (joinComma (serializeMembers props) ++ [125]))
/-- SerializeJSONArray: the texts of the elements, `null` for an element without one. -/
def serializeElements : List JSValue → List JString
  | [] => []
  | x :: rest =>
    (match serializeJSONProperty x with
      | some s => s
      | none => utf16 "null") :: serializeElements rest
/-- SerializeJSONObject: the texts `"key":value` of the properties that have one. -/
def serializeMembers : List (JString × JSValue) → List JString
  | [] => []
  | (k, x) :: rest =>
    match serializeJSONProperty x with
    | some s => (quoteJSONString k ++ 58 :: s) :: serializeMembers rest
    | none => serializeMembers rest
end

/-- Model of `JSON.stringify(value)` with one argument: a string, or `undefined`. -/
def JSONstringify (value : JSValue) : JSValue :=
  match serializeJSONProperty value with
  | some s => .str s
  | none => .undefined

/-! ## Model of `JSON.parse` -/

/-- Skips JSON white space (space, tab, line feed, carriage return). -/
def skipWs : List Nat → List Nat
  | [] => []
  | c :: cs => if c = 32 ∨ c = 9 ∨ c = 10 ∨ c = 13 then skipWs cs else c :: cs

/-- Value of a hexadecimal digit of either case. -/
def hexVal (c : Nat) : Option Nat :=
  if 48 ≤ c ∧ c ≤ 57 then some (c - 48)
  else if 97 ≤ c ∧ c ≤ 102 then some (c - 87)
  else if 65 ≤ c ∧ c ≤ 70 then some (c - 55)
  else none

/-- The code unit denoted by the two-character escape `\e`. -/
def unescape (e : Nat) : Option Nat :=
  if e = 34 then some 34
  else if e = 92 then some 92
  else if e = 47 then some 47
  else if e = 98 then some 8
  else if e = 102 then some 12
  else if e = 110 then some 10
  else if e = 114 then some 13
  else if e = 116 then some 9
  else none

/-- Reads a JSON string after its opening quote, up to and including the closing quote:
the string denoted and the remaining input. -/
def parseChars : List Nat → Option (JString × List Nat)
  | [] => none
  | c :: cs =>
    if c = 34 then some ([], cs)
    else if c = 92 then
      match cs with
      | [] => none
      | e :: cs1 =>
        if e = 117 then
          match cs1 with
          | h1 :: h2 :: h3 :: h4 :: cs2 =>
            match hexVal h1, hexVal h2, hexVal h3, hexVal h4 with
            | some a, some b, some x, some d =>
              match parseChars cs2 with
              | some (s, r) => some ((a * 4096 + b * 256 + x * 16 + d) :: s, r)
              | none => none
            | _, _, _, _ => none
          | _ => none
        else
          match unescape e with
          | some u =>
            match parseChars cs1 with
            | some (s, r) => some (u :: s, r)
            | none => none
          | none => none
    else if c < 32 then none
    else
      match parseChars cs with
      | some (s, r) => some (c :: s, r)
      | none => none

/-- Reads a run of decimal digits onto the accumulated value. -/
def parseDigits : List Nat → Nat → Nat × List Nat
  | [], acc => (acc, [])
  | c :: cs, acc =>
    if 48 ≤ c ∧ c ≤ 57 then parseDigits cs (acc * 10 + (c - 48)) else (acc, c :: cs)

/-- Reads the integer part of a JSON number: `0`, or a non-zero digit and more digits. -/
def parseNat : List Nat → Option (Nat × List Nat)
  | [] => none
  | c :: cs =>
    if c = 48 then some (0, cs)
    else if 49 ≤ c ∧ c ≤ 57 then some (parseDigits cs (c - 48))
    else none

/-- Reads the optional fraction of a JSON number (a point and one or more digits) onto the
digits `n` read so far: the value of all digits and the number of fraction digits. -/
def parseFraction (n : Nat) : List Nat → Option (Nat × Nat × List Nat)
  | [] => some (n, 0, [])
  | c :: cs =>
    if c = 46 then
      match cs with
      | [] => none
      | d :: ds =>
        if 48 ≤ d ∧ d ≤ 57 then
          some ((parseDigits (d :: ds) n).1,
            (d :: ds).length - (parseDigits (d :: ds) n).2.length, (parseDigits (d :: ds) n).2)
        else none
    else some (n, 0, c :: cs)

/-- Reads one or more digits of an exponent. -/
def parseExponentDigits : List Nat → Option (Nat × List Nat)
  | [] => none
  | d :: ds => if 48 ≤ d ∧ d ≤ 57 then some (parseDigits (d :: ds) 0) else none

/-- Reads the optional exponent of a JSON number: `e` or `E`, an optional sign and one or
more digits; 0 when there is none. -/
def parseExponent : List Nat → Option (Int × List Nat)
  | [] => some (0, [])
  | c :: cs =>
    if c = 101 ∨ c = 69 then
      match cs with
      | [] => none
      | s :: ds =>
        if s = 45 then
          match parseExponentDigits ds with
          | some (e, r) => some (-(e : Int), r)
          | none => none
        else if s = 43 then
          match parseExponentDigits ds with
          | some (e, r) => some ((e : Int), r)
          | none => none
        else
          match parseExponentDigits (s :: ds) with
          | some (e, r) => some ((e : Int), r)
          | none => none
    else some (0, c :: cs)

/-- The number value `m × 10 ^ e`, negated when `negative`. -/
def mkNumber (negative : Bool) (m : Nat) (e : Int) : JSValue :=
  if 0 ≤ e then .num (signed negative (m * 10 ^ e.toNat)) else scaled negative m (-e).toNat

/-- Reads a JSON number after its sign: integer part, optional fraction, optional
exponent. -/
def parseUnsigned (negative : Bool) (cs : List Nat) : Option (JSValue × List Nat) :=
  match parseNat cs with
  | none => none
  | some (n, r) =>
    match parseFraction n r with
    | none => none
    | some (m, count, r2) =>
      match parseExponent r2 with
      | none => none
      | some (e, r3) => some (mkNumber negative m (e - (count : Int)), r3)

/-- Reads a JSON number: the value of its decimal expansion, an integer when it has no
fraction digit other than zeros. -/
def parseNumber : List Nat → Option (JSValue × List Nat)
  | [] => none
  | c :: cs => if c = 45 then parseUnsigned true cs else parseUnsigned false (c :: cs)

/-- Removes the keyword `word` from the front of the input. -/
def expectWord : JString → List Nat → Option (List Nat)
  | [], cs => some cs
  | _ :: _, [] => none
  | w :: ws, c :: cs => if w = c then expectWord ws cs else none

/-- The object built from the members in source order: a repeated key keeps its first
position and its last value. -/
def mkObject (members : Props) : Props :=
  members.foldl (fun acc kv => setProp acc kv.1 kv.2) []

mutual
/-- Reads one JSON value after optional white space.  The first argument bounds the
recursion; `JSONparse` passes twice the length of the text plus two. -/
def parseValue : Nat → List Nat → Option (JSValue × List Nat)
  | 0, _ => none
  | fuel + 1, cs =>
    match skipWs cs with
    | [] => none
    | c :: rest =>
      if c = 123 then
        match skipWs rest with
        | [] => none
        | d :: rest2 =>
          if d = 125 then some (.obj [], rest2)
          else
            match parseMembers fuel (d :: rest2) with
            | some (members, r) => some (.obj (mkObject members), r)
            | none => none
      else if c = 91 then
        match skipWs rest with
        | [] => none
        | d :: rest2 =>
          if d = 93 then some (.arr [], rest2)
          else
            match parseElements fuel (d :: rest2) with
            | some (items, r) => some (.arr items, r)
            | none => none
      else if c = 34 then
        match parseChars rest with
        | some (s, r) => some (.str s, r)
        | none => none
      else if c = 116 then
        match expectWord (utf16 "rue") rest with
        | some r => some (.bool true, r)
        | none => none
      else if c = 102 then
        match expectWord (utf16 "alse") rest with
        | some r => some (.bool false, r)
        | none => none
      else if c = 110 then
        match expectWord (utf16 "ull") rest with
        | some r => some (.null, r)
        | none => none
      else parseNumber (c :: rest)
/-- Reads `value (, value)* ]`. -/
def parseElements : Nat → List Nat → Option (List JSValue × List Nat)
  | 0, _ => none
  | fuel + 1, cs =>
    match parseValue fuel cs with
    | none => none
    | some (v, r) =>
      match skipWs r with
      | [] => none
      | d :: r2 =>
        if d = 93 then some ([v], r2)
        else if d = 44 then
          match parseElements fuel r2 with
          | some (vs, r3) => some (v :: vs, r3)
          | none => none
        else none
/-- Reads `"key" : value (, "key" : value)* }`. -/
def parseMembers : Nat → List Nat → Option (Props × List Nat)
  | 0, _ => none
  | fuel + 1, cs =>
    match skipWs cs with
    | [] => none
    | q :: cs1 =>
      if q = 34 then
        match parseChars cs1 with
        | none => none
        | some (k, r) =>
          match skipWs r with
          | [] => none
          | colon :: r1 =>
            if colon = 58 then
              match parseValue fuel r1 with
              | none => none
              | some (v, r2) =>
                match skipWs r2 with
                | [] => none
                | d :: r3 =>
                  if d = 125 then some ([(k, v)], r3)
                  else if d = 44 then
                    match parseMembers fuel r3 with
                    | some (ms, r4) => some ((k, v) :: ms, r4)
                    | none => none
                  else none
            else none
      else none
end

/-- Model of `JSON.parse(text)`: the value of the whole text, or a SyntaxError. -/
def JSONparse (text : JString) : Except JSError JSValue :=
  match parseValue (2 * text.length + 2) text with
  | some (v, rest) => if skipWs rest = [] then .ok v else .error .syntaxError
  | none => .error .syntaxError

/-- Numbers in lowest terms: every integer, and a fraction with a positive scale whose
mantissa does not end in the digit zero. -/
def isCanonicalNumber : JSValue → Bool
  | .num _ => true
  | .frac m f => decide (m.natAbs % 10 ≠ 0 ∧ 0 < f)
  | _ => false

mutual
/-- Values that JSON text denotes in this model: `null`, booleans, numbers in lowest terms,
strings, and arrays and objects of such values, the keys of an object being distinct. -/
def isJSONValue : JSValue → Bool
  | .undefined => false
  | .symbol _ => false
  | .func _ => false
  | .null => true
  | .bool _ => true
  | .num _ => true
  | .frac m f => decide (m.natAbs % 10 ≠ 0 ∧ 0 < f)
  | .str _ => true
  | .arr items => allJSONValues items
  | .obj props => membersJSONValues props && decide ((props.map Prod.fst).Nodup)
/-- All elements of an array are JSON values. -/
def allJSONValues : List JSValue → Bool
  | [] => true
  | x :: rest => isJSONValue x && allJSONValues rest
/-- All property values of an object are JSON values. -/
def membersJSONValues : List (JString × JSValue) → Bool
  | [] => true
  | (_, x) :: rest => isJSONValue x && membersJSONValues rest
end

/-- The input ends here or continues with a comma, a closing bracket or a closing brace. -/
def AtDelimiter (rest : List Nat) : Prop :=
  ∀ c tl, rest = c :: tl → c = 44 ∨ c = 93 ∨ c = 125

/-- First code units of the JSON text of a value. -/
def ValueStart (c : Nat) : Prop :=
  c = 110 ∨ c = 116 ∨ c = 102 ∨ c = 45 ∨ (48 ≤ c ∧ c ≤ 57) ∨ c = 34 ∨ c = 91 ∨ c = 123

/-! ## The message codec (`chat.js`, lines 33-91) -/

/-- The platform functions the page calls: `JSON.parse`, `JSON.stringify`,
`ReactDOMServer.renderToString`, and Number::toString, the text of a number value in a
template literal. -/
structure Platform where
  parse : JString → Except JSError JSValue
  stringify : JSValue → JSValue
  renderToString : JSValue → Except JSError JString
  numberToString : JSValue → JString

/-- The platform with the JSON and number models of this file and a given renderer. -/
def modelPlatform (renderToString : JSValue → Except JSError JString) : Platform :=
  { parse := JSONparse, stringify := JSONstringify, renderToString := renderToString,
    numberToString := numberToString }

/-- Model of `String.prototype.startsWith`. -/
def startsWith (s search : JString) : Bool := search.isPrefixOf s

/-- Model of `String.prototype.endsWith`. -/
def endsWith (s search : JString) : Bool := search.isSuffixOf s

/-- The object literal `{ ...message, text: text }`. -/
def withText (message text : JSValue) : JSValue :=
  .obj (setProp (spreadProps message) (utf16 "text") text)

/-- Embedding of `serializeMessage` (lines 33-59). -/
def serializeMessage (P : Platform) (message : JSValue) : Except JSError JSValue :=
  if !truthy message then .ok message
  else
    match getProp message (utf16 "text") with
    | .error e => .error e
    | .ok text =>
      if isValidElement text then
        match P.renderToString text with
        | .error e => .error e
        | .ok markup =>
          .ok (withText message (P.stringify (.obj
            [(utf16 "__isReactElement", .bool true), (utf16 "jsx", .str markup)])))
      else if typeof text = utf16 "object" && !isNull text then
        .ok (withText message (P.stringify (.obj
          [(utf16 "__isObject", .bool true), (utf16 "data", text)])))
      else .ok message

/-- The JSX expression `<div dangerouslySetInnerHTML={{ __html: html }} />`. -/
def innerHTMLDiv (html : JSValue) : JSValue :=
  createElement (.str (utf16 "div"))
    [(utf16 "dangerouslySetInnerHTML", .obj [(utf16 "__html", html)])]

/-- The body of the `try` block of `deserializeMessage` (lines 65-84): `some r` when the
block returns `r`, `none` when control leaves the block without returning, an error when
it throws. -/
def deserializeTry (P : Platform) (message : JSValue) (text : JString) :
    Except JSError (Option JSValue) :=
  if startsWith text (utf16 "\x7b") && endsWith text (utf16 "\x7d") then
    match P.parse text with
    | .error e => .error e
    | .ok parsed =>
      match getProp parsed (utf16 "__isReactElement") with
      | .error e => .error e
      | .ok isReactElement =>
        if truthy isReactElement then
          match getProp parsed (utf16 "jsx") with
          | .error e => .error e
          | .ok jsx => .ok (some (withText message (innerHTMLDiv jsx)))
        else
          match getProp parsed (utf16 "__isObject") with
          | .error e => .error e
          | .ok isObject =>
            if truthy isObject then
              match getProp parsed (utf16 "data") with
              | .error e => .error e
              | .ok data => .ok (some (withText message data))
            else .ok none
  else .ok none

/-- Embedding of `deserializeMessage` (lines 61-91): the `catch` clause logs and falls
through to the final `return message`. -/
def deserializeMessage (P : Platform) (message : JSValue) : Except JSError JSValue :=
  if !truthy message then .ok message
  else
    match getProp message (utf16 "text") with
    | .error e => .error e
    | .ok (.str text) =>
      match deserializeTry P message text with
      | .ok (some result) => .ok result
      | .ok none => .ok message
      | .error _ => .ok message
    | .ok _ => .ok message

/-- The user turn built by `searchPaper` (line 934): `{ type: "user", text: input }`. -/
def userMessage (input : JSValue) : JSValue :=
  .obj [(utf16 "type", .str (utf16 "user")), (utf16 "text", input)]

/-- The object `loadChatMessages` hands to `deserializeMessage` (lines 704-709):
`{ id, type, text, timestamp }`. -/
def loadedMessage (id type text timestamp : JSValue) : JSValue :=
  .obj [(utf16 "id", id), (utf16 "type", type), (utf16 "text", text),
    (utf16 "timestamp", timestamp)]

/-- The plain string `{"__isObject":true,"data":5}`. -/
def envelopeLookalike : JString := utf16 "\x7b\"__isObject\":true,\"data\":5\x7d"

/-- The stored string `{"__isObject":true}`: a tag without a body. -/
def tagWithoutBody : JString := utf16 "\x7b\"__isObject\":true\x7d"

/-- No renderer: every call throws.  Used where no React element is rendered. -/
def noRenderer : JSValue → Except JSError JString := fun _ => .error .typeError

/-- Whether `deserializeMessage` decodes the stored text: the text begins with an opening
and ends with a closing brace, `JSON.parse` accepts it, and the parsed value has a truthy
`__isReactElement` or a truthy `__isObject` property. -/
def decodesAsEnvelope (P : Platform) (text : JString) : Bool :=
  startsWith text (utf16 "\x7b") && endsWith text (utf16 "\x7d") &&
    match P.parse text with
    | .error _ => false
    | .ok parsed =>
      (match getProp parsed (utf16 "__isReactElement") with
        | .ok tag => truthy tag
        | .error _ => false) ||
      (match getProp parsed (utf16 "__isObject") with
        | .ok tag => truthy tag
        | .error _ => false)

/-- The envelope shape as the specification words it: the JSON text of an object with a
tag `__isReactElement` and a `jsx` body, or a tag `__isObject` and a `data` body. -/
def isEnvelopeText (text : JString) : Bool :=
  match JSONparse text with
  | .ok (.obj props) =>
    (hasOwn props (utf16 "__isReactElement") && hasOwn props (utf16 "jsx")) ||
      (hasOwn props (utf16 "__isObject") && hasOwn props (utf16 "data"))
  | _ => false

/-! ## `VerificationStatsButton` (`chat.js`, lines 93-141) -/

/-- One entry of `results`: `{ reference, status }`. -/
structure VerificationResult where
  reference : JSValue
  status : JSValue

/-- The counters of the `reduce` accumulator (lines 130-138). -/
structure Tally where
  verified : Nat
  notVerified : Nat
  unverifiable : Nat
  unverifiableRefs : List JSValue

/-- The `verificationStats` state: the counters and the `loading` flag. -/
structure VerificationStats where
  verified : Nat
  notVerified : Nat
  unverifiable : Nat
  unverifiableRefs : List JSValue
  loading : Bool

/-- State of the `VerificationStatsButton` component. -/
structure StatsButtonState where
  isHovered : Bool
  isOpen : Bool
  verificationStats : VerificationStats
  verificationResults : List VerificationResult

/-- Initial state of the component (lines 94-103). -/
def StatsButtonState.initial : StatsButtonState :=
  { isHovered := false, isOpen := false,
    verificationStats :=
      { verified := 0, notVerified := 0, unverifiable := 0, unverifiableRefs := [],
        loading := false },
    verificationResults := [] }

/-- The callback mapped over `references` (lines 109-125).  `outcome` is what awaiting
`axios.post(.../api/verify-reference, { reference })` gives: the `data` of the response,
or the error the call rejects with.  Reading `verification_status` happens inside the
`try`, so a throw there also ends in the `catch`. -/
def verifyOne (outcome : Except JSError JSValue) (reference : JSValue) : VerificationResult :=
  match outcome with
  | .error _ => { reference := reference, status := .str (utf16 "failed") }
  | .ok data =>
    match getProp data (utf16 "verification_status") with
    | .ok status => { reference := reference, status := status }
    | .error _ => { reference := reference, status := .str (utf16 "failed") }

/-- The status that lines 109-125 give one reference, read from the outcome of its call
alone: the `verification_status` of the data of the response, and `failed` when the call is
rejected (or reading the status from the data throws). -/
def statusOfOutcome (outcome : Except JSError JSValue) : JSValue :=
  match outcome with
  | .error _ => .str (utf16 "failed")
  | .ok data =>
    match getProp data (utf16 "verification_status") with
    | .ok status => status
    | .error _ => .str (utf16 "failed")

/-- Embedding of `Promise.all(references.map(...))` (lines 108-126): the results in the
order of the references, the call for the reference at position `i` having outcome
`post i reference`. -/
def verifyFrom (post : Nat → JSValue → Except JSError JSValue) :
    Nat → List JSValue → List VerificationResult
  | _, [] => []
  | i, reference :: rest => verifyOne (post i reference) reference :: verifyFrom post (i + 1) rest

/-- The reducer of lines 130-137. -/
def tallyStep (acc : Tally) (result : VerificationResult) : Tally :=
  if isString result.status (utf16 "verified") then
    { acc with verified := acc.verified + 1 }
  else if isString result.status (utf16 "not_found") ||
      isString result.status (utf16 "failed") then
    { acc with unverifiable := acc.unverifiable + 1,
               unverifiableRefs := acc.unverifiableRefs ++ [result.reference] }
  else { acc with notVerified := acc.notVerified + 1 }

/-- The `reduce` of lines 130-138 with its initial accumulator. -/
def tally (results : List VerificationResult) : Tally :=
  results.foldl tallyStep
    { verified := 0, notVerified := 0, unverifiable := 0, unverifiableRefs := [] }

/-- The first state update of `verifyAllReferences` (line 106). -/
def startVerification (st : StatsButtonState) : StatsButtonState :=
  { st with verificationStats := { st.verificationStats with loading := true } }

/-- Embedding of `verifyAllReferences` (lines 105-141): the state after the run has
completed. -/
def verifyAllReferences (post : Nat → JSValue → Except JSError JSValue)
    (references : List JSValue) (st : StatsButtonState) : StatsButtonState :=
  let st1 := startVerification st
  let results := verifyFrom post 0 references
  let stats := tally results
  { st1 with
    verificationResults := results,
    verificationStats :=
      { verified := stats.verified, notVerified := stats.notVerified,
        unverifiable := stats.unverifiable, unverifiableRefs := stats.unverifiableRefs,
        loading := false } }

/-! ## `ReferenceItem` (`chat.js`, lines 356-570) -/

/-- State of a `ReferenceItem` component. -/
structure ReferenceItemState where
  verificationStatus : JSValue
  results : JSValue

/-- Initial state (lines 357-360): `reference.verification_status || "pending"`, and no
results.  Reading the status of a missing reference throws. -/
def ReferenceItemState.initial (reference : JSValue) : Except JSError ReferenceItemState :=
  match getProp reference (utf16 "verification_status") with
  | .error e => .error e
  | .ok status =>
    .ok { verificationStatus := if truthy status then status else .str (utf16 "pending"),
          results := .null }

/-- The state of an item that has not been verified: status `pending`, no results. -/
def ReferenceItemState.pending : ReferenceItemState :=
  { verificationStatus := .str (utf16 "pending"), results := .null }

/-- Embedding of `verifyReference` (lines 363-377): the state after the call has settled.
The argument `outcome` is the `data` of the response or the error of the rejected call;
before the call settles the status is `in_progress`. -/
def verifyReference (outcome : Except JSError JSValue) (st : ReferenceItemState) :
    ReferenceItemState :=
  match outcome with
  | .error _ => { st with verificationStatus := .str (utf16 "failed") }
  | .ok data =>
    match getProp data (utf16 "verification_status") with
    | .error _ => { st with verificationStatus := .str (utf16 "failed") }
    | .ok status =>
      match getProp data (utf16 "results") with
      | .error _ => { st with verificationStatus := .str (utf16 "failed") }
      | .ok results => { verificationStatus := status, results := results }

/-- The comparison `value > 0` for a number; other operands (which the program does not
compare) are taken as not greater. -/
def greaterThanZero : JSValue → Bool
  | .num n => decide (0 < n)
  | .frac m _ => decide (0 < m)
  | _ => false

/-- The guard of the results block (line 475):
`results && verificationStatus !== "failed" && verificationStatus !== "pending"`. -/
def resultsShown (st : ReferenceItemState) : Bool :=
  truthy st.results && !isString st.verificationStatus (utf16 "failed") &&
    !isString st.verificationStatus (utf16 "pending")

/-- Whether the retraction section is rendered (lines 475 and 536):
inside the results block, `results.retracted && results.retracted.length > 0`. -/
def retractionShown (st : ReferenceItemState) : Bool :=
  resultsShown st &&
    match getProp st.results (utf16 "retracted") with
    | .error _ => false
    | .ok retracted =>
      truthy retracted &&
        match getProp retracted (utf16 "length") with
        | .error _ => false
        | .ok length => greaterThanZero length

/-- Modelled from the spec: the status derivation of the reference verification service
(`POST /api/verify-reference`), whose code is not among the sources of the page.  Every
source returning an empty candidate list gives `not_found`, otherwise the status is
`verified`, and the per-source hit lists are retained in `results`. -/
def verifyReferenceService (crossref arxiv semantic_scholar retracted : List JSValue) :
    JSValue :=
  .obj [
    (utf16 "verification_status",
      if crossref.isEmpty && arxiv.isEmpty && semantic_scholar.isEmpty && retracted.isEmpty
      then .str (utf16 "not_found") else .str (utf16 "verified")),
    (utf16 "results", .obj [
      (utf16 "crossref", .arr crossref),
      (utf16 "arxiv", .arr arxiv),
      (utf16 "semantic_scholar", .arr semantic_scholar),
      (utf16 "retracted", .arr retracted)])]

/-! ## `Promise.all`, the chart click and the stats button (`chat.js`, lines 108-225) -/

/-- Model of the resolve-element steps of `Promise.all`: the promise at position `i`
fulfils with `values[i]`, the promises settle in the order `order`, and each settlement
stores its value at its own position. -/
def resolveElements {α : Type} (values : List α) : List Nat → List (Option α) → List (Option α)
  | [], slots => slots
  | i :: rest, slots => resolveElements values rest (slots.set i values[i]?)

/-- The array of values once every position is filled, `none` while one is missing. -/
def collectSlots {α : Type} : List (Option α) → Option (List α)
  | [] => some []
  | none :: _ => none
  | some v :: rest =>
    match collectSlots rest with
    | some vs => some (v :: vs)
    | none => none

/-- Model of `Promise.all` on promises that all fulfil and settle in the order `order`. -/
def promiseAll {α : Type} (order : List Nat) (values : List α) : Option (List α) :=
  collectSlots (resolveElements values order (List.replicate values.length none))

/-- The comparison `a === b` of two primitive values; numbers compare by value.  Objects,
arrays and functions compare by identity, which the model does not track: for them the
result is `false`. -/
def strictEquals : JSValue → JSValue → Bool
  | .undefined, .undefined => true
  | .null, .null => true
  | .bool a, .bool b => a == b
  | .num a, .num b => a == b
  | .num a, .frac b g => a * 10 ^ g == b
  | .frac a f, .num b => a == b * 10 ^ f
  | .frac a f, .frac b g => a * 10 ^ g == b * 10 ^ f
  | .str a, .str b => a == b
  | .symbol a, .symbol b => a == b
  | _, _ => false

/-- Primitive values: everything but functions, arrays and objects. -/
def isPrimitive : JSValue → Bool
  | .func _ => false
  | .arr _ => false
  | .obj _ => false
  | _ => true

/-- The callback of `find` (lines 172-175):
`vr.reference.title === ref.title && vr.reference.doi === ref.doi`. -/
def sameReference (vr : VerificationResult) (ref : JSValue) : Except JSError Bool :=
  match getProp vr.reference (utf16 "title") with
  | .error e => .error e
  | .ok title1 =>
    match getProp ref (utf16 "title") with
    | .error e => .error e
    | .ok title2 =>
      if strictEquals title1 title2 then
        match getProp vr.reference (utf16 "doi") with
        | .error e => .error e
        | .ok doi1 =>
          match getProp ref (utf16 "doi") with
          | .error e => .error e
          | .ok doi2 => .ok (strictEquals doi1 doi2)
      else .ok false

/-- Embedding of `verificationResults.find(...)` (lines 172-175): the first result the
callback accepts. -/
def findResult : List VerificationResult → JSValue → Except JSError (Option VerificationResult)
  | [], _ => .ok none
  | vr :: rest, ref =>
    match sameReference vr ref with
    | .error e => .error e
    | .ok true => .ok (some vr)
    | .ok false => findResult rest ref

/-- The callback of `filter` (lines 171-177): `result && result.status === 'verified'`. -/
def isVerifiedReference (results : List VerificationResult) (ref : JSValue) :
    Except JSError Bool :=
  match findResult results ref with
  | .error e => .error e
  | .ok none => .ok false
  | .ok (some result) => .ok (isString result.status (utf16 "verified"))

/-- Embedding of `references.filter(...)` (lines 171-177). -/
def filterVerified (results : List VerificationResult) :
    List JSValue → Except JSError (List JSValue)
  | [] => .ok []
  | ref :: rest =>
    match isVerifiedReference results ref with
    | .error e => .error e
    | .ok keep =>
      match filterVerified results rest with
      | .error e => .error e
      | .ok kept => .ok (if keep then ref :: kept else kept)

/-- Whether two references have the same title and the same doi, as `find` compares them. -/
def sharesTitleAndDoi (a b : JSValue) : Bool :=
  match sameReference { reference := a, status := .undefined } b with
  | .ok same => same
  | .error _ => false

/-- Whether the first of `results` whose reference has the same title and doi as `ref` has
the status `verified` (false when no result has that title and doi). -/
def firstMatchVerified (results : List VerificationResult) (ref : JSValue) : Bool :=
  match results.find? (fun vr => sharesTitleAndDoi vr.reference ref) with
  | some vr => isString vr.status (utf16 "verified")
  | none => false

/-- The references of a well-formed list: objects whose `title` and `doi` are primitive
values (strings, or missing). -/
def WellFormedReference (ref : JSValue) : Prop :=
  ∃ props, ref = .obj props ∧ isPrimitive (getOwn props (utf16 "title")) = true ∧
    isPrimitive (getOwn props (utf16 "doi")) = true

/-- The expression `a || b`. -/
def orElse (a b : JSValue) : JSValue := if truthy a then a else b

/-- The object `citationData` (lines 181-188). -/
def citationData (ref : JSValue) : Except JSError JSValue :=
  match getProp ref (utf16 "title") with
  | .error e => .error e
  | .ok title =>
    match getProp ref (utf16 "authors") with
    | .error e => .error e
    | .ok authors =>
      match getProp ref (utf16 "year") with
      | .error e => .error e
      | .ok year =>
        match getProp ref (utf16 "doi") with
        | .error e => .error e
        | .ok doi =>
          .ok (.obj [
            (utf16 "title", orElse title (.str (utf16 "Untitled Reference"))),
            (utf16 "authors", orElse authors (.arr [])),
            (utf16 "year", orElse year .null),
            (utf16 "doi", orElse doi .null),
            (utf16 "research_field", .obj [(utf16 "field", .str (utf16 "Reference"))]),
            (utf16 "is_retracted", .bool false)])

/-- What a chart click did: the calls `saveReferenceToFirestore(citationData, userID)` it
made, in order, and the error it ended with, if any. -/
structure SaveRun where
  calls : List (JSValue × JSValue)
  thrown : Option JSError

/-- The loop of lines 180-190.  The argument `save` is the `saveReferenceToFirestore`
property of the component: the outcome of awaiting each call. -/
def saveVerified (save : JSValue → JSValue → Except JSError Unit) (user : JSValue) :
    List JSValue → SaveRun
  | [] => { calls := [], thrown := none }
  | ref :: rest =>
    match citationData ref with
    | .error e => { calls := [], thrown := some e }
    | .ok data =>
      match getProp user (utf16 "userID") with
      | .error e => { calls := [], thrown := some e }
      | .ok userID =>
        match save data userID with
        | .error e => { calls := [(data, userID)], thrown := some e }
        | .ok _ =>
          { calls := (data, userID) :: (saveVerified save user rest).calls,
            thrown := (saveVerified save user rest).thrown }

/-- Embedding of `handleChartClick` (lines 165-192).  The argument `elements` lists the
`index` of the active chart elements of the click (empty when there is none). -/
def handleChartClick (save : JSValue → JSValue → Except JSError Unit)
    (references : List JSValue) (user : JSValue) (st : StatsButtonState)
    (elements : List Nat) : SaveRun :=
  match elements with
  | [] => { calls := [], thrown := none }
  | clickedIndex :: _ =>
    if clickedIndex = 0 then
      match filterVerified st.verificationResults references with
      | .error e => { calls := [], thrown := some e }
      | .ok verifiedRefs => saveVerified save user verifiedRefs
    else { calls := [], thrown := none }

/-- The guard of the button handlers (lines 215 and 222):
`!verificationStats.verified && !verificationStats.loading`. -/
def launchGate (st : StatsButtonState) : Bool :=
  st.verificationStats.verified == 0 && !st.verificationStats.loading

/-- The `onMouseEnter` handler (lines 213-218): the state after the handler, with the
first update of the run when one is started, and whether `verifyAllReferences` was
called. -/
def onMouseEnter (st : StatsButtonState) : StatsButtonState × Bool :=
  if launchGate st then (startVerification { st with isHovered := true }, true)
  else ({ st with isHovered := true }, false)

/-- The `onClick` handler of the button (lines 220-225), with the same result as
`onMouseEnter`. -/
def onClick (st : StatsButtonState) : StatsButtonState × Bool :=
  if launchGate st then (startVerification { st with isOpen := !st.isOpen }, true)
  else ({ st with isOpen := !st.isOpen }, false)

/-- Whether the Verify button of a reference item is rendered (lines 454-459):
`verificationStatus === "pending"`. -/
def verifyButtonShown (st : ReferenceItemState) : Bool :=
  isString st.verificationStatus (utf16 "pending")

/-- A reference `{ title: "Paper A", doi: "10.1/x" }`. -/
def paperA : JSValue :=
  .obj [(utf16 "title", .str (utf16 "Paper A")), (utf16 "doi", .str (utf16 "10.1/x"))]

/-- A reference `{ title: "Paper B" }`. -/
def paperB : JSValue := .obj [(utf16 "title", .str (utf16 "Paper B"))]

/-- A response `{ verification_status: "verified" }`. -/
def verifiedResponse : JSValue :=
  .obj [(utf16 "verification_status", .str (utf16 "verified"))]

/-- A logged-in user object `{ userID: "u1" }`. -/
def userU1 : JSValue := .obj [(utf16 "userID", .str (utf16 "u1"))]

/-! ## Model of the Firestore collections of the page -/

/-- A document `users/{owner}/chatSessions/{id}` with its fields. -/
structure SessionDoc where
  id : Nat
  owner : JString
  title : JString
  createdAt : Nat
  updatedAt : Nat
  userID : JString

/-- A document `users/{owner}/chatSessions/{chatId}/messages/{id}` with its fields. -/
structure MessageDoc where
  id : Nat
  owner : JString
  chatId : Nat
  data : JSValue

/-- A document `users/{owner}/chatSessions/{chatId}/citations/{id}` with its fields. -/
structure CitationDoc where
  id : Nat
  owner : JString
  chatId : Nat
  data : JSValue

/-- Model of the part of Cloud Firestore the page uses.  The session documents and the
documents of their `messages` and `citations` subcollections are three flat lists: in
Firestore a subcollection document exists independently of the document above it.  The
field `clock` counts the requests made so far; it gives the server timestamp and the
generated id of a write, and `faults n` says whether request number `n` fails. -/
structure Store where
  sessions : List SessionDoc
  messages : List MessageDoc
  citations : List CitationDoc
  clock : Nat
  faults : Nat → Bool

/-- The error of a failed request. -/
def storeError : JSError := .other (utf16 "FirebaseError")

/-- The sentinel returned by `serverTimestamp()`. -/
def serverTimestamp : JSValue := .symbol (utf16 "serverTimestamp")

/-- The server replaces the `serverTimestamp()` sentinels among the fields of a written
document by its time. -/
def resolveTimestamps (now : Nat) : JSValue → JSValue
  | .obj props =>
    .obj (props.map (fun kv =>
      (kv.1, if isSymbolFor kv.2 (utf16 "serverTimestamp") then .num now else kv.2)))
  | value => value

/-- Model of `addDoc(collection(userRef, "chatSessions"), { title, createdAt:
serverTimestamp(), updatedAt: serverTimestamp(), userID })`: the generated id. -/
def addSessionDoc (s : Store) (owner title : JString) : Except JSError Nat × Store :=
  if s.faults s.clock then (.error storeError, { s with clock := s.clock + 1 })
  else
    (.ok s.clock,
      { s with
        clock := s.clock + 1,
        sessions := s.sessions ++
          [{ id := s.clock, owner := owner, title := title, createdAt := s.clock,
             updatedAt := s.clock, userID := owner }] })

/-- Model of `addDoc` on the `messages` collection of a session: the generated id.  The
session document need not exist. -/
def addMessageDoc (s : Store) (owner : JString) (chatId : Nat) (data : JSValue) :
    Except JSError Nat × Store :=
  if s.faults s.clock then (.error storeError, { s with clock := s.clock + 1 })
  else
    (.ok s.clock,
      { s with
        clock := s.clock + 1,
        messages := s.messages ++
          [{ id := s.clock, owner := owner, chatId := chatId,
             data := resolveTimestamps s.clock data }] })

/-- Model of `getDocs` on the `chatSessions` collection of a user. -/
def getSessionDocs (s : Store) (owner : JString) : Except JSError (List SessionDoc) × Store :=
  if s.faults s.clock then (.error storeError, { s with clock := s.clock + 1 })
  else (.ok (s.sessions.filter (fun d => d.owner = owner)), { s with clock := s.clock + 1 })

/-- Model of `getDocs` on the `messages` collection of a session. -/
def getMessageDocs (s : Store) (owner : JString) (chatId : Nat) :
    Except JSError (List MessageDoc) × Store :=
  if s.faults s.clock then (.error storeError, { s with clock := s.clock + 1 })
  else
    (.ok (s.messages.filter (fun d => d.owner = owner ∧ d.chatId = chatId)),
      { s with clock := s.clock + 1 })

/-- Model of `deleteDoc` on a session document: the one document is removed, the documents
of its subcollections stay. -/
def deleteSessionDoc (s : Store) (owner : JString) (id : Nat) : Except JSError Unit × Store :=
  if s.faults s.clock then (.error storeError, { s with clock := s.clock + 1 })
  else
    (.ok (),
      { s with
        clock := s.clock + 1,
        sessions := s.sessions.filter (fun d => ¬ (d.owner = owner ∧ d.id = id)) })

/-- Model of `deleteDoc(doc.ref)` on a message document. -/
def deleteMessageDoc (s : Store) (doc : MessageDoc) : Except JSError Unit × Store :=
  if s.faults s.clock then (.error storeError, { s with clock := s.clock + 1 })
  else
    (.ok (),
      { s with
        clock := s.clock + 1,
        messages := s.messages.filter
          (fun d => ¬ (d.owner = doc.owner ∧ d.chatId = doc.chatId ∧ d.id = doc.id)) })

/-- Model of `updateDoc(chatRef, { updatedAt: serverTimestamp() })`: it fails when the
document does not exist. -/
def touchSessionDoc (s : Store) (owner : JString) (id : Nat) : Except JSError Unit × Store :=
  if s.faults s.clock then (.error storeError, { s with clock := s.clock + 1 })
  else if s.sessions.any (fun d => d.owner = owner ∧ d.id = id) then
    (.ok (),
      { s with
        clock := s.clock + 1,
        sessions := s.sessions.map (fun d =>
          if d.owner = owner ∧ d.id = id then { d with updatedAt := s.clock } else d) })
  else (.error storeError, { s with clock := s.clock + 1 })

/-- Model of `Promise.all(docs.map(doc => deleteDoc(doc.ref)))`: every deletion is
requested; the error is that of the first deletion that failed. -/
def deleteMessageDocs (s : Store) : List MessageDoc → Option JSError × Store
  | [] => (none, s)
  | doc :: rest =>
    match deleteMessageDoc s doc with
    | (.error e, s1) => (some e, (deleteMessageDocs s1 rest).2)
    | (.ok _, s1) => deleteMessageDocs s1 rest

/-! ## The `Chat` component (`chat.js`, lines 575-1023) -/

/-- State of the `Chat` component (lines 577-597).  The field `user` is the id of the
logged-in user (`user && user.userID`), `uploadedFile` the name of the selected file. -/
structure ChatState where
  user : Option JString
  chatSessions : List SessionDoc
  activeChatId : Option Nat
  showNewChatInput : Bool
  newChatTitle : JString
  messages : List JSValue
  isLoading : Bool
  input : JString
  uploadedFile : Option JString
  uploadProgress : Nat
  citations : List CitationDoc

/-- The text of the welcome message. -/
def welcomeText : JString :=
  utf16 "Hello! Enter a paper title, DOI, or ISBN to get started. You can also upload a document for analysis."

/-- The welcome message shown in the conversation: `{ type: "bot", text: ... }`. -/
def welcomeMessage : JSValue :=
  .obj [(utf16 "type", .str (utf16 "bot")), (utf16 "text", .str welcomeText)]

/-- The welcome message as it is written to the store:
`{ type: "bot", text: ..., timestamp: serverTimestamp() }`. -/
def welcomeDocument : JSValue :=
  .obj [(utf16 "type", .str (utf16 "bot")), (utf16 "text", .str welcomeText),
    (utf16 "timestamp", serverTimestamp)]

/-- Initial state of the component for a user (lines 577-597). -/
def ChatState.initial (user : Option JString) : ChatState :=
  { user := user, chatSessions := [], activeChatId := none, showNewChatInput := false,
    newChatTitle := [], messages := [welcomeMessage], isLoading := false, input := [],
    uploadedFile := none, uploadProgress := 0, citations := [] }

/-- What running a handler gives: the component state after its updates, the store after
its requests, and the value the handler returns or the error it rejects with. -/
structure Effect (α : Type) where
  ui : ChatState
  store : Store
  result : Except JSError α

/-- Embedding of `createInitialChat` (lines 601-638).  Errors of the store are caught and
logged. -/
def createInitialChat (ui : ChatState) (store : Store) : Effect Unit :=
  match ui.user with
  | none => { ui := ui, store := store, result := .ok () }
  | some uid =>
    if ui.chatSessions.length = 0 ∧ ui.activeChatId = none then
      match getSessionDocs store uid with
      | (.error _, s1) => { ui := ui, store := s1, result := .ok () }
      | (.ok docs, s1) =>
        if docs.isEmpty then
          match addSessionDoc s1 uid (utf16 "Untitled") with
          | (.error _, s2) => { ui := ui, store := s2, result := .ok () }
          | (.ok id, s2) =>
            match addMessageDoc s2 uid id welcomeDocument with
            | (.error _, s3) => { ui := ui, store := s3, result := .ok () }
            | (.ok _, s3) =>
              { ui := { ui with activeChatId := some id }, store := s3, result := .ok () }
        else { ui := ui, store := s1, result := .ok () }
    else { ui := ui, store := store, result := .ok () }

/-- The updates of `createNewChatSession` after the two writes (lines 769-779): the new
chat becomes active when it was created by hand or the render has no active chat, and a
creation by hand clears the title input and hides it. -/
def newChatDisplay (cap cur : ChatState) (id : Nat) (isAuto : Bool) : ChatState :=
  if isAuto then
    if cap.activeChatId.isNone then { cur with activeChatId := some id } else cur
  else { cur with activeChatId := some id, newChatTitle := [], showNewChatInput := false }

/-- Embedding of `createNewChatSession` (lines 742-787).  The handler reads the state
`cap` of the render it was created in and its updates are applied to the current state
`cur`; the result is the new id, `none` for `null`.  The alerts are not modelled. -/
def createNewChatSession (cap cur : ChatState) (store : Store) (title : JString)
    (isAuto : Bool) : Effect (Option Nat) :=
  match cap.user with
  | none => { ui := cur, store := store, result := .ok none }
  | some uid =>
    match addSessionDoc store uid title with
    | (.error _, s1) => { ui := cur, store := s1, result := .ok none }
    | (.ok id, s1) =>
      match addMessageDoc s1 uid id welcomeDocument with
      | (.error _, s2) => { ui := cur, store := s2, result := .ok none }
      | (.ok _, s2) =>
        { ui := newChatDisplay cap cur id isAuto, store := s2, result := .ok (some id) }

/-- Embedding of `deleteChatSession` (lines 790-821); `confirmed` is the answer of
`window.confirm`.  The alert is not modelled. -/
def deleteChatSession (ui : ChatState) (store : Store) (chatId : Nat) (confirmed : Bool) :
    Effect Unit :=
  match ui.user with
  | none => { ui := ui, store := store, result := .ok () }
  | some uid =>
    if confirmed then
      match deleteSessionDoc store uid chatId with
      | (.error _, s1) => { ui := ui, store := s1, result := .ok () }
      | (.ok _, s1) =>
        if ui.activeChatId = some chatId then
          match ui.chatSessions.find? (fun chat => chat.id != chatId) with
          | some nextChat =>
            { ui := { ui with activeChatId := some nextChat.id }, store := s1, result := .ok () }
          | none =>
            { ui := { ui with activeChatId := none, messages := [welcomeMessage] },
              store := s1, result := .ok () }
        else { ui := ui, store := s1, result := .ok () }
    else { ui := ui, store := store, result := .ok () }

/-- Lines 830-840 of `saveMessageToFirestore`: the id of the chat to write to, a new
session being created when the render has no active chat; `none` when that failed. -/
def ensureActiveChat (cap cur : ChatState) (store : Store) : Effect (Option Nat) :=
  match cap.activeChatId with
  | some chatId => { ui := cur, store := store, result := .ok (some chatId) }
  | none => createNewChatSession cap cur store (utf16 "Untitled") true

/-- Embedding of `saveMessageToFirestore` (lines 824-865), with `cap` and `cur` as in
`createNewChatSession`.  Errors inside the `try` are caught and logged.  The checks
Firestore makes on the field values of a document are not modelled. -/
def saveMessageToFirestore (P : Platform) (cap cur : ChatState) (store : Store)
    (message : JSValue) : Effect Unit :=
  match cap.user with
  | none => { ui := cur, store := store, result := .ok () }
  | some uid =>
    match (ensureActiveChat cap cur store).result with
    | .ok (some chatId) =>
      match getProp message (utf16 "type") with
      | .error _ =>
        { ui := (ensureActiveChat cap cur store).ui,
          store := (ensureActiveChat cap cur store).store, result := .ok () }
      | .ok _ =>
        match serializeMessage P
            (.obj (setProp (spreadProps message) (utf16 "timestamp") serverTimestamp)) with
        | .error _ =>
          { ui := (ensureActiveChat cap cur store).ui,
            store := (ensureActiveChat cap cur store).store, result := .ok () }
        | .ok serializedMessage =>
          match addMessageDoc (ensureActiveChat cap cur store).store uid chatId
              serializedMessage with
          | (.error _, s1) =>
            { ui := (ensureActiveChat cap cur store).ui, store := s1, result := .ok () }
          | (.ok _, s1) =>
            { ui := (ensureActiveChat cap cur store).ui,
              store := (touchSessionDoc s1 uid chatId).2, result := .ok () }
    | _ =>
      { ui := (ensureActiveChat cap cur store).ui,
        store := (ensureActiveChat cap cur store).store, result := .ok () }

/-- White space and line terminators, the code units `String.prototype.trim` removes. -/
def isWhiteSpace (c : Nat) : Bool :=
  c = 9 || c = 10 || c = 11 || c = 12 || c = 13 || c = 32 || c = 160 || c = 5760 ||
    (8192 ≤ c && c ≤ 8202) || c = 8232 || c = 8233 || c = 8239 || c = 8287 || c = 12288 ||
    c = 65279

/-- Model of `String.prototype.trim`. -/
def trim (s : JString) : JString :=
  ((s.dropWhile isWhiteSpace).reverse.dropWhile isWhiteSpace).reverse

/-- Model of `String.prototype.toLowerCase` on the letters A to Z; other code units are
kept.  No other code unit lower-cases to a letter of the keywords the page compares with
(`clear`, `reset`), so the comparisons of line 890 are the same as with the full Unicode
mapping. -/
def toLowerCase (s : JString) : JString :=
  s.map (fun c => if 65 ≤ c ∧ c ≤ 90 then c + 32 else c)

/-- The guard of line 890:
`!input.trim() || input.toLowerCase() === "clear" || input.toLowerCase() === "reset"`. -/
def isResetInput (input : JString) : Bool :=
  (trim input).isEmpty || toLowerCase input == utf16 "clear" ||
    toLowerCase input == utf16 "reset"

/-- The first two updates of the reset branch (lines 891-895): the displayed messages
become the welcome message and the input is cleared. -/
def resetDisplay (ui : ChatState) : ChatState :=
  { ui with messages := [welcomeMessage], input := [] }

/-- The reset branch of `searchPaper` (lines 891-924).  It has no `try`: an error of the
store rejects the handler.  With no active chat, `activeChatId` is still `null` after the
session has been created (the handler keeps the state of its render), and `collection`
throws a TypeError on the `null` path segment. -/
def searchPaperReset (ui : ChatState) (store : Store) : Effect Unit :=
  match ui.user with
  | none => { ui := resetDisplay ui, store := store, result := .ok () }
  | some uid =>
    match ui.activeChatId with
    | none =>
      match (createNewChatSession ui (resetDisplay ui) store (utf16 "Untitled") true).result with
      | .ok (some _) =>
        { ui := (createNewChatSession ui (resetDisplay ui) store (utf16 "Untitled") true).ui,
          store :=
            (createNewChatSession ui (resetDisplay ui) store (utf16 "Untitled") true).store,
          result := .error .typeError }
      | _ =>
        { ui := (createNewChatSession ui (resetDisplay ui) store (utf16 "Untitled") true).ui,
          store :=
            (createNewChatSession ui (resetDisplay ui) store (utf16 "Untitled") true).store,
          result := .ok () }
    | some chatId =>
      match getMessageDocs store uid chatId with
      | (.error e, s1) => { ui := resetDisplay ui, store := s1, result := .error e }
      | (.ok docs, s1) =>
        match deleteMessageDocs s1 docs with
        | (some e, s2) => { ui := resetDisplay ui, store := s2, result := .error e }
        | (none, s2) =>
          match addMessageDoc s2 uid chatId welcomeDocument with
          | (.error e, s3) => { ui := resetDisplay ui, store := s3, result := .error e }
          | (.ok _, s3) => { ui := resetDisplay ui, store := s3, result := .ok () }

/-- Lines 933-942 of `searchPaper`, followed by the analysis: the user turn is added to
the displayed messages and saved, then `isLoading` is set and the input cleared.  The
argument `analysis` stands for lines 944-1022, the `try` around the analysis call with its
`catch` and `finally`: it is given the state of the render, the current state, the store
and `updatedMessages`. -/
def searchPaperSubmit (P : Platform)
    (analysis : ChatState → ChatState → Store → List JSValue → Effect Unit)
    (cap cur : ChatState) (store : Store) : Effect Unit :=
  analysis cap
    { (saveMessageToFirestore P cap
        { cur with messages := cap.messages ++ [userMessage (.str cap.input)] } store
        (userMessage (.str cap.input))).ui with isLoading := true, input := [] }
    (saveMessageToFirestore P cap
      { cur with messages := cap.messages ++ [userMessage (.str cap.input)] } store
      (userMessage (.str cap.input))).store
    (cap.messages ++ [userMessage (.str cap.input)])

/-- Embedding of `searchPaper` (lines 886-1023), with `analysis` as in
`searchPaperSubmit`. -/
def searchPaper (P : Platform)
    (analysis : ChatState → ChatState → Store → List JSValue → Effect Unit)
    (ui : ChatState) (store : Store) : Effect Unit :=
  if isResetInput ui.input then searchPaperReset ui store
  else if ui.user.isSome ∧ ui.activeChatId.isNone then
    match (createNewChatSession ui ui store (utf16 "Untitled") true).result with
    | .ok (some _) =>
      searchPaperSubmit P analysis ui
        (createNewChatSession ui ui store (utf16 "Untitled") true).ui
        (createNewChatSession ui ui store (utf16 "Untitled") true).store
    | _ =>
      { ui := (createNewChatSession ui ui store (utf16 "Untitled") true).ui,
        store := (createNewChatSession ui ui store (utf16 "Untitled") true).store,
        result := .ok () }
  else searchPaperSubmit P analysis ui ui store

/-- The messages of a session in the store. -/
def messagesOf (s : Store) (owner : JString) (chatId : Nat) : List MessageDoc :=
  s.messages.filter (fun d => d.owner = owner ∧ d.chatId = chatId)

/-- The sessions of a user in the store. -/
def sessionsOf (s : Store) (owner : JString) : List SessionDoc :=
  s.sessions.filter (fun d => d.owner = owner)

/-- The citations of a session in the store. -/
def citationsOf (s : Store) (owner : JString) (chatId : Nat) : List CitationDoc :=
  s.citations.filter (fun d => d.owner = owner ∧ d.chatId = chatId)

/-- Every session document of the store has at least one message document. -/
def EverySessionHasMessage (s : Store) : Prop :=
  ∀ d ∈ s.sessions, ∃ m ∈ s.messages, m.owner = d.owner ∧ m.chatId = d.id

/-- No request to the store fails. -/
def NoFaults (s : Store) : Prop := ∀ n, s.faults n = false

/-- The invariant together with the absence of failing requests. -/
def GoodStore (s : Store) : Prop := NoFaults s ∧ EverySessionHasMessage s

/-- The empty store in which no request fails. -/
def Store.empty : Store :=
  { sessions := [], messages := [], citations := [], clock := 0, faults := fun _ => false }

/-- Generated ids are fresh: every id in the store was generated by an earlier request. -/
def FreshIds (s : Store) : Prop :=
  (∀ d ∈ s.sessions, d.id < s.clock) ∧
    (∀ m ∈ s.messages, m.id < s.clock ∧ m.chatId < s.clock) ∧
    (∀ c ∈ s.citations, c.id < s.clock ∧ c.chatId < s.clock)

/-- The operations of the invariant of the session store, each with the state of the
render it runs in: the two session creations, the message append and the reset. -/
inductive StoreOp where
  | initialChat (ui : ChatState)
  | newChatSession (ui : ChatState) (title : JString) (isAuto : Bool)
  | saveMessage (ui : ChatState) (message : JSValue)
  | reset (ui : ChatState)

/-- The store after one operation. -/
def runOp (P : Platform) (store : Store) : StoreOp → Store
  | .initialChat ui => (createInitialChat ui store).store
  | .newChatSession ui title isAuto => (createNewChatSession ui ui store title isAuto).store
  | .saveMessage ui message => (saveMessageToFirestore P ui ui store message).store
  | .reset ui => (searchPaperReset ui store).store

/-- The store after a sequence of operations. -/
def runOps (P : Platform) (store : Store) (ops : List StoreOp) : Store :=
  ops.foldl (runOp P) store

/-- The welcome message as a stored document with timestamp `t`. -/
def storedWelcome (t : Nat) : JSValue :=
  .obj [(utf16 "type", .str (utf16 "bot")), (utf16 "text", .str welcomeText),
    (utf16 "timestamp", .num t)]

/-- An analysis that does nothing, for evaluations that do not reach it. -/
def noAnalysis : ChatState → ChatState → Store → List JSValue → Effect Unit :=
  fun _ cur store _ => { ui := cur, store := store, result := .ok () }

/-- Sample store: the user `u1` has two sessions; the session 1 holds the welcome message,
a user turn and a saved citation, the session 5 holds the welcome message. -/
def sampleStore : Store :=
  { sessions :=
      [⟨1, utf16 "u1", utf16 "Untitled", 1, 3, utf16 "u1"⟩,
        ⟨5, utf16 "u1", utf16 "Notes", 5, 5, utf16 "u1"⟩],
    messages :=
      [⟨2, utf16 "u1", 1, storedWelcome 2⟩,
        ⟨3, utf16 "u1", 1,
          .obj [(utf16 "type", .str (utf16 "user")), (utf16 "text", .str (utf16 "10.1/x")),
            (utf16 "timestamp", .num 3)]⟩,
        ⟨6, utf16 "u1", 5, storedWelcome 6⟩],
    citations :=
      [⟨4, utf16 "u1", 1,
          .obj [(utf16 "title", .str (utf16 "A")), (utf16 "doi", .str (utf16 "10.1/a")),
            (utf16 "userID", .str (utf16 "u1")), (utf16 "timestamp", .num 4)]⟩],
    clock := 7,
    faults := fun _ => false }

/-- Sample state of the page over `sampleStore`: the session 1 is active and `input` is
typed in the input field. -/
def samplePage (input : JString) : ChatState :=
  { user := some (utf16 "u1"), chatSessions := sampleStore.sessions, activeChatId := some 1,
    showNewChatInput := false, newChatTitle := [],
    messages := [welcomeMessage, userMessage (.str (utf16 "10.1/x"))], isLoading := false,
    input := input, uploadedFile := none, uploadProgress := 0, citations := [] }

/-- The user turn as it is written to the store at time `t`:
`{ type: "user", text: input, timestamp }`. -/
def storedUserTurn (input : JString) (t : Nat) : JSValue :=
  .obj [(utf16 "type", .str (utf16 "user")), (utf16 "text", .str input),
    (utf16 "timestamp", .num t)]

/-! ## The session list and the stored messages (`chat.js`, lines 644-717, 868-883) -/

/-- Model of the query `orderBy("updatedAt", "desc")` on the sessions of a user: the
session documents of the user, the most recently updated first. -/
def sessionsByUpdatedAt (s : Store) (owner : JString) : List SessionDoc :=
  (sessionsOf s owner).insertionSort (fun a b => b.updatedAt ≤ a.updatedAt)

/-- The callback of `onSnapshot` (lines 652-665).  The effect that subscribes runs when
the user changes (its dependencies are `[user, user?.userID]`), so the callback reads
`activeChatId` from the state `cap` of that render at every snapshot; its updates are
applied to the current state `cur`. -/
def onSessionsSnapshot (cap cur : ChatState) (sessionsData : List SessionDoc) : ChatState :=
  match sessionsData with
  | [] => { cur with chatSessions := sessionsData }
  | first :: _ =>
    if cap.activeChatId.isNone ∧ 0 < sessionsData.length then
      { cur with chatSessions := sessionsData, activeChatId := some first.id }
    else { cur with chatSessions := sessionsData }

/-- The click on a session of the list (line 1242): `setActiveChatId(chat.id)`. -/
def selectChat (cur : ChatState) (id : Nat) : ChatState :=
  { cur with activeChatId := some id }

/-- Model of `updateDoc(chatRef, { title: newTitle, updatedAt: serverTimestamp() })`: it
fails when the document does not exist. -/
def renameSessionDoc (s : Store) (owner : JString) (id : Nat) (title : JString) :
    Except JSError Unit × Store :=
  if s.faults s.clock then (.error storeError, { s with clock := s.clock + 1 })
  else if s.sessions.any (fun d => d.owner = owner ∧ d.id = id) then
    (.ok (),
      { s with
        clock := s.clock + 1,
        sessions := s.sessions.map (fun d =>
          if d.owner = owner ∧ d.id = id then
            { d with title := title, updatedAt := s.clock }
          else d) })
  else (.error storeError, { s with clock := s.clock + 1 })

/-- Embedding of `renameChatSession` (lines 868-883).  Errors of the store are caught and
logged; the alert is not modelled. -/
def renameChatSession (ui : ChatState) (store : Store) (chatId : Nat) (newTitle : JString) :
    Effect Unit :=
  match ui.user with
  | none => { ui := ui, store := store, result := .ok () }
  | some uid =>
    { ui := ui, store := (renameSessionDoc store uid chatId newTitle).2, result := .ok () }

/-- The server time in the `timestamp` field of a message document, when it has one. -/
def timestampOf (doc : MessageDoc) : Option Int :=
  match doc.data with
  | .obj props =>
    match getOwn props (utf16 "timestamp") with
    | .num t => some t
    | _ => none
  | _ => none

/-- The order of the query `orderBy("timestamp", "asc")` on documents with a time. -/
def timestampLE (a b : MessageDoc) : Prop :=
  (timestampOf a).getD 0 ≤ (timestampOf b).getD 0

instance : DecidableRel timestampLE := fun a b =>
  inferInstanceAs (Decidable ((timestampOf a).getD 0 ≤ (timestampOf b).getD 0))

/-- Model of the query `orderBy("timestamp", "asc")` on the messages of a session: the
documents of the session whose `timestamp` is a server time, the earliest first.  A
document without the field is not returned by an ordered query; the page writes no other
kind of `timestamp`. -/
def messagesByTimestamp (s : Store) (owner : JString) (chatId : Nat) : List MessageDoc :=
  ((messagesOf s owner chatId).filter (fun d => (timestampOf d).isSome)).insertionSort
    timestampLE

/-- Model of `getDocs(query(messagesRef, orderBy("timestamp", "asc")))`. -/
def getOrderedMessageDocs (s : Store) (owner : JString) (chatId : Nat) :
    Except JSError (List MessageDoc) × Store :=
  if s.faults s.clock then (.error storeError, { s with clock := s.clock + 1 })
  else (.ok (messagesByTimestamp s owner chatId), { s with clock := s.clock + 1 })

/-- The id of a document as the string `doc.id`. -/
def docId (id : Nat) : JSValue := .str (natToDecimal id)

/-- The callback mapped over `snapshot.docs` (lines 702-710): the fields of the document
are read and `{ id, type, text, timestamp }` is handed to `deserializeMessage`. -/
def loadMessage (P : Platform) (doc : MessageDoc) : Except JSError JSValue :=
  match getProp doc.data (utf16 "type") with
  | .error e => .error e
  | .ok type =>
    match getProp doc.data (utf16 "text") with
    | .error e => .error e
    | .ok text =>
      match getProp doc.data (utf16 "timestamp") with
      | .error e => .error e
      | .ok timestamp => deserializeMessage P (loadedMessage (docId doc.id) type text timestamp)

/-- The `map` of lines 702-710 over the documents of the snapshot. -/
def loadMessages (P : Platform) : List MessageDoc → Except JSError (List JSValue)
  | [] => .ok []
  | doc :: rest =>
    match loadMessage P doc with
    | .error e => .error e
    | .ok message =>
      match loadMessages P rest with
      | .error e => .error e
      | .ok messages => .ok (message :: messages)

/-- Embedding of `loadChatMessages` (lines 679-717).  It is called by the effect of lines
671-676 in the render `cap` in which `activeChatId` changed; its update is applied to the
current state `cur`.  Errors inside the `try` are caught and logged. -/
def loadChatMessages (P : Platform) (cap cur : ChatState) (store : Store) : Effect Unit :=
  match cap.user, cap.activeChatId with
  | some uid, some chatId =>
    match getOrderedMessageDocs store uid chatId with
    | (.error _, s1) => { ui := cur, store := s1, result := .ok () }
    | (.ok docs, s1) =>
      if docs.isEmpty then
        { ui := { cur with messages := [welcomeMessage] }, store := s1, result := .ok () }
      else
        match loadMessages P docs with
        | .error _ => { ui := cur, store := s1, result := .ok () }
        | .ok loadedMessages =>
          { ui := { cur with messages := loadedMessages }, store := s1, result := .ok () }
  | _, _ => { ui := cur, store := store, result := .ok () }

/-! ## The analysis of a paper and of a document (`chat.js`, lines 944-1128) -/

/-- ToString of an object, by OrdinaryToPrimitive with hint string.  Without an own
`toString` property the inherited `Object.prototype.toString` writes `[object Object]`.
An own `toString` that is not a function is passed over, and so is `valueOf` (an own one
that is not a function, or the inherited one, which returns the object): a TypeError.
Functions have no behaviour in this model, so an own method that is a function is not
called: the object is then written as `[object Object]`. -/
def objectToString (props : Props) : Except JSError JString :=
  if hasOwn props (utf16 "toString") then
    match getOwn props (utf16 "toString") with
    | .func _ => .ok (utf16 "[object Object]")
    | _ =>
      match getOwn props (utf16 "valueOf") with
      | .func _ => .ok (utf16 "[object Object]")
      | _ => .error .typeError
  else .ok (utf16 "[object Object]")

mutual
/-- ToString, as applied by a template literal.  A number is written by the platform's
Number::toString; a symbol throws a TypeError; an array is written by `join`, an object by
`objectToString`.  The text of a function, its source text, is not modelled: it is taken to
be the name of the function. -/
def toStringJS (P : Platform) : JSValue → Except JSError JString
  | .undefined => .ok (utf16 "undefined")
  | .null => .ok (utf16 "null")
  | .bool true => .ok (utf16 "true")
  | .bool false => .ok (utf16 "false")
  | .num n => .ok (P.numberToString (.num n))
  | .frac m f => .ok (P.numberToString (.frac m f))
  | .str s => .ok s
  | .symbol _ => .error .typeError
  | .func name => .ok name
  | .arr items =>
    match toStringItems P items with
    | .error e => .error e
    | .ok texts => .ok (joinComma texts)
  | .obj props => objectToString props
/-- The texts `Array.prototype.join` joins: empty for `undefined` and `null`. -/
def toStringItems (P : Platform) : List JSValue → Except JSError (List JString)
  | [] => .ok []
  | .undefined :: rest =>
    match toStringItems P rest with
    | .error e => .error e
    | .ok texts => .ok ([] :: texts)
  | .null :: rest =>
    match toStringItems P rest with
    | .error e => .error e
    | .ok texts => .ok ([] :: texts)
  | x :: rest =>
    match toStringJS P x with
    | .error e => .error e
    | .ok text =>
      match toStringItems P rest with
      | .error e => .error e
      | .ok texts => .ok (text :: texts)
end

/-- Optional chaining `value?.key`. -/
def optionalProp (value : JSValue) (key : JString) : Except JSError JSValue :=
  match value with
  | .undefined => .ok .undefined
  | .null => .ok .undefined
  | _ => getProp value key

/-- The expression `error.response?.data?.error || error.message || "Unknown error"` of
lines 1009 and 1114. -/
def errorDetail (error : JSValue) : Except JSError JSValue :=
  match getProp error (utf16 "response") with
  | .error e => .error e
  | .ok response =>
    match optionalProp response (utf16 "data") with
    | .error e => .error e
    | .ok data =>
      match optionalProp data (utf16 "error") with
      | .error e => .error e
      | .ok serviceError =>
        if truthy serviceError then .ok serviceError
        else
          match getProp error (utf16 "message") with
          | .error e => .error e
          | .ok message =>
            if truthy message then .ok message else .ok (.str (utf16 "Unknown error"))

/-- The template literal of the error message: `before`, the detail of the error and
`after`. -/
def errorText (P : Platform) (before after : JString) (error : JSValue) :
    Except JSError JString :=
  match errorDetail error with
  | .error e => .error e
  | .ok detail =>
    match toStringJS P detail with
    | .error e => .error e
    | .ok text => .ok (before ++ text ++ after)

/-- A bot turn: `{ type: "bot", text }`. -/
def botMessage (text : JSValue) : JSValue :=
  .obj [(utf16 "type", .str (utf16 "bot")), (utf16 "text", text)]

/-- The `try`, `catch` and `finally` of lines 944-1022 and of lines 1057-1127, which have
the same shape.  `attempt` is what the `try` block gives up to the JSX expression: the
element built from the data of the response, or the value thrown (the rejection of the
HTTP call, or what building the element throws).  The element is saved as a bot turn and
shown after `updatedMessages`, followed by the updates `onSuccess`; a thrown value is
turned into an error message that is saved and shown in the same way.  The `catch` clause
has no `try` of its own: when building its text throws, the handler rejects.  In every
case the `finally` updates `atLast` are made. -/
def runAnalysis (P : Platform) (attempt : Except JSValue JSValue) (before after : JString)
    (onSuccess atLast : ChatState → ChatState) (cap cur : ChatState) (store : Store)
    (updatedMessages : List JSValue) : Effect Unit :=
  match attempt with
  | .ok element =>
    { ui := atLast (onSuccess
        { (saveMessageToFirestore P cap cur store (botMessage element)).ui with
          messages := updatedMessages ++ [botMessage element] }),
      store := (saveMessageToFirestore P cap cur store (botMessage element)).store,
      result := .ok () }
  | .error error =>
    match errorText P before after error with
    | .error e => { ui := atLast cur, store := store, result := .error e }
    | .ok text =>
      { ui := atLast
          { (saveMessageToFirestore P cap cur store (botMessage (.str text))).ui with
            messages := updatedMessages ++ [botMessage (.str text)] },
        store := (saveMessageToFirestore P cap cur store (botMessage (.str text))).store,
        result := .ok () }

/-- What the `try` block gives up to the JSX expression: `post` is the HTTP call, giving
the `data` of the response or the error it rejects with, and `report` is the JSX
expression, which reads the fields of `data` and the user id and may throw. -/
def analysisAttempt (post : JSValue → Except JSValue JSValue)
    (report : JSValue → Option JString → Except JSValue JSValue) (request : JSValue)
    (user : Option JString) : Except JSValue JSValue :=
  match post request with
  | .error error => .error error
  | .ok data => report data user

/-- The request body `{ identifier: input }` of line 945. -/
def analyzeRequest (input : JString) : JSValue :=
  .obj [(utf16 "identifier", .str input)]

/-- Lines 944-1022 of `searchPaper`: the call of `/api/analyze-paper` with the input of
the render, the bot turn or the error message, and `setIsLoading(false)` at last. -/
def analyzePaper (P : Platform) (post : JSValue → Except JSValue JSValue)
    (report : JSValue → Option JString → Except JSValue JSValue) :
    ChatState → ChatState → Store → List JSValue → Effect Unit :=
  fun cap cur store updatedMessages =>
    runAnalysis P (analysisAttempt post report (analyzeRequest cap.input) cap.user)
      (utf16 "Error analyzing paper: ")
      (utf16 ". Please try again with a different identifier.")
      (fun ui => ui) (fun ui => { ui with isLoading := false }) cap cur store updatedMessages

/-- The user turn of `uploadDocument` (lines 1039-1042). -/
def uploadMessage (name : JString) : JSValue :=
  userMessage (.str (utf16 "Uploading document: " ++ name))

/-- Lines 1039-1127 of `uploadDocument`, for the file `name`: the user turn is added to
the displayed messages and saved, `isLoading` is set, then the call of
`/api/upload-document` (`post` is given the name of the file in place of the form data),
the bot turn or the error message.  The progress shown during the upload is not modelled:
`uploadProgress` is reset at last in every case. -/
def uploadDocumentSubmit (P : Platform) (post : JSValue → Except JSValue JSValue)
    (report : JSValue → Option JString → Except JSValue JSValue) (name : JString)
    (cap cur : ChatState) (store : Store) : Effect Unit :=
  runAnalysis P (analysisAttempt post report (.str name) cap.user)
    (utf16 "Error analyzing document: ")
    (utf16 ". Please try a different file or format.")
    (fun ui => { ui with uploadedFile := none, uploadProgress := 0 })
    (fun ui => { ui with isLoading := false, uploadProgress := 0 })
    cap
    { (saveMessageToFirestore P cap
        { cur with messages := cap.messages ++ [uploadMessage name] } store
        (uploadMessage name)).ui with isLoading := true }
    (saveMessageToFirestore P cap
      { cur with messages := cap.messages ++ [uploadMessage name] } store
      (uploadMessage name)).store
    (cap.messages ++ [uploadMessage name])

/-- Embedding of `uploadDocument` (lines 1026-1128); `uploadedFile` holds the name of the
selected file.  The alert is not modelled. -/
def uploadDocument (P : Platform) (post : JSValue → Except JSValue JSValue)
    (report : JSValue → Option JString → Except JSValue JSValue)
    (ui : ChatState) (store : Store) : Effect Unit :=
  match ui.uploadedFile with
  | none => { ui := ui, store := store, result := .ok () }
  | some name =>
    if ui.user.isSome ∧ ui.activeChatId.isNone then
      match (createNewChatSession ui ui store (utf16 "Untitled") true).result with
      | .ok (some _) =>
        uploadDocumentSubmit P post report name ui
          (createNewChatSession ui ui store (utf16 "Untitled") true).ui
          (createNewChatSession ui ui store (utf16 "Untitled") true).store
      | _ =>
        { ui := (createNewChatSession ui ui store (utf16 "Untitled") true).ui,
          store := (createNewChatSession ui ui store (utf16 "Untitled") true).store,
          result := .ok () }
    else uploadDocumentSubmit P post report name ui ui store

/-! ## Sample runs of the page -/

/-- The page of the user `u1` in the render in which the session list was subscribed to:
the initial state, no session being selected. -/
def subscribedPage : ChatState := ChatState.initial (some (utf16 "u1"))

/-- The page after the first snapshot of the sessions of `sampleStore`. -/
def pageAfterFirstSnapshot : ChatState :=
  onSessionsSnapshot subscribedPage subscribedPage
    (sessionsByUpdatedAt sampleStore (utf16 "u1"))

/-- The user then selects the session 1 and renames the session 5. -/
def pageAfterRename : Effect Unit :=
  renameChatSession (selectChat pageAfterFirstSnapshot 1) sampleStore 5 (utf16 "Notes 2")

/-- The page after the snapshot that follows the renaming. -/
def pageAfterSecondSnapshot : ChatState :=
  onSessionsSnapshot subscribedPage pageAfterRename.ui
    (sessionsByUpdatedAt pageAfterRename.store (utf16 "u1"))

/-- The sample store when every request to it fails. -/
def offlineStore : Store := { sampleStore with faults := fun _ => true }

/-- The sample page with no active session and the file `paper.pdf` selected. -/
def pageWithoutChat (input : JString) : ChatState :=
  { samplePage input with activeChatId := none, uploadedFile := some (utf16 "paper.pdf") }

/-- The error of a call the service answers with status 404 and the body
`{ error: "Paper not found" }`. -/
def notFoundError : JSValue :=
  .obj [(utf16 "message", .str (utf16 "Request failed with status code 404")),
    (utf16 "response", .obj [(utf16 "status", .num 404),
      (utf16 "data", .obj [(utf16 "error", .str (utf16 "Paper not found"))])])]

/-- An error of the HTTP call whose response carries the number 10^21 as `error`. -/
def numericError : JSValue :=
  .obj [(utf16 "message", .str (utf16 "Request failed with status code 500")),
    (utf16 "response", .obj [(utf16 "status", .num 500),
      (utf16 "data", .obj [(utf16 "error", .num (10 ^ 21))])])]

/-- A report for sample runs: an empty `div` element, whatever the data. -/
def sampleReport : JSValue → Option JString → Except JSValue JSValue :=
  fun _ _ => .ok (createElement (.str (utf16 "div")) [(utf16 "className", .str (utf16 "bot-response"))])

/-- A renderer for sample runs: every element is rendered as an empty `div`. -/
def sampleRenderer : JSValue → Except JSError JString :=
  fun _ => .ok (utf16 "<div class=\"bot-response\"></div>")

/-- A response of the service with the given status. -/
def responseWith (status : String) : Except JSError JSValue :=
  .ok (.obj [(utf16 "verification_status", .str (utf16 status))])

/-- Sample outcomes of eight calls: two `verified`, one each `pending`, `in_progress`,
`retracted`, `not_found` and `failed`, and one rejected call. -/
def sampleOutcomes (i : Nat) (_ : JSValue) : Except JSError JSValue :=
  if i = 0 then responseWith "verified"
  else if i = 1 then responseWith "pending"
  else if i = 2 then responseWith "not_found"
  else if i = 3 then responseWith "verified"
  else if i = 4 then responseWith "in_progress"
  else if i = 5 then responseWith "failed"
  else if i = 6 then responseWith "retracted"
  else .error (.other (utf16 "Network Error"))

/-- Eight references, `Paper 0` to `Paper 7`. -/
def sampleReferences : List JSValue :=
  (List.range 8).map
    (fun i => .obj [(utf16 "title", .str (utf16 "Paper " ++ natToDecimal i))])

/-! ## Round trip of the JSON models -/

theorem parseChars_quote (rest : List Nat) : parseChars (34 :: rest) = some ([], rest) := by
  rw [parseChars.eq_def]; simp

theorem parseChars_plain (c : Nat) (cs : List Nat) (h1 : c ≠ 34) (h2 : c ≠ 92) (h3 : ¬ c < 32) :
    parseChars (c :: cs) =
      match parseChars cs with
      | some (s, r) => some (c :: s, r)
      | none => none := by
  rw [parseChars.eq_def]; simp [h1, h2, h3]

theorem parseChars_escape (e u : Nat) (cs : List Nat) (h : e ≠ 117) (hu : unescape e = some u) :
    parseChars (92 :: e :: cs) =
      match parseChars cs with
      | some (s, r) => some (u :: s, r)
      | none => none := by
  rw [parseChars.eq_def]; simp [h, hu]

theorem parseChars_u (h1 h2 h3 h4 a b x d : Nat) (cs : List Nat)
    (e1 : hexVal h1 = some a) (e2 : hexVal h2 = some b) (e3 : hexVal h3 = some x)
    (e4 : hexVal h4 = some d) :
    parseChars (92 :: 117 :: h1 :: h2 :: h3 :: h4 :: cs) =
      match parseChars cs with
      | some (s, r) => some ((a * 4096 + b * 256 + x * 16 + d) :: s, r)
      | none => none := by
  rw [parseChars.eq_def]; simp [e1, e2, e3, e4]

theorem hexVal_hexDigit (n : Nat) (h : n < 16) : hexVal (hexDigit n) = some n := by
  interval_cases n <;> rfl

theorem parseChars_unicodeEscape (c : Nat) (hc : c < 65536) (tail : List Nat) :
    parseChars (unicodeEscape c ++ tail) =
      match parseChars tail with
      | some (s, r) => some (c :: s, r)
      | none => none := by
  have h1 := hexVal_hexDigit (c / 4096 % 16) (Nat.mod_lt _ (by decide))
  have h2 := hexVal_hexDigit (c / 256 % 16) (Nat.mod_lt _ (by decide))
  have h3 := hexVal_hexDigit (c / 16 % 16) (Nat.mod_lt _ (by decide))
  have h4 := hexVal_hexDigit (c % 16) (Nat.mod_lt _ (by decide))
  have hsum : c / 4096 % 16 * 4096 + c / 256 % 16 * 256 + c / 16 % 16 * 16 + c % 16 = c := by
    omega
  have := parseChars_u _ _ _ _ _ _ _ _ tail h1 h2 h3 h4
  rw [hsum] at this
  simpa [unicodeEscape] using this

theorem surrogate_lt (c : Nat) (h : isLeadingSurrogate c = true ∨ isTrailingSurrogate c = true) :
    c < 65536 := by
  simp [isLeadingSurrogate, isTrailingSurrogate] at h
  omega

theorem parseChars_quoteUnit (c : Nat) (tail : List Nat) :
    parseChars (quoteUnit c ++ tail) =
      match parseChars tail with
      | some (s, r) => some (c :: s, r)
      | none => none := by
  unfold quoteUnit
  split_ifs with h8 h9 h10 h12 h13 h34 h92 hlt hlead htrail
  · subst h8; exact parseChars_escape 98 8 _ (by decide) rfl
  · subst h9; exact parseChars_escape 116 9 _ (by decide) rfl
  · subst h10; exact parseChars_escape 110 10 _ (by decide) rfl
  · subst h12; exact parseChars_escape 102 12 _ (by decide) rfl
  · subst h13; exact parseChars_escape 114 13 _ (by decide) rfl
  · subst h34; exact parseChars_escape 34 34 _ (by decide) rfl
  · subst h92; exact parseChars_escape 92 92 _ (by decide) rfl
  · exact parseChars_unicodeEscape c (by omega) tail
  · exact parseChars_unicodeEscape c (surrogate_lt c (Or.inl hlead)) tail
  · exact parseChars_unicodeEscape c (surrogate_lt c (Or.inr htrail)) tail
  · exact parseChars_plain c _ h34 h92 hlt

theorem leading_plain (c : Nat) (h : isLeadingSurrogate c = true) :
    c ≠ 34 ∧ c ≠ 92 ∧ ¬ c < 32 := by
  simp [isLeadingSurrogate] at h
  omega

theorem trailing_plain (c : Nat) (h : isTrailingSurrogate c = true) :
    c ≠ 34 ∧ c ≠ 92 ∧ ¬ c < 32 := by
  simp [isTrailingSurrogate] at h
  omega

theorem quoteBody_nil : quoteBody [] = [] := rfl

theorem quoteBody_single (c : Nat) : quoteBody [c] = quoteUnit c := rfl

theorem quoteBody_cons_cons (c d : Nat) (tl : JString) :
    quoteBody (c :: d :: tl) =
      if isLeadingSurrogate c && isTrailingSurrogate d then c :: d :: quoteBody tl
      else quoteUnit c ++ quoteBody (d :: tl) := rfl

theorem parseChars_quoteBody_aux (n : Nat) :
    ∀ (s : JString) (rest : List Nat), s.length ≤ n →
      parseChars (quoteBody s ++ 34 :: rest) = some (s, rest) := by
  induction n with
  | zero =>
    intro s rest hs
    have : s = [] := List.length_eq_zero.mp (by omega)
    subst this
    rw [quoteBody_nil]; exact parseChars_quote rest
  | succ n ih =>
    intro s rest hs
    match s, hs with
    | [], _ => rw [quoteBody_nil]; exact parseChars_quote rest
    | [c], _ =>
      rw [quoteBody_single, parseChars_quoteUnit, parseChars_quote]
    | c :: d :: tl, hs =>
      rw [quoteBody_cons_cons]
      split_ifs with h
      · simp only [Bool.and_eq_true] at h
        obtain ⟨h34, h92, hlt⟩ := leading_plain c h.1
        obtain ⟨g34, g92, glt⟩ := trailing_plain d h.2
        have iht := ih tl rest (by simp at hs; omega)
        simp only [List.cons_append]
        rw [parseChars_plain c _ h34 h92 hlt, parseChars_plain d _ g34 g92 glt, iht]
      · have iht := ih (d :: tl) rest (by simp at hs ⊢; omega)
        rw [List.append_assoc, parseChars_quoteUnit, iht]

theorem parseChars_quoteBody (s : JString) (rest : List Nat) :
    parseChars (quoteBody s ++ 34 :: rest) = some (s, rest) :=
  parseChars_quoteBody_aux s.length s rest (Nat.le_refl _)

theorem parseDigits_append (ds rest : List Nat) (a : Nat)
    (hds : ∀ d ∈ ds, 48 ≤ d ∧ d ≤ 57)
    (hrest : ∀ c tl, rest = c :: tl → ¬ (48 ≤ c ∧ c ≤ 57)) :
    parseDigits (ds ++ rest) a = (ds.foldl (fun a d => a * 10 + (d - 48)) a, rest) := by
  induction ds generalizing a with
  | nil =>
    cases rest with
    | nil => rfl
    | cons c tl =>
      have := hrest c tl rfl
      simp [parseDigits, this]
  | cons d ds ih =>
    have hd := hds d (by simp)
    simp only [List.cons_append, parseDigits, hd, and_self, if_true, List.foldl_cons]
    exact ih _ (fun x hx => hds x (by simp [hx]))

theorem decimalDigits_spec (fuel : Nat) :
    ∀ (n : Nat) (acc : JString), n < fuel →
      ∃ d ds, decimalDigits fuel n acc = d :: (ds ++ acc) ∧ (48 ≤ d ∧ d ≤ 57) ∧
        (∀ x ∈ ds, 48 ≤ x ∧ x ≤ 57) ∧
        (d :: ds).foldl (fun a x => a * 10 + (x - 48)) 0 = n ∧
        (d = 48 → n = 0 ∧ ds = []) := by
  induction fuel with
  | zero => intro n acc h; omega
  | succ fuel ih =>
    intro n acc h
    by_cases h10 : n < 10
    · refine ⟨48 + n, [], ?_, by omega, by simp, by simp, ?_⟩
      · simp [decimalDigits, h10]
      · intro h48; exact ⟨by omega, rfl⟩
    · obtain ⟨d, ds, h1, h2, h3, h4, h5⟩ := ih (n / 10) ((48 + n % 10) :: acc) (by omega)
      refine ⟨d, ds ++ [48 + n % 10], ?_, h2, ?_, ?_, ?_⟩
      · simp [decimalDigits, h10, h1]
      · intro x hx
        rcases List.mem_append.mp hx with hx | hx
        · exact h3 x hx
        · simp at hx; omega
      · rw [← List.cons_append, List.foldl_append, h4]
        simp
        omega
      · intro h48
        have := (h5 h48).1
        omega

/-- The decimal text of a natural number: digits without a leading zero, whose value is
the number. -/
theorem natToDecimal_spec (n : Nat) :
    ∃ d ds, natToDecimal n = d :: ds ∧ (48 ≤ d ∧ d ≤ 57) ∧ (∀ x ∈ ds, 48 ≤ x ∧ x ≤ 57) ∧
      (d :: ds).foldl (fun a x => a * 10 + (x - 48)) 0 = n ∧ (d = 48 → n = 0 ∧ ds = []) := by
  obtain ⟨d, ds, h1, h2, h3, h4, h5⟩ := decimalDigits_spec (n + 1) n [] (by omega)
  exact ⟨d, ds, by rw [natToDecimal, h1, List.append_nil], h2, h3, h4, h5⟩

theorem parseNat_digits (d : Nat) (ds rest : List Nat) (hd : 48 ≤ d ∧ d ≤ 57)
    (hds : ∀ x ∈ ds, 48 ≤ x ∧ x ≤ 57) (h0 : d = 48 → ds = [])
    (hrest : ∀ c tl, rest = c :: tl → ¬ (48 ≤ c ∧ c ≤ 57)) :
    parseNat (d :: (ds ++ rest)) =
      some ((d :: ds).foldl (fun a x => a * 10 + (x - 48)) 0, rest) := by
  by_cases h48 : d = 48
  · have := h0 h48
    subst this
    simp [parseNat, h48]
  · have hd2 : 49 ≤ d ∧ d ≤ 57 := by omega
    simp only [parseNat, h48, if_false, hd2, and_self, if_true]
    rw [parseDigits_append ds rest _ hds hrest]
    simp

theorem parseNat_natToDecimal (n : Nat) (rest : List Nat)
    (hrest : ∀ c tl, rest = c :: tl → ¬ (48 ≤ c ∧ c ≤ 57)) :
    parseNat (natToDecimal n ++ rest) = some (n, rest) := by
  obtain ⟨d, ds, h1, h2, h3, h4, h5⟩ := natToDecimal_spec n
  rw [h1, List.cons_append, parseNat_digits d ds rest h2 h3 (fun h => (h5 h).2) hrest, h4]

theorem natToDecimal_head (n : Nat) :
    ∃ d ds, natToDecimal n = d :: ds ∧ 48 ≤ d ∧ d ≤ 57 := by
  obtain ⟨d, ds, h1, h2, -⟩ := natToDecimal_spec n
  exact ⟨d, ds, h1, h2⟩

theorem atDelimiter_not_digit {rest : List Nat} (h : AtDelimiter rest) :
    ∀ c tl, rest = c :: tl → ¬ (48 ≤ c ∧ c ≤ 57) := by
  intro c tl e
  have := h c tl e
  omega

theorem parseFraction_none (n : Nat) (rest : List Nat)
    (h : ∀ c tl, rest = c :: tl → c ≠ 46) : parseFraction n rest = some (n, 0, rest) := by
  cases rest with
  | nil => rfl
  | cons c tl => simp [parseFraction, h c tl rfl]

theorem parseFraction_digits (n d : Nat) (ds rest : List Nat) (hd : 48 ≤ d ∧ d ≤ 57)
    (hds : ∀ x ∈ ds, 48 ≤ x ∧ x ≤ 57)
    (hrest : ∀ c tl, rest = c :: tl → ¬ (48 ≤ c ∧ c ≤ 57)) :
    parseFraction n (46 :: d :: (ds ++ rest)) =
      some ((d :: ds).foldl (fun a x => a * 10 + (x - 48)) n, ds.length + 1, rest) := by
  have hall : ∀ x ∈ d :: ds, 48 ≤ x ∧ x ≤ 57 := by
    intro x hx
    rcases List.mem_cons.mp hx with rfl | hx
    · exact hd
    · exact hds x hx
  have hp := parseDigits_append (d :: ds) rest n hall hrest
  rw [List.cons_append] at hp
  simp only [parseFraction, if_true, hd, and_self, hp]
  simp
  omega

theorem parseExponentDigits_natToDecimal (x : Nat) (rest : List Nat)
    (hrest : ∀ c tl, rest = c :: tl → ¬ (48 ≤ c ∧ c ≤ 57)) :
    parseExponentDigits (natToDecimal x ++ rest) = some (x, rest) := by
  obtain ⟨d, ds, h1, h2, h3, h4, -⟩ := natToDecimal_spec x
  have hall : ∀ y ∈ d :: ds, 48 ≤ y ∧ y ≤ 57 := by
    intro y hy
    rcases List.mem_cons.mp hy with rfl | hy
    · exact h2
    · exact h3 y hy
  have hp := parseDigits_append (d :: ds) rest 0 hall hrest
  rw [List.cons_append] at hp
  rw [h1, List.cons_append]
  simp only [parseExponentDigits, h2, and_self, if_true, hp, h4]

theorem parseExponent_none (rest : List Nat) (h : AtDelimiter rest) :
    parseExponent rest = some (0, rest) := by
  cases rest with
  | nil => rfl
  | cons c tl =>
    have := h c tl rfl
    have h1 : ¬ (c = 101 ∨ c = 69) := by omega
    simp [parseExponent, h1]

theorem parseExponent_signed (negative : Bool) (x : Nat) (rest : List Nat)
    (hrest : AtDelimiter rest) :
    parseExponent (101 :: exponentSign negative :: (natToDecimal x ++ rest)) =
      some (signed negative x, rest) := by
  have hp := parseExponentDigits_natToDecimal x rest (atDelimiter_not_digit hrest)
  cases negative
  · simp [parseExponent, exponentSign, signed, hp]
  · simp [parseExponent, exponentSign, signed, hp]

theorem foldl_digits_zeros (z : Nat) :
    (List.replicate z 48).foldl (fun a x => a * 10 + (x - 48)) 0 = 0 := by
  induction z with
  | zero => rfl
  | succ z ih => simpa [List.replicate_succ] using ih

/-- Reading the exponential form of the digits of `m`. -/
theorem parseUnsigned_exponentForm (sign negative : Bool) (m x : Nat) (rest : List Nat)
    (hrest : AtDelimiter rest) :
    parseUnsigned sign (exponentForm (natToDecimal m) negative x ++ rest) =
      some (mkNumber sign m (signed negative x - (((natToDecimal m).length - 1 : Nat) : Int)),
        rest) := by
  obtain ⟨d, ds, h1, h2, h3, h4, h5⟩ := natToDecimal_spec m
  have hexp := parseExponent_signed negative x rest hrest
  rw [h1]
  cases ds with
  | nil =>
    have hn := parseNat_digits d [] (101 :: exponentSign negative :: (natToDecimal x ++ rest))
      h2 (by simp) (fun _ => rfl) (by intro c tl e; cases e; omega)
    simp only [List.nil_append] at hn
    have hfn := parseFraction_none ([d].foldl (fun a x => a * 10 + (x - 48)) 0)
      (101 :: exponentSign negative :: (natToDecimal x ++ rest))
      (by intro c tl e; cases e; omega)
    rw [h4] at hn hfn
    simp only [exponentForm, List.cons_append, parseUnsigned, hn, hfn, hexp]
    simp
  | cons e es =>
    have he := h3 e (by simp)
    have hes : ∀ y ∈ es, 48 ≤ y ∧ y ≤ 57 := fun y hy => h3 y (by simp [hy])
    have hn := parseNat_digits d []
      (46 :: e :: (es ++ 101 :: exponentSign negative :: (natToDecimal x ++ rest)))
      h2 (by simp) (fun _ => rfl) (by intro c tl e; cases e; omega)
    simp only [List.nil_append] at hn
    have hf := parseFraction_digits ([d].foldl (fun a x => a * 10 + (x - 48)) 0) e es
      (101 :: exponentSign negative :: (natToDecimal x ++ rest)) he hes
      (by intro c tl e; cases e; omega)
    simp only [exponentForm, List.cons_append, List.append_assoc, parseUnsigned, hn, hf, hexp]
    have hv : (e :: es).foldl (fun a x => a * 10 + (x - 48))
        ([d].foldl (fun a x => a * 10 + (x - 48)) 0) = m := by
      rw [← h4]; rfl
    rw [hv]
    simp

theorem stripZeros_spec (fuel : Nat) :
    ∀ s t, (stripZeros fuel s t).1 * 10 ^ (stripZeros fuel s t).2 = s * 10 ^ t := by
  induction fuel with
  | zero => intro s t; rfl
  | succ fuel ih =>
    intro s t
    by_cases h : s % 10 = 0 ∧ s ≠ 0
    · simp only [stripZeros, h, and_self, if_true, ne_eq, not_false_eq_true]
      rw [ih, pow_succ]
      have : s = s / 10 * 10 := by omega
      conv_rhs => rw [this]
      ring
    · simp only [stripZeros, h, if_false]

theorem stripZeros_le (fuel : Nat) :
    ∀ s t, t ≤ (stripZeros fuel s t).2 := by
  induction fuel with
  | zero => intro s t; exact Nat.le_refl _
  | succ fuel ih =>
    intro s t
    by_cases h : s % 10 = 0 ∧ s ≠ 0
    · simp only [stripZeros, h, and_self, if_true, ne_eq, not_false_eq_true]
      have := ih (s / 10) (t + 1)
      omega
    · simp only [stripZeros, h, if_false]
      exact Nat.le_refl _

theorem natToDecimal_length_pos (n : Nat) : 0 < (natToDecimal n).length := by
  obtain ⟨d, ds, h1, -⟩ := natToDecimal_spec n
  simp [h1]

theorem parseUnsigned_natText (sign : Bool) (n : Nat) (rest : List Nat)
    (hrest : AtDelimiter rest) :
    parseUnsigned sign (natText n ++ rest) = some (.num (signed sign n), rest) := by
  unfold natText
  by_cases h : n < 10 ^ 21
  · rw [if_pos h]
    have hfn := parseFraction_none n rest (by intro c tl e; have := hrest c tl e; omega)
    simp only [parseUnsigned, parseNat_natToDecimal n rest (atDelimiter_not_digit hrest), hfn,
      parseExponent_none rest hrest]
    simp [mkNumber]
  · rw [if_neg h, parseUnsigned_exponentForm sign false _ _ rest hrest]
    have hspec := stripZeros_spec n n 0
    have hpos := natToDecimal_length_pos (stripZeros n n 0).1
    generalize (stripZeros n n 0).1 = s at hspec hpos
    generalize (stripZeros n n 0).2 = t at hspec
    generalize (natToDecimal s).length = k at hpos
    have he : signed false (k + t - 1) - ((k - 1 : Nat) : Int) = (t : Int) := by
      obtain ⟨j, rfl⟩ : ∃ j, k = j + 1 := ⟨k - 1, by omega⟩
      have a1 : j + 1 + t - 1 = j + t := by omega
      have a2 : j + 1 - 1 = j := by omega
      rw [a1, a2]
      simp [signed]
    rw [he]
    simp only [mkNumber, Int.toNat_ofNat]
    simp [hspec]

theorem scaled_canonical (sign : Bool) (m f : Nat) (hm : m % 10 ≠ 0) (hf : 0 < f) :
    scaled sign m f = .frac (signed sign m) f := by
  obtain ⟨g, rfl⟩ : ∃ g, f = g + 1 := ⟨f - 1, by omega⟩
  simp [scaled, hm]

theorem mkNumber_canonical (sign : Bool) (m f : Nat) (e : Int) (hm : m % 10 ≠ 0) (hf : 0 < f)
    (he : e = -(f : Int)) : mkNumber sign m e = .frac (signed sign m) f := by
  subst he
  have h1 : ¬ (0 : Int) ≤ -(f : Int) := by omega
  have h2 : (-(-(f : Int))).toNat = f := by simp
  rw [mkNumber, if_neg h1, h2, scaled_canonical sign m f hm hf]

theorem foldl_digits_take_drop (ds : List Nat) (n : Nat) (a : Nat) :
    (ds.drop n).foldl (fun a x => a * 10 + (x - 48))
      ((ds.take n).foldl (fun a x => a * 10 + (x - 48)) a) =
    ds.foldl (fun a x => a * 10 + (x - 48)) a := by
  rw [← List.foldl_append, List.take_append_drop]

theorem parseUnsigned_fracDigitsText (sign : Bool) (m f : Nat) (rest : List Nat)
    (hm : m % 10 ≠ 0) (hf : 0 < f) (hrest : AtDelimiter rest) :
    parseUnsigned sign (fracDigitsText (natToDecimal m) f ++ rest) =
      some (.frac (signed sign m) f, rest) := by
  unfold fracDigitsText
  by_cases h1 : f < (natToDecimal m).length
  · rw [if_pos h1]
    by_cases h2 : (natToDecimal m).length - f ≤ 21
    · rw [if_pos h2]
      obtain ⟨d, ds, e1, e2, e3, e4, e5⟩ := natToDecimal_spec m
      rw [e1] at h1 h2 ⊢
      simp only [List.length_cons] at h1 h2 ⊢
      have hk : ds.length + 1 - f = (ds.length - f) + 1 := by omega
      have hd0 : d ≠ 48 := by
        intro h48
        have := (e5 h48).1
        omega
      have hdrop : ds.drop (ds.length - f) ≠ [] := by
        intro hnil
        have := congrArg List.length hnil
        simp at this
        omega
      obtain ⟨x, xs, hx⟩ := List.exists_cons_of_ne_nil hdrop
      have hxs : ∀ y ∈ x :: xs, 48 ≤ y ∧ y ≤ 57 := by
        intro y hy
        rw [← hx] at hy
        exact e3 y (List.mem_of_mem_drop hy)
      have htake : ∀ y ∈ ds.take (ds.length - f), 48 ≤ y ∧ y ≤ 57 :=
        fun y hy => e3 y (List.mem_of_mem_take hy)
      rw [hk, List.take_succ_cons, List.drop_succ_cons, hx]
      have hn := parseNat_digits d (ds.take (ds.length - f)) (46 :: x :: (xs ++ rest)) e2 htake
        (fun h => absurd h hd0) (by intro c tl e; cases e; omega)
      have hfr := parseFraction_digits
        ((d :: ds.take (ds.length - f)).foldl (fun a x => a * 10 + (x - 48)) 0) x xs rest
        (hxs x (by simp)) (fun y hy => hxs y (by simp [hy])) (atDelimiter_not_digit hrest)
      simp only [List.cons_append, List.append_assoc, parseUnsigned, hn, hfr,
        parseExponent_none rest hrest]
      have hv : (x :: xs).foldl (fun a x => a * 10 + (x - 48))
          ((d :: ds.take (ds.length - f)).foldl (fun a x => a * 10 + (x - 48)) 0) = m := by
        rw [← hx, ← e4]
        exact foldl_digits_take_drop ds (ds.length - f) _
      have hlen : xs.length + 1 = f := by
        have := congrArg List.length hx
        simp at this
        omega
      rw [hv, mkNumber_canonical sign m f _ hm hf (by omega)]
    · rw [if_neg h2, parseUnsigned_exponentForm sign false _ _ rest hrest]
      refine congrArg (fun v => some (v, rest)) (mkNumber_canonical sign m f _ hm hf ?_)
      obtain ⟨j, hj⟩ : ∃ j, (natToDecimal m).length = f + 1 + j :=
        ⟨(natToDecimal m).length - f - 1, by omega⟩
      have a1 : f + 1 + j - f - 1 = j := by omega
      have a2 : f + 1 + j - 1 = f + j := by omega
      rw [hj, a1, a2]
      simp [signed]
  · rw [if_neg h1]
    by_cases h2 : f - (natToDecimal m).length < 6
    · rw [if_pos h2]
      obtain ⟨d, ds, e1, e2, e3, e4, e5⟩ := natToDecimal_spec m
      rw [e1] at h1 h2 ⊢
      simp only [List.length_cons] at h1 h2 ⊢
      generalize hz : f - (ds.length + 1) = z
      have hall : ∀ y ∈ List.replicate z 48 ++ d :: ds, 48 ≤ y ∧ y ≤ 57 := by
        intro y hy
        rcases List.mem_append.mp hy with hy | hy
        · have := List.eq_of_mem_replicate hy
          omega
        · rcases List.mem_cons.mp hy with rfl | hy
          · exact e2
          · exact e3 y hy
      obtain ⟨x, xs, hx⟩ : ∃ x xs, List.replicate z 48 ++ d :: ds = x :: xs := by
        cases z with
        | zero => exact ⟨d, ds, rfl⟩
        | succ z => exact ⟨48, List.replicate z 48 ++ d :: ds, by simp [List.replicate_succ]⟩
      have hfr := parseFraction_digits 0 x xs rest (hall x (by rw [hx]; simp))
        (fun y hy => hall y (by rw [hx]; simp [hy])) (atDelimiter_not_digit hrest)
      have e : 48 :: 46 :: (List.replicate z 48 ++ d :: ds) ++ rest =
          48 :: 46 :: x :: (xs ++ rest) := by
        rw [hx]; rfl
      rw [e]
      simp only [parseUnsigned, parseNat, if_true, hfr, parseExponent_none rest hrest]
      have hv : (x :: xs).foldl (fun a x => a * 10 + (x - 48)) 0 = m := by
        rw [← hx, List.foldl_append, foldl_digits_zeros, e4]
      have hlen : xs.length + 1 = f := by
        have := congrArg List.length hx
        simp at this
        omega
      rw [hv, mkNumber_canonical sign m f _ hm hf (by omega)]
    · rw [if_neg h2, parseUnsigned_exponentForm sign true _ _ rest hrest]
      refine congrArg (fun v => some (v, rest)) (mkNumber_canonical sign m f _ hm hf ?_)
      have hpos := natToDecimal_length_pos m
      obtain ⟨j, hj⟩ : ∃ j, f = (natToDecimal m).length + j :=
        ⟨f - (natToDecimal m).length, by omega⟩
      obtain ⟨k, hk⟩ : ∃ k, (natToDecimal m).length = k + 1 :=
        ⟨(natToDecimal m).length - 1, by omega⟩
      rw [hj, hk]
      have a1 : k + 1 + j + 1 - (k + 1) = j + 1 := by omega
      have a2 : k + 1 - 1 = k := by omega
      rw [a1, a2]
      simp [signed]
      omega

/-- Reading the text of a number in lowest terms gives the number back. -/
theorem natText_head (n : Nat) : ∃ d ds, natText n = d :: ds ∧ 48 ≤ d ∧ d ≤ 57 := by
  unfold natText
  by_cases h : n < 10 ^ 21
  · rw [if_pos h]
    exact natToDecimal_head n
  · rw [if_neg h]
    obtain ⟨d, ds, h1, h2⟩ := natToDecimal_head (stripZeros n n 0).1
    rw [h1]
    cases ds with
    | nil => exact ⟨d, _, rfl, h2⟩
    | cons e es => exact ⟨d, _, rfl, h2⟩

theorem fracDigitsText_head (m f : Nat) :
    ∃ d ds, fracDigitsText (natToDecimal m) f = d :: ds ∧ 48 ≤ d ∧ d ≤ 57 := by
  obtain ⟨d, ds, h1, h2⟩ := natToDecimal_head m
  have hexp : ∀ negative x, ∃ d2 ds2, exponentForm (natToDecimal m) negative x = d2 :: ds2 ∧
      48 ≤ d2 ∧ d2 ≤ 57 := by
    intro negative x
    rw [h1]
    cases ds with
    | nil => exact ⟨d, _, rfl, h2⟩
    | cons e es => exact ⟨d, _, rfl, h2⟩
  unfold fracDigitsText
  by_cases c1 : f < (natToDecimal m).length
  · rw [if_pos c1]
    by_cases c2 : (natToDecimal m).length - f ≤ 21
    · rw [if_pos c2, h1]
      rw [h1] at c1
      simp only [List.length_cons] at c1 ⊢
      have hk : ds.length + 1 - f = (ds.length - f) + 1 := by omega
      rw [hk, List.take_succ_cons]
      exact ⟨d, _, rfl, h2⟩
    · rw [if_neg c2]
      exact hexp _ _
  · rw [if_neg c1]
    by_cases c2 : f - (natToDecimal m).length < 6
    · rw [if_pos c2]
      exact ⟨48, _, rfl, by omega⟩
    · rw [if_neg c2]
      exact hexp _ _

theorem parseNumber_canonicalNumberText (v : JSValue) (hv : isCanonicalNumber v = true)
    (rest : List Nat) (hrest : AtDelimiter rest) :
    ∃ c s, canonicalNumberText v = c :: s ∧ (c = 45 ∨ (48 ≤ c ∧ c ≤ 57)) ∧
      parseNumber (c :: (s ++ rest)) = some (v, rest) := by
  cases v <;> try (simp [isCanonicalNumber] at hv; done)
  case num z =>
    cases z with
    | ofNat n =>
      obtain ⟨d, ds, h1, h2⟩ := natText_head n
      have hp := parseUnsigned_natText false n rest hrest
      rw [h1, List.cons_append] at hp
      refine ⟨d, ds, by rw [canonicalNumberText, h1], Or.inr h2, ?_⟩
      have h45 : d ≠ 45 := by omega
      simp only [parseNumber, h45, if_false, hp]
      simp [signed]
    | negSucc n =>
      have hp := parseUnsigned_natText true (n + 1) rest hrest
      refine ⟨45, natText (n + 1), rfl, Or.inl rfl, ?_⟩
      simp only [parseNumber, if_true, hp]
      simp [signed, Int.negSucc_eq]
  case frac z f =>
    simp only [isCanonicalNumber, decide_eq_true_eq] at hv
    cases z with
    | ofNat n =>
      obtain ⟨d, ds, h1, h2⟩ := fracDigitsText_head n f
      have hp := parseUnsigned_fracDigitsText false n f rest (by simpa using hv.1) hv.2 hrest
      rw [h1, List.cons_append] at hp
      refine ⟨d, ds, by rw [canonicalNumberText, h1], Or.inr h2, ?_⟩
      have h45 : d ≠ 45 := by omega
      simp only [parseNumber, h45, if_false, hp]
      simp [signed]
    | negSucc n =>
      have hp := parseUnsigned_fracDigitsText true (n + 1) f rest (by simpa using hv.1) hv.2
        hrest
      refine ⟨45, fracDigitsText (natToDecimal (n + 1)) f, rfl, Or.inl rfl, ?_⟩
      simp only [parseNumber, if_true, hp]
      simp [signed, Int.negSucc_eq]

theorem numberToString_canonical (v : JSValue) (hv : isCanonicalNumber v = true) :
    numberToString v = canonicalNumberText v := by
  cases v <;> try rfl
  case frac m f =>
    simp only [isCanonicalNumber, decide_eq_true_eq] at hv
    have hs : signed (decide (m < 0)) m.natAbs = m := by
      by_cases h : m < 0
      · simp only [signed, h, decide_True, if_true]
        omega
      · simp only [signed, h, decide_False]
        simp only [Bool.false_eq_true, if_false]
        omega
    rw [numberToString, scaled_canonical _ _ _ hv.1 hv.2, hs]

/-- Reading the text of a number in lowest terms gives the number back. -/
theorem parseNumber_numberToString (v : JSValue) (hv : isCanonicalNumber v = true)
    (rest : List Nat) (hrest : AtDelimiter rest) :
    ∃ c s, numberToString v = c :: s ∧ (c = 45 ∨ (48 ≤ c ∧ c ≤ 57)) ∧
      parseNumber (c :: (s ++ rest)) = some (v, rest) := by
  rw [numberToString_canonical v hv]
  exact parseNumber_canonicalNumberText v hv rest hrest

theorem skipWs_cons (c : Nat) (cs : List Nat) (h : c ≠ 32 ∧ c ≠ 9 ∧ c ≠ 10 ∧ c ≠ 13) :
    skipWs (c :: cs) = c :: cs := by
  simp [skipWs, h]

theorem setProp_append (acc : Props) (k : JString) (v : JSValue)
    (h : k ∉ acc.map Prod.fst) : setProp acc k v = acc ++ [(k, v)] := by
  induction acc with
  | nil => rfl
  | cons p acc ih =>
    obtain ⟨k2, w⟩ := p
    simp only [List.map_cons, List.mem_cons, not_or] at h
    have hne : k2 ≠ k := fun e => h.1 e.symm
    simp [setProp, hne, ih h.2]

theorem foldl_setProp_append (ms acc : Props)
    (h : ((acc ++ ms).map Prod.fst).Nodup) :
    ms.foldl (fun acc kv => setProp acc kv.1 kv.2) acc = acc ++ ms := by
  induction ms generalizing acc with
  | nil => simp
  | cons p ms ih =>
    obtain ⟨k, v⟩ := p
    have hk : k ∉ acc.map Prod.fst := by
      simp only [List.map_append, List.map_cons, List.nodup_append, List.nodup_cons] at h
      intro hmem
      exact h.2.2 hmem (by simp)
    simp only [List.foldl_cons]
    rw [setProp_append acc k v hk, ih]
    · simp
    · simpa using h

theorem mkObject_eq (ms : Props) (h : (ms.map Prod.fst).Nodup) : mkObject ms = ms := by
  have := foldl_setProp_append ms [] (by simpa using h)
  simpa [mkObject] using this

theorem parseValue_succ (fuel : Nat) (c : Nat) (rest : List Nat)
    (h : c ≠ 32 ∧ c ≠ 9 ∧ c ≠ 10 ∧ c ≠ 13) :
    parseValue (fuel + 1) (c :: rest) =
      if c = 123 then
        match skipWs rest with
        | [] => none
        | d :: rest2 =>
          if d = 125 then some (.obj [], rest2)
          else
            match parseMembers fuel (d :: rest2) with
            | some (members, r) => some (.obj (mkObject members), r)
            | none => none
      else if c = 91 then
        match skipWs rest with
        | [] => none
        | d :: rest2 =>
          if d = 93 then some (.arr [], rest2)
          else
            match parseElements fuel (d :: rest2) with
            | some (items, r) => some (.arr items, r)
            | none => none
      else if c = 34 then
        match parseChars rest with
        | some (s, r) => some (.str s, r)
        | none => none
      else if c = 116 then
        match expectWord (utf16 "rue") rest with
        | some r => some (.bool true, r)
        | none => none
      else if c = 102 then
        match expectWord (utf16 "alse") rest with
        | some r => some (.bool false, r)
        | none => none
      else if c = 110 then
        match expectWord (utf16 "ull") rest with
        | some r => some (.null, r)
        | none => none
      else parseNumber (c :: rest) := by
  rw [parseValue, skipWs_cons c rest h]

theorem ValueStart.not_ws {c : Nat} (h : ValueStart c) :
    c ≠ 32 ∧ c ≠ 9 ∧ c ≠ 10 ∧ c ≠ 13 := by
  unfold ValueStart at h; omega

theorem parseElements_succ (fuel : Nat) (cs : List Nat) :
    parseElements (fuel + 1) cs =
      match parseValue fuel cs with
      | none => none
      | some (v, r) =>
        match skipWs r with
        | [] => none
        | d :: r2 =>
          if d = 93 then some ([v], r2)
          else if d = 44 then
            match parseElements fuel r2 with
            | some (vs, r3) => some (v :: vs, r3)
            | none => none
          else none := by
  rw [parseElements]

theorem parseMembers_succ (fuel : Nat) (cs1 : List Nat) :
    parseMembers (fuel + 1) (34 :: cs1) =
      match parseChars cs1 with
      | none => none
      | some (k, r) =>
        match skipWs r with
        | [] => none
        | colon :: r1 =>
          if colon = 58 then
            match parseValue fuel r1 with
            | none => none
            | some (v, r2) =>
              match skipWs r2 with
              | [] => none
              | d :: r3 =>
                if d = 125 then some ([(k, v)], r3)
                else if d = 44 then
                  match parseMembers fuel r3 with
                  | some (ms, r4) => some ((k, v) :: ms, r4)
                  | none => none
                else none
          else none := by
  rw [parseMembers, skipWs_cons 34 cs1 (by decide)]
  simp

theorem joinComma_cons_cons (s t : JString) (ts : List JString) :
    joinComma (s :: t :: ts) = s ++ 44 :: joinComma (t :: ts) := rfl

theorem joinComma_cons_of_ne (s : JString) (ts : List JString) (h : joinComma ts ≠ []) :
    joinComma (s :: ts) = s ++ 44 :: joinComma ts := by
  cases ts with
  | nil => exact absurd rfl h
  | cons t ts => rfl

theorem atDelimiter_cons (c : Nat) (tl : List Nat) (h : c = 44 ∨ c = 93 ∨ c = 125) :
    AtDelimiter (c :: tl) := by
  intro d tl2 e
  cases e
  exact h

mutual
theorem parseValue_serialize : ∀ (v : JSValue), isJSONValue v = true →
    ∃ c s, serializeJSONProperty v = some (c :: s) ∧ ValueStart c ∧
      ∀ fuel rest, (c :: s).length ≤ fuel → AtDelimiter rest →
        parseValue fuel (c :: s ++ rest) = some (v, rest)
  | .undefined, h => by simp [isJSONValue] at h
  | .symbol _, h => by simp [isJSONValue] at h
  | .func _, h => by simp [isJSONValue] at h
  | .null, _ => by
    refine ⟨110, [117, 108, 108], rfl, by simp [ValueStart], ?_⟩
    intro fuel rest hf _
    obtain ⟨f, rfl⟩ : ∃ f, fuel = f + 1 := ⟨fuel - 1, by simp at hf; omega⟩
    rw [List.cons_append, parseValue_succ _ _ _ (by decide)]
    have : utf16 "ull" = [117, 108, 108] := by decide
    simp [this, expectWord]
  | .bool true, _ => by
    refine ⟨116, [114, 117, 101], rfl, by simp [ValueStart], ?_⟩
    intro fuel rest hf _
    obtain ⟨f, rfl⟩ : ∃ f, fuel = f + 1 := ⟨fuel - 1, by simp at hf; omega⟩
    rw [List.cons_append, parseValue_succ _ _ _ (by decide)]
    have : utf16 "rue" = [114, 117, 101] := by decide
    simp [this, expectWord]
  | .bool false, _ => by
    refine ⟨102, [97, 108, 115, 101], rfl, by simp [ValueStart], ?_⟩
    intro fuel rest hf _
    obtain ⟨f, rfl⟩ : ∃ f, fuel = f + 1 := ⟨fuel - 1, by simp at hf; omega⟩
    rw [List.cons_append, parseValue_succ _ _ _ (by decide)]
    have : utf16 "alse" = [97, 108, 115, 101] := by decide
    simp [this, expectWord]
  | .num z, _ => by
    obtain ⟨c, s, hcs, hc, -⟩ := parseNumber_numberToString (.num z) rfl [] (by
      intro d tl e; cases e)
    refine ⟨c, s, by rw [serializeJSONProperty, hcs], by unfold ValueStart; omega, ?_⟩
    intro fuel rest hf hrest
    obtain ⟨f, rfl⟩ : ∃ f, fuel = f + 1 := ⟨fuel - 1, by simp at hf; omega⟩
    obtain ⟨c2, s2, hcs2, -, hp⟩ := parseNumber_numberToString (.num z) rfl rest hrest
    rw [hcs] at hcs2
    injection hcs2 with e1 e2
    subst e1 e2
    rw [List.cons_append, parseValue_succ _ _ _ (by omega)]
    rw [if_neg (by omega), if_neg (by omega), if_neg (by omega), if_neg (by omega),
      if_neg (by omega), if_neg (by omega), hp]
  | .frac m g, h => by
    have hcan : isCanonicalNumber (.frac m g) = true := by
      simpa [isJSONValue, isCanonicalNumber] using h
    obtain ⟨c, s, hcs, hc, -⟩ := parseNumber_numberToString (.frac m g) hcan [] (by
      intro d tl e; cases e)
    refine ⟨c, s, by rw [serializeJSONProperty, hcs], by unfold ValueStart; omega, ?_⟩
    intro fuel rest hf hrest
    obtain ⟨f, rfl⟩ : ∃ f, fuel = f + 1 := ⟨fuel - 1, by simp at hf; omega⟩
    obtain ⟨c2, s2, hcs2, -, hp⟩ := parseNumber_numberToString (.frac m g) hcan rest hrest
    rw [hcs] at hcs2
    injection hcs2 with e1 e2
    subst e1 e2
    rw [List.cons_append, parseValue_succ _ _ _ (by omega)]
    rw [if_neg (by omega), if_neg (by omega), if_neg (by omega), if_neg (by omega),
      if_neg (by omega), if_neg (by omega), hp]
  | .str s, _ => by
    refine ⟨34, quoteBody s ++ [34], rfl, by simp [ValueStart], ?_⟩
    intro fuel rest hf _
    obtain ⟨f, rfl⟩ : ∃ f, fuel = f + 1 := ⟨fuel - 1, by simp at hf; omega⟩
    rw [List.cons_append, parseValue_succ _ _ _ (by decide)]
    have h := parseChars_quoteBody s rest
    simp [h]
  | .arr items, h => by
    refine ⟨91, joinComma (serializeElements items) ++ [93], by rw [serializeJSONProperty],
      by simp [ValueStart], ?_⟩
    intro fuel rest hf _
    obtain ⟨f, rfl⟩ : ∃ f, fuel = f + 1 := ⟨fuel - 1, by simp at hf; omega⟩
    rw [List.cons_append, parseValue_succ _ _ _ (by decide)]
    by_cases hne : items = []
    · subst hne
      simp [serializeElements, joinComma, skipWs]
    · have hall : allJSONValues items = true := by simpa [isJSONValue] using h
      obtain ⟨c, s, hcs, hstart, hparse⟩ := parseElements_serialize items hall hne
      have hlen : (c :: s).length + 1 ≤ f := by
        rw [hcs] at hf; simp at hf ⊢; omega
      have hp := hparse f rest hlen
      have hc93 : c ≠ 93 := by unfold ValueStart at hstart; omega
      rw [hcs]
      simp only [List.cons_append, List.append_assoc, List.nil_append] at hp ⊢
      rw [skipWs_cons c _ hstart.not_ws]
      simp [hc93, hp]
  | .obj props, h => by
    refine ⟨123, joinComma (serializeMembers props) ++ [125], by rw [serializeJSONProperty],
      by simp [ValueStart], ?_⟩
    intro fuel rest hf _
    obtain ⟨f, rfl⟩ : ∃ f, fuel = f + 1 := ⟨fuel - 1, by simp at hf; omega⟩
    rw [List.cons_append, parseValue_succ _ _ _ (by decide)]
    by_cases hne : props = []
    · subst hne
      simp [serializeMembers, joinComma, skipWs]
    · have hh : membersJSONValues props = true ∧ (props.map Prod.fst).Nodup := by
        simpa [isJSONValue] using h
      obtain ⟨s, hcs, hparse⟩ := parseMembers_serialize props hh.1 hne
      have hlen : (34 :: s).length + 1 ≤ f := by
        rw [hcs] at hf; simp at hf ⊢; omega
      have hp := hparse f rest hlen
      rw [hcs]
      simp only [List.cons_append, List.append_assoc, List.nil_append] at hp ⊢
      rw [skipWs_cons 34 _ (by decide)]
      simp [hp, mkObject_eq props hh.2]
theorem parseElements_serialize : ∀ (xs : List JSValue), allJSONValues xs = true → xs ≠ [] →
    ∃ c s, joinComma (serializeElements xs) = c :: s ∧ ValueStart c ∧
      ∀ fuel rest, (c :: s).length + 1 ≤ fuel →
        parseElements fuel (c :: s ++ 93 :: rest) = some (xs, rest)
  | [], _, hne => absurd rfl hne
  | [x], h, _ => by
    have hx : isJSONValue x = true := by simpa [allJSONValues] using h
    obtain ⟨c, s, hcs, hstart, hparse⟩ := parseValue_serialize x hx
    refine ⟨c, s, by simp [serializeElements, hcs, joinComma], hstart, ?_⟩
    intro fuel rest hf
    obtain ⟨f, rfl⟩ : ∃ f, fuel = f + 1 := ⟨fuel - 1, by omega⟩
    rw [parseElements_succ, hparse f (93 :: rest) (by omega) (atDelimiter_cons _ _ (by simp))]
    simp [skipWs]
  | x :: y :: ys, h, _ => by
    have hx : isJSONValue x = true ∧ allJSONValues (y :: ys) = true := by
      simpa [allJSONValues] using h
    obtain ⟨c, s, hcs, hstart, hparse⟩ := parseValue_serialize x hx.1
    obtain ⟨c2, s2, hcs2, -, hparse2⟩ := parseElements_serialize (y :: ys) hx.2 (by simp)
    have hj : joinComma (serializeElements (x :: y :: ys)) = c :: (s ++ 44 :: c2 :: s2) := by
      rw [serializeElements, hcs]
      rw [serializeElements] at hcs2 ⊢
      rw [joinComma_cons_cons, hcs2]
      rfl
    refine ⟨c, s ++ 44 :: c2 :: s2, hj, hstart, ?_⟩
    intro fuel rest hf
    obtain ⟨f, rfl⟩ : ∃ f, fuel = f + 1 := ⟨fuel - 1, by omega⟩
    have e : c :: (s ++ 44 :: c2 :: s2) ++ 93 :: rest =
        c :: s ++ 44 :: (c2 :: s2 ++ 93 :: rest) := by simp
    simp only [List.length_cons, List.length_append] at hf
    rw [e, parseElements_succ,
      hparse f _ (by simp; omega) (atDelimiter_cons _ _ (by simp))]
    simp only [skipWs_cons 44 _ (by decide)]
    rw [hparse2 f rest (by simp; omega)]
    simp
theorem parseMembers_serialize : ∀ (ps : List (JString × JSValue)),
    membersJSONValues ps = true → ps ≠ [] →
    ∃ s, joinComma (serializeMembers ps) = 34 :: s ∧
      ∀ fuel rest, (34 :: s).length + 1 ≤ fuel →
        parseMembers fuel (34 :: s ++ 125 :: rest) = some (ps, rest)
  | [], _, hne => absurd rfl hne
  | [(k, x)], h, _ => by
    have hx : isJSONValue x = true := by simpa [membersJSONValues] using h
    obtain ⟨c, s, hcs, hstart, hparse⟩ := parseValue_serialize x hx
    refine ⟨quoteBody k ++ 34 :: 58 :: c :: s,
      by simp [serializeMembers, hcs, joinComma, quoteJSONString], ?_⟩
    intro fuel rest hf
    obtain ⟨f, rfl⟩ : ∃ f, fuel = f + 1 := ⟨fuel - 1, by omega⟩
    have e : 34 :: (quoteBody k ++ 34 :: 58 :: c :: s) ++ 125 :: rest =
        34 :: (quoteBody k ++ 34 :: (58 :: (c :: s ++ 125 :: rest))) := by simp
    simp only [List.length_cons, List.length_append] at hf
    rw [e, parseMembers_succ, parseChars_quoteBody]
    simp only [skipWs_cons 58 _ (by decide), if_true]
    rw [hparse f _ (by simp; omega) (atDelimiter_cons _ _ (by simp))]
    simp [skipWs]
  | (k, x) :: q :: qs, h, _ => by
    have hx : isJSONValue x = true ∧ membersJSONValues (q :: qs) = true := by
      simpa [membersJSONValues] using h
    obtain ⟨c, s, hcs, hstart, hparse⟩ := parseValue_serialize x hx.1
    obtain ⟨s2, hcs2, hparse2⟩ := parseMembers_serialize (q :: qs) hx.2 (by simp)
    have hj : joinComma (serializeMembers ((k, x) :: q :: qs)) =
        34 :: (quoteBody k ++ 34 :: 58 :: (c :: s ++ 44 :: 34 :: s2)) := by
      rw [serializeMembers, hcs]
      simp only
      rw [joinComma_cons_of_ne _ _ (by rw [hcs2]; simp), hcs2]
      simp [quoteJSONString]
    refine ⟨_, hj, ?_⟩
    intro fuel rest hf
    obtain ⟨f, rfl⟩ : ∃ f, fuel = f + 1 := ⟨fuel - 1, by omega⟩
    have e : 34 :: (quoteBody k ++ 34 :: 58 :: (c :: s ++ 44 :: 34 :: s2)) ++ 125 :: rest =
        34 :: (quoteBody k ++ 34 :: (58 :: (c :: s ++ 44 :: (34 :: s2 ++ 125 :: rest)))) := by
      simp
    simp only [List.length_cons, List.length_append] at hf
    rw [e, parseMembers_succ, parseChars_quoteBody]
    simp only [skipWs_cons 58 _ (by decide), if_true]
    rw [hparse f _ (by simp; omega) (atDelimiter_cons _ _ (by simp))]
    simp only [skipWs_cons 44 _ (by decide)]
    rw [hparse2 f rest (by simp; omega)]
    simp
end


/-- Round trip of the JSON models: parsing the text of a JSON value gives the value back. -/
theorem JSONparse_stringify (v : JSValue) (hv : isJSONValue v = true) :
    ∃ s, JSONstringify v = .str s ∧ JSONparse s = .ok v := by
  obtain ⟨c, s, hcs, -, hparse⟩ := parseValue_serialize v hv
  refine ⟨c :: s, by simp [JSONstringify, hcs], ?_⟩
  have h := hparse (2 * (c :: s).length + 2) [] (by omega) (by intro d tl e; cases e)
  rw [List.append_nil] at h
  unfold JSONparse
  rw [h]
  rfl


/-- Sample: `JSON.parse` reads fractions and exponents; a number without fraction digits
other than zeros is an integer. -/
theorem JSONparse_number_forms :
    JSONparse (utf16 "[1.5,1e3,-2.50E-1,0.1e1,-0.000,12e+2]") =
      .ok (.arr [.frac 15 1, .num 1000, .frac (-25) 2, .num 1, .num 0, .num 1200]) ∧
    JSONparse (utf16 "1.") = .error .syntaxError ∧
    JSONparse (utf16 "[.5]") = .error .syntaxError ∧
    JSONparse (utf16 "01") = .error .syntaxError ∧
    JSONparse (utf16 "1e+") = .error .syntaxError :=
  ⟨rfl, rfl, rfl, rfl, rfl⟩

set_option maxRecDepth 100000 in
/-- Sample: the texts `JSON.stringify` writes for numbers. -/
theorem JSONstringify_number_forms :
    serializeJSONProperty (.arr [.frac 15 1, .num (10 ^ 21), .frac 1 7, .frac (-123456) 3,
        .num 999999999999999999999, .frac 5 3, .num (-12)]) =
      some (utf16 "[1.5,1e+21,1e-7,-123.456,999999999999999999999,0.005,-12]") := by
  decide

/-! ## Properties of the message codec -/

theorem text_ne_length : utf16 "text" ≠ utf16 "length" := by decide

theorem getProp_text_obj {m v : JSValue} (h : getProp m (utf16 "text") = .ok v)
    (hv : v ≠ .undefined) : ∃ props, m = .obj props ∧ getOwn props (utf16 "text") = v := by
  cases m <;> simp [getProp, text_ne_length] at h
  all_goals first | exact absurd h.symm hv | skip
  case obj props => exact ⟨props, rfl, h⟩

theorem getProp_of_truthy {m : JSValue} (h : truthy m = true) (k : JString) :
    ∃ v, getProp m k = .ok v := by
  cases m <;> simp [truthy] at h <;> simp [getProp]

theorem getOwn_setProp (props : Props) (k : JString) (v : JSValue) :
    getOwn (setProp props k v) k = v := by
  induction props with
  | nil => simp [setProp, getOwn]
  | cons p props ih =>
    obtain ⟨k2, w⟩ := p
    by_cases hk : k2 = k
    · simp [setProp, getOwn, hk]
    · simp [setProp, getOwn, hk, ih]

theorem setProp_setProp (props : Props) (k : JString) (v w : JSValue) :
    setProp (setProp props k v) k w = setProp props k w := by
  induction props with
  | nil => simp [setProp]
  | cons p props ih =>
    obtain ⟨k2, u⟩ := p
    by_cases hk : k2 = k
    · simp [setProp, hk]
    · simp [setProp, hk, ih]

theorem setProp_getOwn (props : Props) (k : JString) (v : JSValue)
    (h : getOwn props k = v) (hv : v ≠ .undefined) : setProp props k v = props := by
  induction props with
  | nil => simp [getOwn] at h; exact absurd h.symm hv
  | cons p props ih =>
    obtain ⟨k2, u⟩ := p
    by_cases hk : k2 = k
    · simp [getOwn, hk] at h
      simp [setProp, hk, h]
    · simp [getOwn, hk] at h
      simp [setProp, hk, ih h]

theorem deserializeTry_of_not_envelope (P : Platform) (m : JSValue) (p : JString)
    (h : decodesAsEnvelope P p = false) :
    deserializeTry P m p = .ok none ∨ ∃ e, deserializeTry P m p = .error e := by
  unfold deserializeTry
  unfold decodesAsEnvelope at h
  by_cases hb : (startsWith p (utf16 "\x7b") && endsWith p (utf16 "\x7d")) = true
  · rw [if_pos hb]
    rw [hb] at h
    rcases hp : P.parse p with e | parsed
    · exact Or.inr ⟨e, rfl⟩
    · rw [hp] at h
      simp only [Bool.true_and, Bool.or_eq_false_iff] at h
      rcases h1 : getProp parsed (utf16 "__isReactElement") with e | tag
      · exact Or.inr ⟨e, by simp [h1]⟩
      · rw [h1] at h
        have ht : truthy tag = false := h.1
        rcases h2 : getProp parsed (utf16 "__isObject") with e | tag2
        · exact Or.inr ⟨e, by simp [h1, ht, h2]⟩
        · rw [h2] at h
          have ht2 : truthy tag2 = false := h.2
          exact Or.inl (by simp [h1, ht, h2, ht2])
  · rw [if_neg hb]
    exact Or.inl rfl

theorem deserializeMessage_of_not_envelope (P : Platform) (m : JSValue) (p : JString)
    (hm : getProp m (utf16 "text") = .ok (.str p)) (h : decodesAsEnvelope P p = false) :
    deserializeMessage P m = .ok m := by
  obtain ⟨props, rfl, -⟩ := getProp_text_obj hm (by simp)
  unfold deserializeMessage
  simp only [truthy, hm]
  rcases deserializeTry_of_not_envelope P (.obj props) p h with h1 | ⟨e, h1⟩ <;>
    simp [h1]

theorem serializeMessage_string (P : Platform) (m : JSValue) (p : JString)
    (hm : getProp m (utf16 "text") = .ok (.str p)) : serializeMessage P m = .ok m := by
  obtain ⟨props, rfl, -⟩ := getProp_text_obj hm (by simp)
  have : utf16 "string" ≠ utf16 "object" := by decide
  simp [serializeMessage, truthy, hm, isValidElement, typeof, this]

theorem isSymbolFor_getOwn_of_members (props : Props) (k key : JString)
    (h : membersJSONValues props = true) : isSymbolFor (getOwn props k) key = false := by
  induction props with
  | nil => rfl
  | cons q props ih =>
    obtain ⟨k2, v⟩ := q
    simp only [membersJSONValues, Bool.and_eq_true] at h
    by_cases hk : k2 = k
    · simp only [getOwn, hk, if_true]
      cases v <;> simp [isJSONValue] at h <;> rfl
    · simp only [getOwn, hk, if_false]
      exact ih h.2

theorem isValidElement_of_isJSONValue (p : JSValue) (h : isJSONValue p = true) :
    isValidElement p = false := by
  cases p <;> try rfl
  case obj props =>
    simp only [isJSONValue, Bool.and_eq_true] at h
    exact isSymbolFor_getOwn_of_members props _ _ h.1

theorem endsWith_append_singleton (s : JString) (c : Nat) : endsWith (s ++ [c]) [c] = true := by
  simp [endsWith, List.isSuffixOf]

theorem JSONstringify_obj (props : Props) :
    JSONstringify (.obj props) =
      .str (123 :: (joinComma (serializeMembers props) ++ [125])) := by
  simp [JSONstringify, serializeJSONProperty]

theorem braces_of_stringify_obj (props : Props) (s : JString)
    (h : JSONstringify (.obj props) = .str s) :
    (startsWith s (utf16 "\x7b") && endsWith s (utf16 "\x7d")) = true := by
  rw [JSONstringify_obj] at h
  injection h with h
  subst h
  have h1 : utf16 "\x7b" = [123] := by decide
  have h2 : utf16 "\x7d" = [125] := by decide
  rw [h1, h2, ← List.cons_append, endsWith_append_singleton]
  simp [startsWith]

/-- Decoding the stored text of the object envelope `{ __isObject: true, data }`. -/
theorem deserializeMessage_object_envelope (R : JSValue → Except JSError JString)
    (props : Props) (data : JSValue) (hdata : isJSONValue data = true) :
    deserializeMessage (modelPlatform R)
        (withText (.obj props) (JSONstringify (.obj
          [(utf16 "__isObject", .bool true), (utf16 "data", data)]))) =
      .ok (.obj (setProp props (utf16 "text") data)) := by
  have henv : isJSONValue (.obj [(utf16 "__isObject", .bool true), (utf16 "data", data)])
      = true := by
    have hk : ([utf16 "__isObject", utf16 "data"] : List JString).Nodup := by decide
    simp [isJSONValue, membersJSONValues, hdata, hk]
  obtain ⟨s, hs, hparse⟩ := JSONparse_stringify _ henv
  have hb := braces_of_stringify_obj _ s hs
  have hg1 : getOwn [(utf16 "__isObject", .bool true), (utf16 "data", data)]
      (utf16 "__isReactElement") = .undefined := by
    have : utf16 "__isObject" ≠ utf16 "__isReactElement" := by decide
    have : utf16 "data" ≠ utf16 "__isReactElement" := by decide
    simp [getOwn, *]
  have hg2 : getOwn [(utf16 "__isObject", .bool true), (utf16 "data", data)]
      (utf16 "__isObject") = .bool true := by
    simp [getOwn]
  have hg3 : getOwn [(utf16 "__isObject", .bool true), (utf16 "data", data)]
      (utf16 "data") = data := by
    have : utf16 "__isObject" ≠ utf16 "data" := by decide
    simp [getOwn, *]
  rw [hs]
  simp only [deserializeMessage, withText, spreadProps, getProp, getOwn_setProp,
    deserializeTry, modelPlatform, hb, hparse, hg1, hg2, hg3]
  simp [truthy, setProp_setProp]

/-- Decoding the stored text of the markup envelope `{ __isReactElement: true, jsx }`. -/
theorem deserializeMessage_markup_envelope (R : JSValue → Except JSError JString)
    (props : Props) (markup : JString) :
    deserializeMessage (modelPlatform R)
        (withText (.obj props) (JSONstringify (.obj
          [(utf16 "__isReactElement", .bool true), (utf16 "jsx", .str markup)]))) =
      .ok (.obj (setProp props (utf16 "text") (innerHTMLDiv (.str markup)))) := by
  have henv : isJSONValue (.obj [(utf16 "__isReactElement", .bool true),
      (utf16 "jsx", .str markup)]) = true := by
    have hk : ([utf16 "__isReactElement", utf16 "jsx"] : List JString).Nodup := by decide
    simp [isJSONValue, membersJSONValues, hk]
  obtain ⟨s, hs, hparse⟩ := JSONparse_stringify _ henv
  have hb := braces_of_stringify_obj _ s hs
  have hg1 : getOwn [(utf16 "__isReactElement", .bool true), (utf16 "jsx", .str markup)]
      (utf16 "__isReactElement") = .bool true := by
    simp [getOwn]
  have hg2 : getOwn [(utf16 "__isReactElement", .bool true), (utf16 "jsx", .str markup)]
      (utf16 "jsx") = .str markup := by
    have : utf16 "__isReactElement" ≠ utf16 "jsx" := by decide
    simp [getOwn, *]
  rw [hs]
  simp only [deserializeMessage, withText, spreadProps, getProp, getOwn_setProp,
    deserializeTry, modelPlatform, hb, hparse, hg1, hg2]
  simp [truthy, setProp_setProp]

/-- C1 (counterexample): the user turn whose text is the plain string
`{"__isObject":true,"data":5}` is stored unchanged by `serializeMessage`, and
`deserializeMessage` returns it with the number 5 as text, not the string. -/
theorem codec_string_round_trip_counterexample :
    getProp (userMessage (.str envelopeLookalike)) (utf16 "text")
        = .ok (.str envelopeLookalike) ∧
      (serializeMessage (modelPlatform noRenderer) (userMessage (.str envelopeLookalike))).bind
          (deserializeMessage (modelPlatform noRenderer)) = .ok (userMessage (.num 5)) ∧
      getProp (userMessage (.num 5)) (utf16 "text") ≠ .ok (.str envelopeLookalike) :=
  ⟨rfl, rfl, by
    show Except.ok (JSValue.num 5) ≠ _
    simp⟩

/-- C1 (amended): a message whose text is a plain string that `deserializeMessage` does not
decode as an envelope (it does not both begin with an opening and end with a closing brace,
or `JSON.parse` rejects it, or the parsed value has no truthy `__isReactElement` and no
truthy `__isObject`) comes back unchanged from `serializeMessage` followed by
`deserializeMessage`; in particular its text is the same string. -/
theorem codec_string_round_trip (P : Platform) (m : JSValue) (p : JString)
    (hm : getProp m (utf16 "text") = .ok (.str p))
    (hp : decodesAsEnvelope P p = false) :
    (serializeMessage P m).bind (deserializeMessage P) = .ok m ∧
      getProp m (utf16 "text") = .ok (.str p) := by
  rw [serializeMessage_string P m p hm]
  exact ⟨deserializeMessage_of_not_envelope P m p hm hp, hm⟩

/-- Witness of C1 (amended): the user turn with the plain text `10.1000/xyz123`. -/
theorem codec_string_round_trip_witness :
    getProp (userMessage (.str (utf16 "10.1000/xyz123"))) (utf16 "text")
        = .ok (.str (utf16 "10.1000/xyz123")) ∧
      decodesAsEnvelope (modelPlatform noRenderer) (utf16 "10.1000/xyz123") = false ∧
      ((serializeMessage (modelPlatform noRenderer)
          (userMessage (.str (utf16 "10.1000/xyz123")))).bind
          (deserializeMessage (modelPlatform noRenderer))
        = .ok (userMessage (.str (utf16 "10.1000/xyz123"))) ∧
      getProp (userMessage (.str (utf16 "10.1000/xyz123"))) (utf16 "text")
        = .ok (.str (utf16 "10.1000/xyz123"))) :=
  ⟨rfl, rfl, codec_string_round_trip (modelPlatform noRenderer) _ _ rfl rfl⟩

/-- C2: a message whose text is a JSON-representable array or object (of `null`, booleans,
strings, numbers with or without a fraction, arrays and objects) comes back unchanged from
`serializeMessage` followed by `deserializeMessage` (with the JSON models of this file), so
the decoded text is the original value, whatever its keys are. -/
theorem codec_structured_round_trip (R : JSValue → Except JSError JString)
    (m p : JSValue) (hm : getProp m (utf16 "text") = .ok p)
    (hp : isJSONValue p = true)
    (hs : (∃ items, p = .arr items) ∨ (∃ props, p = .obj props)) :
    ∃ r, (serializeMessage (modelPlatform R) m).bind (deserializeMessage (modelPlatform R))
        = .ok r ∧ getProp r (utf16 "text") = .ok p ∧ r = m := by
  have hne : p ≠ .undefined := by
    rcases hs with ⟨items, rfl⟩ | ⟨props, rfl⟩ <;> simp
  obtain ⟨props, rfl, hget⟩ := getProp_text_obj hm hne
  refine ⟨.obj props, ?_, hm, rfl⟩
  have hve := isValidElement_of_isJSONValue p hp
  have hty : (typeof p = utf16 "object" && !isNull p) = true := by
    rcases hs with ⟨items, rfl⟩ | ⟨props, rfl⟩ <;> simp [typeof, isNull]
  have hser : serializeMessage (modelPlatform R) (.obj props) =
      .ok (withText (.obj props) ((modelPlatform R).stringify (.obj
        [(utf16 "__isObject", .bool true), (utf16 "data", p)]))) := by
    simp only [serializeMessage, truthy, hm, hve]
    simp only [hty]
    simp
  rw [hser]
  show deserializeMessage (modelPlatform R) _ = _
  simp only [modelPlatform]
  have := deserializeMessage_object_envelope R props p hp
  simp only [modelPlatform] at this
  rw [this, setProp_getOwn props _ p hget hne]

/-- Witness of C2: a user turn whose text is an object with the keys `__isObject`, `data`,
`__isReactElement` and `jsx`, holding the numbers 1, 1.5, -0.25 and 10^21 (written
`1e+21`). -/
theorem codec_structured_round_trip_witness :
    getProp (userMessage (.obj [(utf16 "__isObject", .bool true), (utf16 "data", .num 1),
        (utf16 "__isReactElement", .bool true), (utf16 "jsx", .arr [.str (utf16 "a\"b"),
          .frac 15 1, .frac (-25) 2, .num (10 ^ 21)])]))
        (utf16 "text")
      = .ok (.obj [(utf16 "__isObject", .bool true), (utf16 "data", .num 1),
        (utf16 "__isReactElement", .bool true), (utf16 "jsx", .arr [.str (utf16 "a\"b"),
          .frac 15 1, .frac (-25) 2, .num (10 ^ 21)])]) ∧
    isJSONValue (.obj [(utf16 "__isObject", .bool true), (utf16 "data", .num 1),
        (utf16 "__isReactElement", .bool true), (utf16 "jsx", .arr [.str (utf16 "a\"b"),
          .frac 15 1, .frac (-25) 2, .num (10 ^ 21)])])
      = true ∧
    ∃ r, (serializeMessage (modelPlatform noRenderer)
        (userMessage (.obj [(utf16 "__isObject", .bool true), (utf16 "data", .num 1),
          (utf16 "__isReactElement", .bool true),
          (utf16 "jsx", .arr [.str (utf16 "a\"b"), .frac 15 1, .frac (-25) 2,
            .num (10 ^ 21)])]))).bind
        (deserializeMessage (modelPlatform noRenderer)) = .ok r ∧
      getProp r (utf16 "text")
        = .ok (.obj [(utf16 "__isObject", .bool true), (utf16 "data", .num 1),
          (utf16 "__isReactElement", .bool true),
          (utf16 "jsx", .arr [.str (utf16 "a\"b"), .frac 15 1, .frac (-25) 2,
            .num (10 ^ 21)])]) ∧
      r = userMessage (.obj [(utf16 "__isObject", .bool true), (utf16 "data", .num 1),
          (utf16 "__isReactElement", .bool true),
          (utf16 "jsx", .arr [.str (utf16 "a\"b"), .frac 15 1, .frac (-25) 2,
            .num (10 ^ 21)])]) :=
  ⟨rfl, by decide,
    codec_structured_round_trip noRenderer _ _ rfl (by decide) (Or.inr ⟨_, rfl⟩)⟩

/-- C3 (counterexample): the stored string `{"__isObject":true}` is not the JSON text of an
envelope as the claim words it (it has a tag and no `data` body), yet `deserializeMessage`
does not return it as text: the text of the result is `undefined`. -/
theorem deserializeMessage_malformed_counterexample :
    isEnvelopeText tagWithoutBody = false ∧
      deserializeMessage (modelPlatform noRenderer)
          (loadedMessage (.str (utf16 "m1")) (.str (utf16 "bot")) (.str tagWithoutBody)
            (.num 0))
        = .ok (loadedMessage (.str (utf16 "m1")) (.str (utf16 "bot")) .undefined (.num 0)) ∧
      getProp (loadedMessage (.str (utf16 "m1")) (.str (utf16 "bot")) .undefined (.num 0))
          (utf16 "text") ≠ .ok (.str tagWithoutBody) :=
  ⟨rfl, rfl, by
    show Except.ok JSValue.undefined ≠ _
    simp⟩

/-- C3 (amended): `deserializeMessage` never throws, whatever `JSON.parse` does; and for
every stored string that it does not decode as an envelope (the string does not both begin
with an opening and end with a closing brace, or `JSON.parse` rejects it, or the parsed
value has no truthy `__isReactElement` and no truthy `__isObject`) it returns the message
unchanged, with that string as text. -/
theorem deserializeMessage_total (P : Platform) (m : JSValue) :
    (∃ r, deserializeMessage P m = .ok r) ∧
      ∀ s, getProp m (utf16 "text") = .ok (.str s) → decodesAsEnvelope P s = false →
        deserializeMessage P m = .ok m ∧ getProp m (utf16 "text") = .ok (.str s) := by
  constructor
  · unfold deserializeMessage
    by_cases ht : truthy m = true
    · obtain ⟨v, hv⟩ := getProp_of_truthy ht (utf16 "text")
      simp only [ht, hv]
      cases v <;> simp
      rename_i s
      rcases h : deserializeTry P m s with e | (_ | r) <;> simp
    · simp [ht]
  · intro s hm hs
    exact ⟨deserializeMessage_of_not_envelope P m s hm hs, hm⟩

/-- Witness of C3 (amended): a loaded message whose stored text is a braced string that is
not JSON. -/
theorem deserializeMessage_total_witness :
    (∃ r, deserializeMessage (modelPlatform noRenderer)
        (loadedMessage (.str (utf16 "m1")) (.str (utf16 "bot"))
          (.str (utf16 "\x7bnot json\x7d")) (.num 0)) = .ok r) ∧
      getProp (loadedMessage (.str (utf16 "m1")) (.str (utf16 "bot"))
          (.str (utf16 "\x7bnot json\x7d")) (.num 0)) (utf16 "text")
        = .ok (.str (utf16 "\x7bnot json\x7d")) ∧
      decodesAsEnvelope (modelPlatform noRenderer) (utf16 "\x7bnot json\x7d") = false ∧
      deserializeMessage (modelPlatform noRenderer)
          (loadedMessage (.str (utf16 "m1")) (.str (utf16 "bot"))
            (.str (utf16 "\x7bnot json\x7d")) (.num 0))
        = .ok (loadedMessage (.str (utf16 "m1")) (.str (utf16 "bot"))
            (.str (utf16 "\x7bnot json\x7d")) (.num 0)) :=
  ⟨(deserializeMessage_total (modelPlatform noRenderer) _).1, rfl, rfl,
    ((deserializeMessage_total (modelPlatform noRenderer)
      (loadedMessage (.str (utf16 "m1")) (.str (utf16 "bot"))
        (.str (utf16 "\x7bnot json\x7d")) (.num 0))).2 (utf16 "\x7bnot json\x7d") rfl rfl).1⟩

/-- C4: for a message whose text is a React element that `renderToString` renders to
`markup`, `serializeMessage` stores the JSON text of the envelope
`{ __isReactElement: true, jsx: markup }`, and `deserializeMessage` of the stored message
gives the node `<div dangerouslySetInnerHTML={{ __html: markup }} />`, whose `__html` is
exactly `markup`. -/
theorem codec_markup_round_trip (R : JSValue → Except JSError JString)
    (m e : JSValue) (markup : JString)
    (hm : getProp m (utf16 "text") = .ok e) (he : isValidElement e = true)
    (hr : R e = .ok markup) :
    ∃ s, serializeMessage (modelPlatform R) m = .ok (withText m (.str s)) ∧
      JSONstringify (.obj [(utf16 "__isReactElement", .bool true),
        (utf16 "jsx", .str markup)]) = .str s ∧
      JSONparse s = .ok (.obj [(utf16 "__isReactElement", .bool true),
        (utf16 "jsx", .str markup)]) ∧
      deserializeMessage (modelPlatform R) (withText m (.str s))
        = .ok (withText m (innerHTMLDiv (.str markup))) ∧
      getProp (withText m (innerHTMLDiv (.str markup))) (utf16 "text")
        = .ok (innerHTMLDiv (.str markup)) ∧
      (((getProp (innerHTMLDiv (.str markup)) (utf16 "props")).bind
          (fun props => getProp props (utf16 "dangerouslySetInnerHTML"))).bind
          (fun inner => getProp inner (utf16 "__html"))) = .ok (.str markup) := by
  have hne : e ≠ .undefined := by
    rintro rfl
    simp [isValidElement] at he
  obtain ⟨props, rfl, -⟩ := getProp_text_obj hm hne
  have henv : isJSONValue (.obj [(utf16 "__isReactElement", .bool true),
      (utf16 "jsx", .str markup)]) = true := by
    have hk : ([utf16 "__isReactElement", utf16 "jsx"] : List JString).Nodup := by decide
    simp [isJSONValue, membersJSONValues, hk]
  obtain ⟨s, hs, hparse⟩ := JSONparse_stringify _ henv
  have hd := deserializeMessage_markup_envelope R props markup
  rw [hs] at hd
  refine ⟨s, ?_, hs, hparse, ?_, ?_, rfl⟩
  · simp only [serializeMessage, truthy, hm, he, modelPlatform, hr, hs]
    simp
  · rw [hd]
    simp [withText, spreadProps]
  · simp [withText, spreadProps, getProp, getOwn_setProp]

/-- Witness of C4: a bot turn whose text is the element `<p>Hi</p>`, rendered to the markup
of the same spelling. -/
theorem codec_markup_round_trip_witness :
    getProp (.obj [(utf16 "type", .str (utf16 "bot")),
        (utf16 "text", createElement (.str (utf16 "p")) [(utf16 "children",
          .str (utf16 "Hi"))])]) (utf16 "text")
      = .ok (createElement (.str (utf16 "p")) [(utf16 "children", .str (utf16 "Hi"))]) ∧
    isValidElement (createElement (.str (utf16 "p")) [(utf16 "children",
        .str (utf16 "Hi"))]) = true ∧
    ∃ s, serializeMessage (modelPlatform (fun _ => .ok (utf16 "<p>Hi</p>")))
        (.obj [(utf16 "type", .str (utf16 "bot")),
          (utf16 "text", createElement (.str (utf16 "p")) [(utf16 "children",
            .str (utf16 "Hi"))])])
        = .ok (withText (.obj [(utf16 "type", .str (utf16 "bot")),
          (utf16 "text", createElement (.str (utf16 "p")) [(utf16 "children",
            .str (utf16 "Hi"))])]) (.str s)) ∧
      JSONstringify (.obj [(utf16 "__isReactElement", .bool true),
        (utf16 "jsx", .str (utf16 "<p>Hi</p>"))]) = .str s ∧
      JSONparse s = .ok (.obj [(utf16 "__isReactElement", .bool true),
        (utf16 "jsx", .str (utf16 "<p>Hi</p>"))]) ∧
      deserializeMessage (modelPlatform (fun _ => .ok (utf16 "<p>Hi</p>")))
          (withText (.obj [(utf16 "type", .str (utf16 "bot")),
            (utf16 "text", createElement (.str (utf16 "p")) [(utf16 "children",
              .str (utf16 "Hi"))])]) (.str s))
        = .ok (withText (.obj [(utf16 "type", .str (utf16 "bot")),
            (utf16 "text", createElement (.str (utf16 "p")) [(utf16 "children",
              .str (utf16 "Hi"))])]) (innerHTMLDiv (.str (utf16 "<p>Hi</p>")))) ∧
      getProp (withText (.obj [(utf16 "type", .str (utf16 "bot")),
            (utf16 "text", createElement (.str (utf16 "p")) [(utf16 "children",
              .str (utf16 "Hi"))])]) (innerHTMLDiv (.str (utf16 "<p>Hi</p>"))))
          (utf16 "text")
        = .ok (innerHTMLDiv (.str (utf16 "<p>Hi</p>"))) ∧
      (((getProp (innerHTMLDiv (.str (utf16 "<p>Hi</p>"))) (utf16 "props")).bind
          (fun props => getProp props (utf16 "dangerouslySetInnerHTML"))).bind
          (fun inner => getProp inner (utf16 "__html"))) = .ok (.str (utf16 "<p>Hi</p>")) :=
  ⟨rfl, rfl, codec_markup_round_trip (fun _ => .ok (utf16 "<p>Hi</p>")) _ _ _ rfl rfl rfl⟩


/-! ## Properties of the verification statistics -/

theorem isString_unique {v : JSValue} {a b : JString} (ha : isString v a = true)
    (hb : isString v b = true) : a = b := by
  cases v <;> simp [isString] at ha hb
  rw [← ha, ← hb]

theorem foldl_tallyStep (rs : List VerificationResult) (acc : Tally) :
    (rs.foldl tallyStep acc).verified =
        acc.verified + rs.countP (fun r => isString r.status (utf16 "verified")) ∧
      (rs.foldl tallyStep acc).unverifiable =
        acc.unverifiable + rs.countP (fun r => isString r.status (utf16 "not_found") ||
          isString r.status (utf16 "failed")) ∧
      (rs.foldl tallyStep acc).notVerified =
        acc.notVerified + rs.countP (fun r => !isString r.status (utf16 "verified") &&
          !(isString r.status (utf16 "not_found") || isString r.status (utf16 "failed"))) ∧
      (rs.foldl tallyStep acc).unverifiableRefs =
        acc.unverifiableRefs ++ (rs.filter (fun r => isString r.status (utf16 "not_found") ||
          isString r.status (utf16 "failed"))).map (fun r => r.reference) := by
  induction rs generalizing acc with
  | nil => simp
  | cons r rs ih =>
    obtain ⟨h1, h2, h3, h4⟩ := ih (tallyStep acc r)
    simp only [List.foldl_cons]
    rw [h1, h2, h3, h4]
    by_cases hv : isString r.status (utf16 "verified") = true
    · have hn : isString r.status (utf16 "not_found") = false := by
        cases h : isString r.status (utf16 "not_found")
        · rfl
        · exact absurd (isString_unique hv h) (by decide)
      have hf : isString r.status (utf16 "failed") = false := by
        cases h : isString r.status (utf16 "failed")
        · rfl
        · exact absurd (isString_unique hv h) (by decide)
      have hstep : tallyStep acc r = { acc with verified := acc.verified + 1 } := by
        simp [tallyStep, hv]
      rw [hstep]
      simp only [List.countP_cons, List.filter_cons, hv, hn, hf]
      simp
      omega
    · simp only [Bool.not_eq_true] at hv
      by_cases hu : (isString r.status (utf16 "not_found") ||
          isString r.status (utf16 "failed")) = true
      · have hstep : tallyStep acc r = { acc with
            unverifiable := acc.unverifiable + 1,
            unverifiableRefs := acc.unverifiableRefs ++ [r.reference] } := by
          simp only [tallyStep, hv, hu]
          simp
        rw [hstep]
        simp only [List.countP_cons, List.filter_cons, hv, hu]
        simp
        omega
      · simp only [Bool.not_eq_true] at hu
        have hstep : tallyStep acc r = { acc with notVerified := acc.notVerified + 1 } := by
          simp only [tallyStep, hv, hu]
          simp
        rw [hstep]
        simp only [List.countP_cons, List.filter_cons, hv, hu]
        simp
        omega

theorem verifyFrom_map_reference (post : Nat → JSValue → Except JSError JSValue)
    (refs : List JSValue) (i : Nat) :
    (verifyFrom post i refs).map (fun r => r.reference) = refs := by
  induction refs generalizing i with
  | nil => rfl
  | cons r refs ih =>
    have hr : (verifyOne (post i r) r).reference = r := by
      unfold verifyOne
      split
      · rfl
      · split <;> rfl
    simp [verifyFrom, ih, hr]

theorem verifyFrom_getElem? (post : Nat → JSValue → Except JSError JSValue)
    (refs : List JSValue) (i j : Nat) :
    (verifyFrom post i refs)[j]? =
      (refs[j]?).map (fun r => verifyOne (post (i + j) r) r) := by
  induction refs generalizing i j with
  | nil => simp [verifyFrom]
  | cons r refs ih =>
    cases j with
    | zero => simp [verifyFrom]
    | succ j =>
      simp only [verifyFrom, List.getElem?_cons_succ]
      rw [ih]
      have : i + 1 + j = i + (j + 1) := by omega
      rw [this]

theorem tallyStep_sum (acc : Tally) (r : VerificationResult) :
    (tallyStep acc r).verified + (tallyStep acc r).notVerified + (tallyStep acc r).unverifiable
        = acc.verified + acc.notVerified + acc.unverifiable + 1 ∧
      ((tallyStep acc r).unverifiableRefs.length + acc.unverifiable
        = acc.unverifiableRefs.length + (tallyStep acc r).unverifiable) := by
  unfold tallyStep
  split_ifs
  · constructor
    · simp only []; omega
    · simp only []
  · constructor
    · simp only []; omega
    · simp only [List.length_append, List.length_singleton]; omega
  · constructor
    · simp only []; omega
    · simp only []

theorem foldl_tallyStep_sum (rs : List VerificationResult) (acc : Tally) :
    (rs.foldl tallyStep acc).verified + (rs.foldl tallyStep acc).notVerified +
        (rs.foldl tallyStep acc).unverifiable
        = acc.verified + acc.notVerified + acc.unverifiable + rs.length ∧
      ((rs.foldl tallyStep acc).unverifiableRefs.length + acc.unverifiable
        = acc.unverifiableRefs.length + (rs.foldl tallyStep acc).unverifiable) := by
  induction rs generalizing acc with
  | nil => simp
  | cons r rs ih =>
    obtain ⟨h1, h2⟩ := ih (tallyStep acc r)
    obtain ⟨h3, h4⟩ := tallyStep_sum acc r
    simp only [List.foldl_cons, List.length_cons]
    constructor <;> omega

theorem verifyFrom_length (post : Nat → JSValue → Except JSError JSValue)
    (refs : List JSValue) (i : Nat) : (verifyFrom post i refs).length = refs.length := by
  induction refs generalizing i with
  | nil => rfl
  | cons r refs ih => simp [verifyFrom, ih]

theorem verifyOne_status (outcome : Except JSError JSValue) (reference : JSValue) :
    (verifyOne outcome reference).status = statusOfOutcome outcome := by
  cases outcome with
  | error e => rfl
  | ok data =>
    simp only [verifyOne, statusOfOutcome]
    cases getProp data (utf16 "verification_status") <;> rfl

theorem verifyFrom_eq_enumFrom (post : Nat → JSValue → Except JSError JSValue)
    (refs : List JSValue) (i : Nat) :
    verifyFrom post i refs =
      (refs.enumFrom i).map (fun p => verifyOne (post p.1 p.2) p.2) := by
  induction refs generalizing i with
  | nil => rfl
  | cons r refs ih => simp [verifyFrom, List.enumFrom, ih]

/-- C5: the counters that `verifyAllReferences` computes for a list of references count
the calls by their own outcome: `verified` is the number of references whose call gave the
status `verified`, `unverifiable` the number whose call gave `not_found` or `failed` (a
rejected call counting as `failed`), `notVerified` the number of all others, the three
adding up to the number of references.  For every list of results the `reduce` counts in
this way, and a `verified` result leaves the unverifiable count and list as they were. -/
theorem verifyAllReferences_counts (post : Nat → JSValue → Except JSError JSValue)
    (references : List JSValue) (st : StatsButtonState) (rs : List VerificationResult)
    (acc : Tally) (reference : JSValue) :
    ((verifyAllReferences post references st).verificationStats.verified =
        references.enum.countP (fun p =>
          isString (statusOfOutcome (post p.1 p.2)) (utf16 "verified")) ∧
      (verifyAllReferences post references st).verificationStats.unverifiable =
        references.enum.countP (fun p =>
          isString (statusOfOutcome (post p.1 p.2)) (utf16 "not_found") ||
            isString (statusOfOutcome (post p.1 p.2)) (utf16 "failed")) ∧
      (verifyAllReferences post references st).verificationStats.notVerified =
        references.enum.countP (fun p =>
          !isString (statusOfOutcome (post p.1 p.2)) (utf16 "verified") &&
            !(isString (statusOfOutcome (post p.1 p.2)) (utf16 "not_found") ||
              isString (statusOfOutcome (post p.1 p.2)) (utf16 "failed"))) ∧
      (verifyAllReferences post references st).verificationStats.verified +
          (verifyAllReferences post references st).verificationStats.unverifiable +
          (verifyAllReferences post references st).verificationStats.notVerified
        = references.length) ∧
    (verifyAllReferences post references st).verificationResults =
      references.enum.map (fun p =>
        { reference := p.2, status := statusOfOutcome (post p.1 p.2) }) ∧
    ((tally rs).verified = rs.countP (fun r => isString r.status (utf16 "verified")) ∧
      (tally rs).unverifiable = rs.countP (fun r => isString r.status (utf16 "not_found") ||
        isString r.status (utf16 "failed")) ∧
      (tally rs).notVerified = rs.countP (fun r => !isString r.status (utf16 "verified") &&
        !(isString r.status (utf16 "not_found") || isString r.status (utf16 "failed")))) ∧
    ((tallyStep acc { reference := reference, status := .str (utf16 "verified") }).unverifiable
        = acc.unverifiable ∧
      (tallyStep acc { reference := reference, status := .str (utf16 "verified") }).unverifiableRefs
        = acc.unverifiableRefs) ∧
    ((verifyAllReferences sampleOutcomes sampleReferences st).verificationStats.verified = 2 ∧
      (verifyAllReferences sampleOutcomes sampleReferences st).verificationStats.notVerified = 3 ∧
      (verifyAllReferences sampleOutcomes sampleReferences st).verificationStats.unverifiable
        = 3) := by
  have hres : verifyFrom post 0 references =
      references.enum.map (fun p =>
        ({ reference := p.2,
           status := statusOfOutcome (post p.1 p.2) } : VerificationResult)) := by
    rw [verifyFrom_eq_enumFrom, List.enum]
    apply List.map_congr_left
    intro p _
    have h1 := verifyOne_status (post p.1 p.2) p.2
    have h2 : (verifyOne (post p.1 p.2) p.2).reference = p.2 := by
      unfold verifyOne
      split
      · rfl
      · split <;> rfl
    cases hv : verifyOne (post p.1 p.2) p.2 with
    | mk r s =>
      rw [hv] at h1 h2
      simp only at h1 h2
      rw [h1, h2]
  have hfold : ∀ rs : List VerificationResult,
      (tally rs).verified = rs.countP (fun r => isString r.status (utf16 "verified")) ∧
      (tally rs).unverifiable = rs.countP (fun r => isString r.status (utf16 "not_found") ||
        isString r.status (utf16 "failed")) ∧
      (tally rs).notVerified = rs.countP (fun r => !isString r.status (utf16 "verified") &&
        !(isString r.status (utf16 "not_found") || isString r.status (utf16 "failed"))) := by
    intro rs
    obtain ⟨h1, h2, h3, -⟩ := foldl_tallyStep rs
      { verified := 0, notVerified := 0, unverifiable := 0, unverifiableRefs := [] }
    simp only [Nat.zero_add] at h1 h2 h3
    exact ⟨h1, h2, h3⟩
  obtain ⟨h1, h2, h3⟩ := hfold (verifyFrom post 0 references)
  have hsum := foldl_tallyStep_sum (verifyFrom post 0 references)
    { verified := 0, notVerified := 0, unverifiable := 0, unverifiableRefs := [] }
  refine ⟨⟨?_, ?_, ?_, ?_⟩, hres, hfold rs, ?_, ⟨rfl, rfl, rfl⟩⟩
  · show (tally (verifyFrom post 0 references)).verified = _
    rw [h1, hres, List.countP_map]
    rfl
  · show (tally (verifyFrom post 0 references)).unverifiable = _
    rw [h2, hres, List.countP_map]
    rfl
  · show (tally (verifyFrom post 0 references)).notVerified = _
    rw [h3, hres, List.countP_map]
    rfl
  · have hlen := verifyFrom_length post references 0
    have := hsum.1
    simp only [Nat.zero_add] at this
    show (tally (verifyFrom post 0 references)).verified +
      (tally (verifyFrom post 0 references)).unverifiable +
      (tally (verifyFrom post 0 references)).notVerified = _
    unfold tally
    omega
  · simp [tallyStep, isString]

/-- C6: the drill-down list `unverifiableRefs` of `verifyAllReferences` is the list of the
references of those results, in order, whose status is `not_found` or `failed`, and the
results carry the input references in input order. -/
theorem verifyAllReferences_unverifiableRefs (post : Nat → JSValue → Except JSError JSValue)
    (references : List JSValue) (st : StatsButtonState) :
    (verifyAllReferences post references st).verificationStats.unverifiableRefs =
        ((verifyAllReferences post references st).verificationResults.filter
          (fun r => isString r.status (utf16 "not_found") ||
            isString r.status (utf16 "failed"))).map (fun r => r.reference) ∧
      (verifyAllReferences post references st).verificationResults.map (fun r => r.reference)
        = references := by
  refine ⟨?_, verifyFrom_map_reference post references 0⟩
  obtain ⟨-, -, -, h4⟩ := foldl_tallyStep (verifyFrom post 0 references)
    { verified := 0, notVerified := 0, unverifiable := 0, unverifiableRefs := [] }
  simpa using h4

/-- C7: on an empty reference list `verifyAllReferences` yields all counters zero, an
empty `unverifiableRefs` list and `loading` false. -/
theorem verifyAllReferences_nil (post : Nat → JSValue → Except JSError JSValue)
    (st : StatsButtonState) :
    (verifyAllReferences post [] st).verificationStats.verified = 0 ∧
      (verifyAllReferences post [] st).verificationStats.notVerified = 0 ∧
      (verifyAllReferences post [] st).verificationStats.unverifiable = 0 ∧
      (verifyAllReferences post [] st).verificationStats.unverifiableRefs = [] ∧
      (verifyAllReferences post [] st).verificationStats.loading = false :=
  ⟨rfl, rfl, rfl, rfl, rfl⟩

/-! ## Properties of the per-reference status -/

theorem getProp_obj (props : Props) (k : JString) :
    getProp (.obj props) k = .ok (getOwn props k) := rfl

/-- C8: after a call that does not error, both the batch run and the per-item check record
the `verification_status` of the response as it is; with the status derivation of the
service (modelled from the specification) that status is `not_found` when all four hit
lists are empty and `verified` otherwise. -/
theorem recorded_status_of_service (crossref arxiv semantic_scholar retracted : List JSValue)
    (reference : JSValue) (st : ReferenceItemState) :
    ((verifyOne (.ok (verifyReferenceService crossref arxiv semantic_scholar retracted))
        reference).status =
      (if crossref.isEmpty && arxiv.isEmpty && semantic_scholar.isEmpty && retracted.isEmpty
        then .str (utf16 "not_found") else .str (utf16 "verified")) ∧
    (verifyReference (.ok (verifyReferenceService crossref arxiv semantic_scholar retracted))
        st).verificationStatus =
      (if crossref.isEmpty && arxiv.isEmpty && semantic_scholar.isEmpty && retracted.isEmpty
        then .str (utf16 "not_found") else .str (utf16 "verified"))) ∧
    (∀ data status results, getProp data (utf16 "verification_status") = .ok status →
      getProp data (utf16 "results") = .ok results →
      (verifyOne (.ok data) reference).status = status ∧
        (verifyReference (.ok data) st).verificationStatus = status) := by
  have h1 : getProp (verifyReferenceService crossref arxiv semantic_scholar retracted)
      (utf16 "verification_status") =
      .ok (if crossref.isEmpty && arxiv.isEmpty && semantic_scholar.isEmpty &&
        retracted.isEmpty then .str (utf16 "not_found") else .str (utf16 "verified")) := by
    simp [verifyReferenceService, getProp, getOwn]
  have h2 : ∃ r, getProp (verifyReferenceService crossref arxiv semantic_scholar retracted)
      (utf16 "results") = .ok r := ⟨_, rfl⟩
  obtain ⟨r, h2⟩ := h2
  refine ⟨⟨?_, ?_⟩, ?_⟩
  · simp only [verifyOne, h1]
  · simp only [verifyReference, h1, h2]
  · intro data status results hs hr
    constructor
    · simp only [verifyOne, hs]
    · simp only [verifyReference, hs, hr]

/-- Witness of C8: a response of the modelled service with all four hit lists empty. -/
theorem recorded_status_of_service_witness :
    getProp (verifyReferenceService [] [] [] []) (utf16 "verification_status")
        = .ok (.str (utf16 "not_found")) ∧
      getProp (verifyReferenceService [] [] [] []) (utf16 "results")
        = .ok (.obj [(utf16 "crossref", .arr []), (utf16 "arxiv", .arr []),
          (utf16 "semantic_scholar", .arr []), (utf16 "retracted", .arr [])]) ∧
      (verifyOne (.ok (verifyReferenceService [] [] [] []))
          (.obj [(utf16 "title", .str (utf16 "Paper B"))])).status
        = .str (utf16 "not_found") ∧
      (verifyReference (.ok (verifyReferenceService [] [] [] []))
          ReferenceItemState.pending
        ).verificationStatus = .str (utf16 "not_found") :=
  ⟨rfl, rfl,
    (recorded_status_of_service [] [] [] [] (.obj [(utf16 "title", .str (utf16 "Paper B"))])
      ReferenceItemState.pending).2
      (verifyReferenceService [] [] [] []) _ _ rfl rfl⟩

/-- C9: a reference whose call errors gets status `failed`, in the batch run and in the
per-item check; in a batch every result is the one of the reference's own call, a call
that returns a `verification_status` records that status, and the run completes with one
result per reference and `loading` false. -/
theorem failed_call_status (post : Nat → JSValue → Except JSError JSValue)
    (references : List JSValue) (st : StatsButtonState) (item : ReferenceItemState)
    (e : JSError) (reference : JSValue) :
    (verifyOne (.error e) reference).status = .str (utf16 "failed") ∧
      (verifyOne (.error e) reference).reference = reference ∧
      (verifyReference (.error e) item).verificationStatus = .str (utf16 "failed") ∧
      (∀ i r, references[i]? = some r →
        (verifyAllReferences post references st).verificationResults[i]?
          = some (verifyOne (post i r) r)) ∧
      (∀ data status, getProp data (utf16 "verification_status") = .ok status →
        (verifyOne (.ok data) reference).status = status) ∧
      (verifyAllReferences post references st).verificationResults.length
        = references.length ∧
      (verifyAllReferences post references st).verificationStats.loading = false := by
  refine ⟨rfl, rfl, rfl, ?_, ?_, ?_, rfl⟩
  · intro i r hr
    show (verifyFrom post 0 references)[i]? = _
    rw [verifyFrom_getElem?, hr]
    simp
  · intro data status h
    simp only [verifyOne, h]
  · have := congrArg List.length (verifyFrom_map_reference post references 0)
    simpa [verifyAllReferences] using this

/-- Witness of C9: a batch of two references in which the first call errors and the second
returns `verified`. -/
theorem failed_call_status_witness :
    ([JSValue.obj [(utf16 "title", .str (utf16 "Paper A"))],
        JSValue.obj [(utf16 "title", .str (utf16 "Paper B"))]] : List JSValue)[1]?
        = some (.obj [(utf16 "title", .str (utf16 "Paper B"))]) ∧
      (verifyAllReferences
          (fun i _ => if i = 0 then .error .typeError
            else .ok (.obj [(utf16 "verification_status", .str (utf16 "verified"))]))
          [.obj [(utf16 "title", .str (utf16 "Paper A"))],
            .obj [(utf16 "title", .str (utf16 "Paper B"))]]
          StatsButtonState.initial).verificationResults[1]?
        = some (verifyOne (.ok (.obj [(utf16 "verification_status",
            .str (utf16 "verified"))])) (.obj [(utf16 "title", .str (utf16 "Paper B"))])) ∧
      getProp (.obj [(utf16 "verification_status", .str (utf16 "verified"))])
          (utf16 "verification_status") = .ok (.str (utf16 "verified")) ∧
      (verifyOne (.ok (.obj [(utf16 "verification_status", .str (utf16 "verified"))]))
          (.obj [(utf16 "title", .str (utf16 "Paper A"))])).status
        = .str (utf16 "verified") :=
  ⟨rfl,
    (failed_call_status
      (fun i _ => if i = 0 then .error .typeError
        else .ok (.obj [(utf16 "verification_status", .str (utf16 "verified"))]))
      [.obj [(utf16 "title", .str (utf16 "Paper A"))],
        .obj [(utf16 "title", .str (utf16 "Paper B"))]]
      StatsButtonState.initial ReferenceItemState.pending .typeError
      (.obj [(utf16 "title", .str (utf16 "Paper A"))])).2.2.2.1 1 _ rfl,
    rfl,
    (failed_call_status (fun _ _ => .error .typeError) [] StatsButtonState.initial
      ReferenceItemState.pending .typeError
      (.obj [(utf16 "title", .str (utf16 "Paper A"))])).2.2.2.2.1 _ _ rfl⟩

/-- C10: after a per-reference verification whose response has status `verified` and a
non-empty `retracted` hit list, the item's status is `verified`, its stored results hold
that same `retracted` list, and the retraction section is rendered. -/
theorem verified_with_retraction (item : ReferenceItemState) (data results : JSValue)
    (hits : List JSValue)
    (hstatus : getProp data (utf16 "verification_status") = .ok (.str (utf16 "verified")))
    (hresults : getProp data (utf16 "results") = .ok results)
    (hretracted : getProp results (utf16 "retracted") = .ok (.arr hits))
    (hne : hits ≠ []) :
    (verifyReference (.ok data) item).verificationStatus = .str (utf16 "verified") ∧
      getProp (verifyReference (.ok data) item).results (utf16 "retracted")
        = .ok (.arr hits) ∧
      retractionShown (verifyReference (.ok data) item) = true := by
  have hst : verifyReference (.ok data) item =
      { verificationStatus := .str (utf16 "verified"), results := results } := by
    simp only [verifyReference, hstatus, hresults]
  rw [hst]
  refine ⟨rfl, hretracted, ?_⟩
  have htruthy : truthy results = true := by
    have hk : utf16 "retracted" ≠ utf16 "length" := by decide
    cases results <;> simp [getProp, hk] at hretracted
    rfl
  have hlen : 0 < hits.length := List.length_pos.mpr hne
  have h1 : isString (.str (utf16 "verified")) (utf16 "failed") = false := by decide
  have h2 : isString (.str (utf16 "verified")) (utf16 "pending") = false := by decide
  simp only [retractionShown, resultsShown, htruthy, hretracted, h1, h2]
  simp [truthy, getProp, greaterThanZero, hlen]

/-- Witness of C10: a response with one CrossRef hit and one retraction hit. -/
theorem verified_with_retraction_witness :
    getProp (verifyReferenceService [.obj [(utf16 "title", .str (utf16 "Paper A"))]] [] []
        [.obj [(utf16 "title", .str (utf16 "Paper A"))]]) (utf16 "verification_status")
      = .ok (.str (utf16 "verified")) ∧
    (verifyReference (.ok (verifyReferenceService
        [.obj [(utf16 "title", .str (utf16 "Paper A"))]] [] []
        [.obj [(utf16 "title", .str (utf16 "Paper A"))]]))
        ReferenceItemState.pending).verificationStatus = .str (utf16 "verified") ∧
    getProp (verifyReference (.ok (verifyReferenceService
        [.obj [(utf16 "title", .str (utf16 "Paper A"))]] [] []
        [.obj [(utf16 "title", .str (utf16 "Paper A"))]]))
        ReferenceItemState.pending).results (utf16 "retracted")
      = .ok (.arr [.obj [(utf16 "title", .str (utf16 "Paper A"))]]) ∧
    retractionShown (verifyReference (.ok (verifyReferenceService
        [.obj [(utf16 "title", .str (utf16 "Paper A"))]] [] []
        [.obj [(utf16 "title", .str (utf16 "Paper A"))]]))
        ReferenceItemState.pending) = true :=
  ⟨rfl, verified_with_retraction ReferenceItemState.pending _ _
    [.obj [(utf16 "title", .str (utf16 "Paper A"))]] rfl rfl rfl (by simp)⟩

/-! ## Properties of `Promise.all`, the chart click and the button gate -/

theorem collectSlots_map_some {α : Type} (values : List α) :
    collectSlots (values.map some) = some values := by
  induction values with
  | nil => rfl
  | cons v vs ih => simp [collectSlots, ih]

theorem resolveElements_length {α : Type} (values : List α) (order : List Nat)
    (slots : List (Option α)) :
    (resolveElements values order slots).length = slots.length := by
  induction order generalizing slots with
  | nil => rfl
  | cons i rest ih => simp [resolveElements, ih]

theorem resolveElements_getElem? {α : Type} (values : List α) (order : List Nat)
    (slots : List (Option α)) (j : Nat) (hj : j < slots.length) :
    (resolveElements values order slots)[j]? =
      if j ∈ order then some values[j]? else slots[j]? := by
  induction order generalizing slots with
  | nil => simp [resolveElements]
  | cons i rest ih =>
    simp only [resolveElements]
    rw [ih _ (by simpa using hj)]
    by_cases hr : j ∈ rest
    · simp [hr]
    · by_cases hij : i = j
      · subst hij
        simp [hr, List.getElem?_set, hj]
      · have : ¬ j = i := fun h => hij h.symm
        simp [hr, this, List.getElem?_set, hij]

theorem promiseAll_of_perm {α : Type} (order : List Nat) (values : List α)
    (h : order.Perm (List.range values.length)) : promiseAll order values = some values := by
  unfold promiseAll
  have hres : resolveElements values order (List.replicate values.length none)
      = values.map some := by
    apply List.ext_getElem?
    intro j
    by_cases hj : j < values.length
    · rw [resolveElements_getElem? _ _ _ _ (by simpa using hj)]
      have hmem : j ∈ order := (h.mem_iff).mpr (List.mem_range.mpr hj)
      simp [hmem, hj]
    · have h1 : (resolveElements values order (List.replicate values.length none)).length
          ≤ j := by
        rw [resolveElements_length]; simp; omega
      rw [List.getElem?_eq_none h1, List.getElem?_eq_none (by simp; omega)]
  rw [hres, collectSlots_map_some]


theorem verifyFrom_reference_getElem? (post : Nat → JSValue → Except JSError JSValue)
    (refs : List JSValue) (i j : Nat) :
    ((verifyFrom post i refs)[j]?).map (fun vr => vr.reference) = refs[j]? := by
  have h := congrArg (fun l => l[j]?) (verifyFrom_map_reference post refs i)
  simpa [List.getElem?_map] using h

theorem strictEquals_self (v : JSValue) (h : isPrimitive v = true) : strictEquals v v = true := by
  cases v <;> simp [isPrimitive] at h <;> simp [strictEquals]

theorem sameReference_self (vr : VerificationResult) (h : WellFormedReference vr.reference) :
    sameReference vr vr.reference = .ok true := by
  obtain ⟨props, hp, ht, hd⟩ := h
  simp [sameReference, hp, getProp, strictEquals_self _ ht, strictEquals_self _ hd]

theorem findResult_append (pre : List VerificationResult) (vr : VerificationResult)
    (suf : List VerificationResult) (ref : JSValue)
    (hpre : ∀ x ∈ pre, sameReference x ref = .ok false)
    (hvr : sameReference vr ref = .ok true) :
    findResult (pre ++ vr :: suf) ref = .ok (some vr) := by
  induction pre with
  | nil => simp [findResult, hvr]
  | cons x pre ih =>
    have hx := hpre x (by simp)
    simp only [List.cons_append, findResult, hx]
    exact ih (fun y hy => hpre y (by simp [hy]))

theorem filterVerified_suffix (pre suf : List VerificationResult)
    (hwf : ∀ x ∈ pre ++ suf, WellFormedReference x.reference)
    (hdis : (pre ++ suf).Pairwise (fun a b => sameReference a b.reference = .ok false)) :
    filterVerified (pre ++ suf) (suf.map (fun r => r.reference)) =
      .ok ((suf.filter (fun r => isString r.status (utf16 "verified"))).map
        (fun r => r.reference)) := by
  induction suf generalizing pre with
  | nil => simp [filterVerified]
  | cons r suf ih =>
    have hfind : findResult (pre ++ r :: suf) r.reference = .ok (some r) := by
      apply findResult_append
      · intro x hx
        have := List.pairwise_append.mp hdis
        exact this.2.2 x hx r (by simp)
      · exact sameReference_self r (hwf r (by simp))
    have ih' := ih (pre ++ [r]) (by simpa using hwf) (by simpa using hdis)
    simp only [List.append_assoc, List.singleton_append] at ih'
    simp only [List.map_cons, filterVerified, isVerifiedReference, hfind, ih']
    by_cases hv : isString r.status (utf16 "verified") = true
    · simp [hv]
    · simp only [Bool.not_eq_true] at hv
      simp [hv]

theorem citationData_obj (props : Props) : ∃ data, citationData (.obj props) = .ok data := by
  simp [citationData, getProp]

theorem saveVerified_ok (save : JSValue → JSValue → Except JSError Unit) (user userID : JSValue)
    (huser : getProp user (utf16 "userID") = .ok userID)
    (hsave : ∀ data uid, save data uid = .ok ())
    (refs : List JSValue) (hobj : ∀ r ∈ refs, ∃ props, r = .obj props) :
    (saveVerified save user refs).thrown = none ∧
      (saveVerified save user refs).calls.map (fun c => (Except.ok c.1 : Except JSError JSValue))
        = refs.map citationData ∧
      (saveVerified save user refs).calls.map (fun c => c.2) = refs.map (fun _ => userID) := by
  induction refs with
  | nil => simp [saveVerified]
  | cons r refs ih =>
    obtain ⟨props, rfl⟩ := hobj r (by simp)
    obtain ⟨data, hdata⟩ := citationData_obj props
    obtain ⟨h1, h2, h3⟩ := ih (fun x hx => hobj x (by simp [hx]))
    simp only [saveVerified, hdata, huser, hsave]
    simp [h1, h2, h3, hdata]


theorem sameReference_reference (vr : VerificationResult) (ref : JSValue) :
    sameReference vr ref = sameReference { reference := vr.reference, status := .undefined } ref :=
  rfl

theorem sameReference_of_not_shares (vr : VerificationResult) (ref : JSValue)
    (hvr : WellFormedReference vr.reference) (href : WellFormedReference ref)
    (h : sharesTitleAndDoi vr.reference ref = false) : sameReference vr ref = .ok false := by
  obtain ⟨p1, h1, -, -⟩ := hvr
  obtain ⟨p2, h2, -, -⟩ := href
  unfold sharesTitleAndDoi at h
  rw [← sameReference_reference] at h
  subst h2
  revert h
  simp only [sameReference, h1, getProp]
  by_cases ht : strictEquals (getOwn p1 (utf16 "title")) (getOwn p2 (utf16 "title")) = true
  · simp [ht]
  · simp [ht]

/-- C11: the results built by `verifyAllReferences` are as many as the input references and
the result at position `i` carries the reference at position `i`; the model of
`Promise.all` yields this same list whatever order the calls settle in. -/
theorem verifyAllReferences_results_order (post : Nat → JSValue → Except JSError JSValue)
    (references : List JSValue) (st : StatsButtonState) :
    (verifyAllReferences post references st).verificationResults.length = references.length ∧
      (∀ i : Nat, ((verifyAllReferences post references st).verificationResults[i]?).map
          (fun vr : VerificationResult => vr.reference) = references[i]?) ∧
      (∀ order : List Nat, order.Perm (List.range references.length) →
        promiseAll order (verifyFrom post 0 references)
          = some (verifyAllReferences post references st).verificationResults) := by
  have hlen : (verifyFrom post 0 references).length = references.length := by
    have := congrArg List.length (verifyFrom_map_reference post references 0)
    simpa using this
  refine ⟨hlen, fun i => verifyFrom_reference_getElem? post references 0 i, ?_⟩
  intro order horder
  rw [← hlen] at horder
  exact promiseAll_of_perm order _ horder

/-- Witness of C11: two references whose calls settle in the order second, first. -/
theorem verifyAllReferences_results_order_witness :
    ([1, 0] : List Nat).Perm (List.range [paperA, paperB].length) ∧
      promiseAll [1, 0] (verifyFrom (fun _ _ => .ok verifiedResponse) 0 [paperA, paperB])
        = some (verifyAllReferences (fun _ _ => .ok verifiedResponse) [paperA, paperB]
            StatsButtonState.initial).verificationResults :=
  ⟨by decide,
    (verifyAllReferences_results_order (fun _ _ => .ok verifiedResponse) [paperA, paperB]
      StatsButtonState.initial).2.2 [1, 0] (by decide)⟩

/-- C12 (counterexample): two references with the same title and doi, the first verified
and the call for the second failing; a click on the Verified segment saves both, although
only one reference has its own status `verified`. -/
theorem chart_click_duplicates_counterexample :
    ((verifyAllReferences (fun i _ => if i = 0 then .ok verifiedResponse else .error .typeError)
        [paperA, paperA] StatsButtonState.initial).verificationResults.filter
        (fun r => isString r.status (utf16 "verified"))).length = 1 ∧
      (handleChartClick (fun _ _ => .ok ()) [paperA, paperA] userU1
        (verifyAllReferences (fun i _ => if i = 0 then .ok verifiedResponse
          else .error .typeError) [paperA, paperA] StatsButtonState.initial)
        [0]).calls.length = 2 :=
  ⟨rfl, rfl⟩

theorem sameReference_obj (vr : VerificationResult) (ref : JSValue)
    (hvr : WellFormedReference vr.reference) (href : WellFormedReference ref) :
    sameReference vr ref = .ok (sharesTitleAndDoi vr.reference ref) := by
  obtain ⟨p1, h1, -, -⟩ := hvr
  obtain ⟨p2, h2, -, -⟩ := href
  unfold sharesTitleAndDoi
  rw [← sameReference_reference]
  subst h2
  simp only [sameReference, h1, getProp]
  by_cases ht : strictEquals (getOwn p1 (utf16 "title")) (getOwn p2 (utf16 "title")) = true
  · simp [ht]
  · simp [ht]

theorem findResult_eq_find? (results : List VerificationResult) (ref : JSValue)
    (hres : ∀ x ∈ results, WellFormedReference x.reference) (href : WellFormedReference ref) :
    findResult results ref =
      .ok (results.find? (fun vr => sharesTitleAndDoi vr.reference ref)) := by
  induction results with
  | nil => rfl
  | cons vr rest ih =>
    have h := sameReference_obj vr ref (hres vr (by simp)) href
    have ih2 := ih (fun x hx => hres x (by simp [hx]))
    cases hs : sharesTitleAndDoi vr.reference ref with
    | true =>
      rw [hs] at h
      simp [findResult, h, List.find?, hs]
    | false =>
      rw [hs] at h
      simp [findResult, h, List.find?, hs, ih2]

theorem isVerifiedReference_eq (results : List VerificationResult) (ref : JSValue)
    (hres : ∀ x ∈ results, WellFormedReference x.reference) (href : WellFormedReference ref) :
    isVerifiedReference results ref = .ok (firstMatchVerified results ref) := by
  unfold isVerifiedReference firstMatchVerified
  rw [findResult_eq_find? results ref hres href]
  cases results.find? (fun vr => sharesTitleAndDoi vr.reference ref) <;> rfl

theorem filterVerified_eq_filter (results : List VerificationResult) (refs : List JSValue)
    (hres : ∀ x ∈ results, WellFormedReference x.reference)
    (hrefs : ∀ r ∈ refs, WellFormedReference r) :
    filterVerified results refs = .ok (refs.filter (firstMatchVerified results)) := by
  induction refs with
  | nil => rfl
  | cons r refs ih =>
    have h1 := isVerifiedReference_eq results r hres (hrefs r (by simp))
    have h2 := ih (fun x hx => hrefs x (by simp [hx]))
    simp only [filterVerified, h1, h2, List.filter_cons]

/-- C12 (amended): for a list of references (objects with primitive title and doi), after
`verifyAllReferences` has completed a click on the Verified segment makes, in input order,
one save call for each reference of the list for which the first result with the same
title and doi has status `verified`, with that reference's citation data and the user's
id, and ends without error (the save calls themselves succeeding); when no two references
of the list share title and doi, the saved references are exactly those whose own status is
`verified`. -/
theorem chart_click_saves_verified (save : JSValue → JSValue → Except JSError Unit)
    (post : Nat → JSValue → Except JSError JSValue) (references : List JSValue)
    (user userID : JSValue) (st : StatsButtonState) (more : List Nat)
    (hwf : ∀ r ∈ references, WellFormedReference r)
    (huser : getProp user (utf16 "userID") = .ok userID)
    (hsave : ∀ data uid, save data uid = .ok ()) :
    (handleChartClick save references user (verifyAllReferences post references st)
        (0 :: more)).thrown = none ∧
      (handleChartClick save references user (verifyAllReferences post references st)
        (0 :: more)).calls.map (fun c => (Except.ok c.1 : Except JSError JSValue)) =
        (references.filter (firstMatchVerified
          (verifyAllReferences post references st).verificationResults)).map citationData ∧
      (handleChartClick save references user (verifyAllReferences post references st)
        (0 :: more)).calls.map (fun c => c.2) =
        (references.filter (firstMatchVerified
          (verifyAllReferences post references st).verificationResults)).map
            (fun _ => userID) ∧
      (references.Pairwise (fun a b => sharesTitleAndDoi a b = false) →
        references.filter (firstMatchVerified
            (verifyAllReferences post references st).verificationResults) =
          ((verifyAllReferences post references st).verificationResults.filter
            (fun r => isString r.status (utf16 "verified"))).map (fun r => r.reference) ∧
        (handleChartClick save references user (verifyAllReferences post references st)
          (0 :: more)).calls.map (fun c => (Except.ok c.1 : Except JSError JSValue)) =
          ((verifyAllReferences post references st).verificationResults.filter
            (fun r => isString r.status (utf16 "verified"))).map
              (fun r => citationData r.reference)) := by
  have hmap := verifyFrom_map_reference post references 0
  have hwf2 : ∀ x ∈ verifyFrom post 0 references, WellFormedReference x.reference := by
    intro x hx
    apply hwf
    rw [← hmap]
    exact List.mem_map.mpr ⟨x, hx, rfl⟩
  have hfilter := filterVerified_eq_filter (verifyFrom post 0 references) references hwf2 hwf
  have hobj : ∀ r ∈ references.filter (firstMatchVerified (verifyFrom post 0 references)),
      ∃ props, r = .obj props := by
    intro r hr
    obtain ⟨props, hp, -⟩ := hwf r (List.mem_filter.mp hr).1
    exact ⟨props, hp⟩
  obtain ⟨h1, h2, h3⟩ := saveVerified_ok save user userID huser hsave _ hobj
  have hclick : handleChartClick save references user (verifyAllReferences post references st)
      (0 :: more) = saveVerified save user
        (references.filter (firstMatchVerified (verifyFrom post 0 references))) := by
    simp only [handleChartClick, verifyAllReferences, if_true, hfilter]
  rw [hclick]
  refine ⟨h1, h2, h3, ?_⟩
  intro hdis
  have hwf3 : ∀ x ∈ ([] : List VerificationResult) ++ verifyFrom post 0 references,
      WellFormedReference x.reference := by
    simpa using hwf2
  have hdis2 : (([] : List VerificationResult) ++ verifyFrom post 0 references).Pairwise
      (fun a b => sameReference a b.reference = .ok false) := by
    rw [← hmap, List.pairwise_map] at hdis
    simp only [List.nil_append]
    refine List.Pairwise.imp_of_mem ?_ hdis
    intro a b ha hb hab
    exact sameReference_of_not_shares a b.reference (hwf2 a ha) (hwf2 b hb) hab
  have hown := filterVerified_suffix [] (verifyFrom post 0 references) hwf3 hdis2
  simp only [List.nil_append, hmap] at hown
  rw [hfilter] at hown
  have heq := Except.ok.inj hown
  refine ⟨heq, ?_⟩
  rw [h2]
  show List.map citationData
    (references.filter (firstMatchVerified (verifyFrom post 0 references))) = _
  rw [heq, List.map_map]
  rfl

/-- Witness of C12 (amended): two references with the same title and doi, the first verified
and the call for the second failing: the first result with that title and doi is verified,
and both references are saved. -/
theorem chart_click_saves_verified_witness :
    (∀ r ∈ [paperA, paperA], WellFormedReference r) ∧
      getProp userU1 (utf16 "userID") = .ok (.str (utf16 "u1")) ∧
      [paperA, paperA].filter (firstMatchVerified
        (verifyAllReferences (fun i _ => if i = 0 then .ok verifiedResponse
          else .error .typeError) [paperA, paperA]
          StatsButtonState.initial).verificationResults) = [paperA, paperA] ∧
      (handleChartClick (fun _ _ => .ok ()) [paperA, paperA] userU1
        (verifyAllReferences (fun i _ => if i = 0 then .ok verifiedResponse
          else .error .typeError) [paperA, paperA] StatsButtonState.initial) [0]).thrown
        = none ∧
      (handleChartClick (fun _ _ => .ok ()) [paperA, paperA] userU1
        (verifyAllReferences (fun i _ => if i = 0 then .ok verifiedResponse
          else .error .typeError) [paperA, paperA] StatsButtonState.initial)
        [0]).calls.map (fun c => c.2) = [.str (utf16 "u1"), .str (utf16 "u1")] := by
  have hwf : ∀ r ∈ [paperA, paperA], WellFormedReference r := by
    intro r hr
    simp only [List.mem_cons, List.mem_singleton, List.not_mem_nil, or_false, or_self] at hr
    subst hr
    exact ⟨_, rfl, rfl, rfl⟩
  have h := chart_click_saves_verified (fun _ _ => .ok ())
    (fun i _ => if i = 0 then .ok verifiedResponse else .error .typeError)
    [paperA, paperA] userU1 (.str (utf16 "u1")) StatsButtonState.initial [] hwf rfl
    (fun _ _ => rfl)
  exact ⟨hwf, rfl, rfl, h.1, h.2.2.1⟩

/-- C13 (counterexample): after a completed run in which no reference is verified (the one
call fails), `loading` is false and the verified count is zero, and a hover and a click
each start another run. -/
theorem stats_button_relaunch_counterexample :
    (verifyAllReferences (fun _ _ => .error .typeError) [paperB]
        StatsButtonState.initial).verificationStats.loading = false ∧
      (verifyAllReferences (fun _ _ => .error .typeError) [paperB]
        StatsButtonState.initial).verificationStats.unverifiable = 1 ∧
      (onMouseEnter (verifyAllReferences (fun _ _ => .error .typeError) [paperB]
        StatsButtonState.initial)).2 = true ∧
      (onClick (verifyAllReferences (fun _ _ => .error .typeError) [paperB]
        StatsButtonState.initial)).2 = true :=
  ⟨rfl, rfl, rfl, rfl⟩

/-- C13 (amended): while a run is in progress (`loading` true), and after a completed run
whose verified count is not zero, neither a hover nor a click starts another run; in
general a hover or a click starts a run exactly when the verified count is zero and
`loading` is false. -/
theorem stats_button_gate (st : StatsButtonState)
    (post : Nat → JSValue → Except JSError JSValue) (references : List JSValue) :
    (st.verificationStats.loading = true →
        (onMouseEnter st).2 = false ∧ (onClick st).2 = false) ∧
      ((verifyAllReferences post references st).verificationStats.verified ≠ 0 →
        (onMouseEnter (verifyAllReferences post references st)).2 = false ∧
          (onClick (verifyAllReferences post references st)).2 = false) ∧
      ((onMouseEnter st).2 = true ↔
        st.verificationStats.verified = 0 ∧ st.verificationStats.loading = false) ∧
      ((onClick st).2 = true ↔
        st.verificationStats.verified = 0 ∧ st.verificationStats.loading = false) := by
  have key : ∀ s : StatsButtonState, (onMouseEnter s).2 = launchGate s ∧
      (onClick s).2 = launchGate s := by
    intro s
    unfold onMouseEnter onClick
    cases launchGate s <;> simp
  refine ⟨?_, ?_, ?_, ?_⟩
  · intro h
    rw [(key st).1, (key st).2]
    simp [launchGate, h]
  · intro h
    rw [(key _).1, (key _).2]
    simp [launchGate, h]
  · rw [(key st).1]
    simp [launchGate]
  · rw [(key st).2]
    simp [launchGate]

/-- Witness of C13 (amended): a state with `loading` true, and a completed run with one
verified reference. -/
theorem stats_button_gate_witness :
    (startVerification StatsButtonState.initial).verificationStats.loading = true ∧
      (onMouseEnter (startVerification StatsButtonState.initial)).2 = false ∧
      (verifyAllReferences (fun _ _ => .ok verifiedResponse) [paperA]
        StatsButtonState.initial).verificationStats.verified ≠ 0 ∧
      (onClick (verifyAllReferences (fun _ _ => .ok verifiedResponse) [paperA]
        StatsButtonState.initial)).2 = false :=
  ⟨rfl,
    ((stats_button_gate (startVerification StatsButtonState.initial)
      (fun _ _ => .ok verifiedResponse) [paperA]).1 rfl).1,
    by decide,
    ((stats_button_gate StatsButtonState.initial
      (fun _ _ => .ok verifiedResponse) [paperA]).2.1 (by decide)).2⟩

/-- C14 (counterexample): after a verification whose call errors the status is `failed`
and the Verify button is not rendered. -/
theorem verify_button_failed_counterexample :
    (verifyReference (.error .typeError) ReferenceItemState.pending).verificationStatus
        = .str (utf16 "failed") ∧
      verifyButtonShown (verifyReference (.error .typeError) ReferenceItemState.pending)
        = false :=
  ⟨rfl, rfl⟩

/-- C14 (amended): the verify action is available exactly when the status is `pending`; in
particular it is not available after a verification whose call errored (status
`failed`). -/
theorem verify_button_pending_only (st : ReferenceItemState) (e : JSError) :
    (verifyButtonShown st = true ↔ st.verificationStatus = .str (utf16 "pending")) ∧
      verifyButtonShown (verifyReference (.error e) st) = false := by
  constructor
  · unfold verifyButtonShown
    cases h : st.verificationStatus <;> simp [isString]
  · rfl

/-! ## Properties of the session store -/

theorem resolveTimestamps_welcome (t : Nat) :
    resolveTimestamps t welcomeDocument = storedWelcome t := by
  simp [resolveTimestamps, welcomeDocument, storedWelcome, serverTimestamp, isSymbolFor]

theorem addSessionDoc_ok (s : Store) (owner title : JString) (h : s.faults s.clock = false) :
    addSessionDoc s owner title =
      (.ok s.clock,
        { s with
          clock := s.clock + 1,
          sessions := s.sessions ++
            [{ id := s.clock, owner := owner, title := title, createdAt := s.clock,
               updatedAt := s.clock, userID := owner }] }) := by
  simp [addSessionDoc, h]

theorem addMessageDoc_ok (s : Store) (owner : JString) (chatId : Nat) (data : JSValue)
    (h : s.faults s.clock = false) :
    addMessageDoc s owner chatId data =
      (.ok s.clock,
        { s with
          clock := s.clock + 1,
          messages := s.messages ++
            [{ id := s.clock, owner := owner, chatId := chatId,
               data := resolveTimestamps s.clock data }] }) := by
  simp [addMessageDoc, h]

theorem getSessionDocs_ok (s : Store) (owner : JString) (h : s.faults s.clock = false) :
    getSessionDocs s owner =
      (.ok (s.sessions.filter (fun d => d.owner = owner)), { s with clock := s.clock + 1 }) := by
  simp [getSessionDocs, h]

theorem getMessageDocs_ok (s : Store) (owner : JString) (chatId : Nat)
    (h : s.faults s.clock = false) :
    getMessageDocs s owner chatId =
      (.ok (s.messages.filter (fun d => d.owner = owner ∧ d.chatId = chatId)),
        { s with clock := s.clock + 1 }) := by
  simp [getMessageDocs, h]

theorem deleteSessionDoc_ok (s : Store) (owner : JString) (id : Nat)
    (h : s.faults s.clock = false) :
    deleteSessionDoc s owner id =
      (.ok (),
        { s with
          clock := s.clock + 1,
          sessions := s.sessions.filter (fun d => ¬ (d.owner = owner ∧ d.id = id)) }) := by
  simp [deleteSessionDoc, h]

theorem deleteMessageDoc_ok (s : Store) (doc : MessageDoc) (h : s.faults s.clock = false) :
    deleteMessageDoc s doc =
      (.ok (),
        { s with
          clock := s.clock + 1,
          messages := s.messages.filter
            (fun d => ¬ (d.owner = doc.owner ∧ d.chatId = doc.chatId ∧ d.id = doc.id)) }) := by
  simp [deleteMessageDoc, h]

/-- What the deletions of the reset do when no request fails: no error, the sessions and
citations stay, and a message stays exactly when it is none of the deleted documents. -/
theorem deleteMessageDocs_ok (docs : List MessageDoc) (s : Store) (h : NoFaults s) :
    (deleteMessageDocs s docs).1 = none ∧
      NoFaults (deleteMessageDocs s docs).2 ∧
      (deleteMessageDocs s docs).2.sessions = s.sessions ∧
      (deleteMessageDocs s docs).2.citations = s.citations ∧
      (deleteMessageDocs s docs).2.messages = s.messages.filter (fun d =>
        ∀ doc ∈ docs, ¬ (d.owner = doc.owner ∧ d.chatId = doc.chatId ∧ d.id = doc.id)) := by
  induction docs generalizing s with
  | nil => simp [deleteMessageDocs, h]
  | cons doc docs ih =>
    have hs1 : NoFaults { s with
        clock := s.clock + 1,
        messages := s.messages.filter
          (fun d => ¬ (d.owner = doc.owner ∧ d.chatId = doc.chatId ∧ d.id = doc.id)) } :=
      fun n => h n
    obtain ⟨h1, h2, h3, h4, h5⟩ := ih _ hs1
    simp only [deleteMessageDocs, deleteMessageDoc_ok s doc (h s.clock)]
    refine ⟨h1, h2, h3, h4, ?_⟩
    rw [h5]
    simp only [List.filter_filter]
    apply List.filter_congr
    intro d _
    simp only [List.mem_cons, forall_eq_or_imp, Bool.decide_and, Bool.and_comm]


theorem createInitialChat_fresh (ui : ChatState) (store : Store) (uid : JString)
    (huser : ui.user = some uid) (hsess : ui.chatSessions = []) (hact : ui.activeChatId = none)
    (hempty : sessionsOf store uid = []) (hnf : NoFaults store) :
    createInitialChat ui store =
      { ui := { ui with activeChatId := some (store.clock + 1) },
        store :=
          { store with
            clock := store.clock + 3,
            sessions := store.sessions ++
              [{ id := store.clock + 1, owner := uid, title := utf16 "Untitled",
                 createdAt := store.clock + 1, updatedAt := store.clock + 1, userID := uid }],
            messages := store.messages ++
              [{ id := store.clock + 2, owner := uid, chatId := store.clock + 1,
                 data := storedWelcome (store.clock + 2) }] },
        result := .ok () } := by
  unfold sessionsOf at hempty
  unfold NoFaults at hnf
  simp [createInitialChat, getSessionDocs, addSessionDoc, addMessageDoc, huser, hsess, hact,
    hempty, hnf, resolveTimestamps_welcome]

theorem createInitialChat_existing (ui : ChatState) (store : Store)
    (h : ∀ uid, ui.user = some uid → sessionsOf store uid ≠ []) :
    (createInitialChat ui store).store.sessions = store.sessions ∧
      (createInitialChat ui store).store.messages = store.messages ∧
      (createInitialChat ui store).store.citations = store.citations := by
  unfold createInitialChat
  cases hu : ui.user with
  | none => simp
  | some uid =>
    have hne := h uid hu
    unfold sessionsOf at hne
    simp only []
    split_ifs with hg
    · unfold getSessionDocs
      split_ifs with hf
      · simp
      · have hne2 : (store.sessions.filter (fun d => d.owner = uid)).isEmpty = false := by
          cases hl : store.sessions.filter (fun d => d.owner = uid) with
          | nil => exact absurd hl hne
          | cons a l => rfl
        simp [hne2]
    · simp

/-- C15: from a store without sessions of the user (no request failing, in the initial
state of the page for that user), running `createInitialChat` and then running it again,
in whatever state of the page of the same user, leaves the user with exactly one session,
titled `Untitled`, whose messages are exactly one welcome message; and whenever the user
of the page already has a session, `createInitialChat` leaves the documents of the store
as they are. -/
theorem createInitialChat_twice (ui ui2 : ChatState) (store : Store) (uid : JString)
    (huser : ui.user = some uid) (hsess : ui.chatSessions = []) (hact : ui.activeChatId = none)
    (hempty : sessionsOf store uid = []) (hnf : NoFaults store) (hfresh : FreshIds store)
    (huser2 : ui2.user = some uid) :
    (∃ d m t, sessionsOf (createInitialChat ui2 (createInitialChat ui store).store).store uid
          = [d] ∧
        d.title = utf16 "Untitled" ∧
        messagesOf (createInitialChat ui2 (createInitialChat ui store).store).store uid d.id
          = [m] ∧
        m.data = storedWelcome t) ∧
      (∀ (ui3 : ChatState) (store3 : Store),
        (∀ u, ui3.user = some u → sessionsOf store3 u ≠ []) →
        (createInitialChat ui3 store3).store.sessions = store3.sessions ∧
          (createInitialChat ui3 store3).store.messages = store3.messages ∧
          (createInitialChat ui3 store3).store.citations = store3.citations) := by
  refine ⟨?_, fun ui3 store3 h => createInitialChat_existing ui3 store3 h⟩
  have h1 := createInitialChat_fresh ui store uid huser hsess hact hempty hnf
  have hs1 : sessionsOf (createInitialChat ui store).store uid =
      [{ id := store.clock + 1, owner := uid, title := utf16 "Untitled",
         createdAt := store.clock + 1, updatedAt := store.clock + 1, userID := uid }] := by
    rw [h1]
    unfold sessionsOf at hempty ⊢
    simp [List.filter_append, hempty]
  have hm1 : messagesOf (createInitialChat ui store).store uid (store.clock + 1) =
      [{ id := store.clock + 2, owner := uid, chatId := store.clock + 1,
         data := storedWelcome (store.clock + 2) }] := by
    rw [h1]
    unfold messagesOf
    have hold : store.messages.filter (fun d => d.owner = uid ∧ d.chatId = store.clock + 1)
        = [] := by
      apply List.filter_eq_nil_iff.mpr
      intro m hm
      have := (hfresh.2.1 m hm).2
      simp only [decide_eq_true_eq, not_and]
      intro _
      omega
    show List.filter _ (store.messages ++ [_]) = _
    rw [List.filter_append, hold]
    simp
  obtain ⟨e1, e2, -⟩ := createInitialChat_existing ui2 (createInitialChat ui store).store
    (by
      intro u hu
      rw [huser2] at hu
      cases hu
      rw [hs1]
      simp)
  refine ⟨⟨store.clock + 1, uid, utf16 "Untitled", store.clock + 1, store.clock + 1, uid⟩,
    ⟨store.clock + 2, uid, store.clock + 1, storedWelcome (store.clock + 2)⟩,
    store.clock + 2, ?_, ?_, ?_, rfl⟩
  · unfold sessionsOf at hs1 ⊢
    rw [e1]
    exact hs1
  · rfl
  · unfold messagesOf at hm1 ⊢
    rw [e2]
    exact hm1

/-- Witness of C15: the empty store and the initial state of the page for the user `u1`. -/
theorem createInitialChat_twice_witness :
    (ChatState.initial (some (utf16 "u1"))).user = some (utf16 "u1") ∧
      sessionsOf Store.empty (utf16 "u1") = [] ∧
      ∃ d m t, sessionsOf (createInitialChat (ChatState.initial (some (utf16 "u1")))
            (createInitialChat (ChatState.initial (some (utf16 "u1"))) Store.empty).store).store
            (utf16 "u1") = [d] ∧
        d.title = utf16 "Untitled" ∧
        messagesOf (createInitialChat (ChatState.initial (some (utf16 "u1")))
            (createInitialChat (ChatState.initial (some (utf16 "u1"))) Store.empty).store).store
            (utf16 "u1") d.id = [m] ∧
        m.data = storedWelcome t :=
  ⟨rfl, rfl,
    (createInitialChat_twice (ChatState.initial (some (utf16 "u1")))
      (ChatState.initial (some (utf16 "u1"))) Store.empty (utf16 "u1") rfl rfl rfl rfl
      (fun _ => rfl)
      (by simp [FreshIds, Store.empty]) rfl).1⟩

theorem goodStore_mono {s t : Store} (h : GoodStore s) (hf : t.faults = s.faults)
    (hs : ∀ d ∈ t.sessions, ∃ d0 ∈ s.sessions, d0.owner = d.owner ∧ d0.id = d.id)
    (hm : ∀ m ∈ s.messages, m ∈ t.messages) : GoodStore t := by
  refine ⟨fun n => by rw [hf]; exact h.1 n, ?_⟩
  intro d hd
  obtain ⟨d0, hd0, ho, hi⟩ := hs d hd
  obtain ⟨m, hm0, h1, h2⟩ := h.2 d0 hd0
  exact ⟨m, hm m hm0, by rw [h1, ho], by rw [h2, hi]⟩

theorem goodStore_addMessageDoc {s : Store} (h : GoodStore s) (owner : JString) (chatId : Nat)
    (data : JSValue) : GoodStore (addMessageDoc s owner chatId data).2 := by
  apply goodStore_mono h
  · unfold addMessageDoc; split_ifs <;> rfl
  · intro d hd
    refine ⟨d, ?_, rfl, rfl⟩
    unfold addMessageDoc at hd; split_ifs at hd <;> exact hd
  · intro m hm
    unfold addMessageDoc; split_ifs
    · exact hm
    · exact List.mem_append_left _ hm

theorem goodStore_touchSessionDoc {s : Store} (h : GoodStore s) (owner : JString) (id : Nat) :
    GoodStore (touchSessionDoc s owner id).2 := by
  apply goodStore_mono h
  · unfold touchSessionDoc; split_ifs <;> rfl
  · intro d hd
    unfold touchSessionDoc at hd
    split_ifs at hd
    · exact ⟨d, hd, rfl, rfl⟩
    · simp only [List.mem_map] at hd
      obtain ⟨d0, hd0, rfl⟩ := hd
      refine ⟨d0, hd0, ?_, ?_⟩ <;> split_ifs <;> rfl
    · exact ⟨d, hd, rfl, rfl⟩
  · intro m hm
    unfold touchSessionDoc; split_ifs <;> exact hm

theorem createNewChatSession_store (cap cur : ChatState) (store : Store) (title : JString)
    (isAuto : Bool) (hnf : NoFaults store) :
    ((createNewChatSession cap cur store title isAuto).store = store ∧
        (createNewChatSession cap cur store title isAuto).result = .ok none) ∨
      ∃ uid, cap.user = some uid ∧
        (createNewChatSession cap cur store title isAuto).result = .ok (some store.clock) ∧
        (createNewChatSession cap cur store title isAuto).store =
          { store with
            clock := store.clock + 2,
            sessions := store.sessions ++
              [{ id := store.clock, owner := uid, title := title, createdAt := store.clock,
                 updatedAt := store.clock, userID := uid }],
            messages := store.messages ++
              [{ id := store.clock + 1, owner := uid, chatId := store.clock,
                 data := storedWelcome (store.clock + 1) }] } := by
  unfold NoFaults at hnf
  cases hu : cap.user with
  | none => left; simp [createNewChatSession, hu]
  | some uid =>
    right
    refine ⟨uid, rfl, ?_, ?_⟩ <;>
      simp [createNewChatSession, hu, addSessionDoc, addMessageDoc, hnf,
        resolveTimestamps_welcome]

theorem goodStore_createNewChatSession {store : Store} (h : GoodStore store)
    (cap cur : ChatState) (title : JString) (isAuto : Bool) :
    GoodStore (createNewChatSession cap cur store title isAuto).store := by
  rcases createNewChatSession_store cap cur store title isAuto h.1 with ⟨e, -⟩ | ⟨uid, -, -, e⟩
  · rw [e]; exact h
  · rw [e]
    refine ⟨fun n => h.1 n, ?_⟩
    intro d hd
    simp only [List.mem_append, List.mem_singleton] at hd
    rcases hd with hd | rfl
    · obtain ⟨m, hm, h1, h2⟩ := h.2 d hd
      exact ⟨m, List.mem_append_left _ hm, h1, h2⟩
    · exact ⟨_, List.mem_append_right _ (List.mem_singleton.mpr rfl), rfl, rfl⟩

theorem goodStore_createInitialChat {store : Store} (h : GoodStore store) (ui : ChatState) :
    GoodStore (createInitialChat ui store).store := by
  have hnf := h.1
  unfold NoFaults at hnf
  unfold createInitialChat
  cases hu : ui.user with
  | none => exact h
  | some uid =>
    simp only []
    split_ifs with hg
    · simp only [getSessionDocs, hnf, Bool.false_eq_true, if_false]
      split_ifs with he
      · simp only [addSessionDoc, addMessageDoc, hnf, Bool.false_eq_true, if_false]
        refine ⟨fun n => h.1 n, ?_⟩
        intro d hd
        simp only [List.mem_append, List.mem_singleton] at hd
        rcases hd with hd | rfl
        · obtain ⟨m, hm, h1, h2⟩ := h.2 d hd
          exact ⟨m, List.mem_append_left _ hm, h1, h2⟩
        · exact ⟨_, List.mem_append_right _ (List.mem_singleton.mpr rfl), rfl, rfl⟩
      · exact ⟨fun n => h.1 n, h.2⟩
    · exact h

theorem goodStore_ensureActiveChat {store : Store} (h : GoodStore store)
    (cap cur : ChatState) : GoodStore (ensureActiveChat cap cur store).store := by
  unfold ensureActiveChat
  cases cap.activeChatId with
  | none => exact goodStore_createNewChatSession h _ _ _ _
  | some c => exact h

theorem goodStore_saveMessageToFirestore {store : Store} (h : GoodStore store) (P : Platform)
    (cap cur : ChatState) (message : JSValue) :
    GoodStore (saveMessageToFirestore P cap cur store message).store := by
  unfold saveMessageToFirestore
  have hens := goodStore_ensureActiveChat h cap cur
  generalize ensureActiveChat cap cur store = ensured at hens ⊢
  cases hu : cap.user with
  | none => exact h
  | some uid =>
    simp only []
    split
    · split
      · exact hens
      · split
        · exact hens
        · rename_i chatId _ _ _ _ _ serialized _
          have h1 := goodStore_addMessageDoc hens uid chatId serialized
          split
          · rename_i heq
            rw [heq] at h1
            exact h1
          · rename_i heq
            rw [heq] at h1
            exact goodStore_touchSessionDoc h1 uid chatId
    · exact hens

/-- The reset branch for a logged-in user with an active chat when no request fails: it
ends without error, the sessions and citations stay, and the messages are the messages of
the other sessions followed by one stored welcome message of the active chat. -/
theorem searchPaperReset_active (ui : ChatState) (store : Store) (uid : JString) (c : Nat)
    (huser : ui.user = some uid) (hact : ui.activeChatId = some c) (hnf : NoFaults store) :
    (searchPaperReset ui store).result = .ok () ∧
      (searchPaperReset ui store).ui = resetDisplay ui ∧
      NoFaults (searchPaperReset ui store).store ∧
      (searchPaperReset ui store).store.sessions = store.sessions ∧
      (searchPaperReset ui store).store.citations = store.citations ∧
      ∃ t, (searchPaperReset ui store).store.messages =
        store.messages.filter (fun d => ¬ (d.owner = uid ∧ d.chatId = c)) ++
          [{ id := t, owner := uid, chatId := c, data := storedWelcome t }] := by
  have hs1 : NoFaults { store with clock := store.clock + 1 } := fun n => hnf n
  obtain ⟨h1, h2, h3, h4, h5⟩ := deleteMessageDocs_ok
    (store.messages.filter (fun d => d.owner = uid ∧ d.chatId = c)) _ hs1
  have hp : deleteMessageDocs { store with clock := store.clock + 1 }
      (store.messages.filter (fun d => d.owner = uid ∧ d.chatId = c)) =
      (none, (deleteMessageDocs { store with clock := store.clock + 1 }
        (store.messages.filter (fun d => d.owner = uid ∧ d.chatId = c))).2) :=
    Prod.ext h1 rfl
  have hfilter : store.messages.filter (fun d : MessageDoc => decide
      (∀ doc ∈ store.messages.filter (fun d : MessageDoc => d.owner = uid ∧ d.chatId = c),
        ¬ (d.owner = doc.owner ∧ d.chatId = doc.chatId ∧ d.id = doc.id))) =
      store.messages.filter (fun d : MessageDoc => ¬ (d.owner = uid ∧ d.chatId = c)) := by
    apply List.filter_congr
    intro d hd
    apply decide_eq_decide.mpr
    constructor
    · intro hall hk
      have hmem : d ∈ store.messages.filter
          (fun d : MessageDoc => d.owner = uid ∧ d.chatId = c) := by
        simp [List.mem_filter, hd, hk]
      exact hall d hmem ⟨rfl, rfl, rfl⟩
    · intro hk doc hdoc hsame
      have hdk := (List.mem_filter.mp hdoc).2
      simp only [decide_eq_true_eq] at hdk
      exact hk ⟨hsame.1.trans hdk.1, hsame.2.1.trans hdk.2⟩
  have hf2 := h2 (deleteMessageDocs { store with clock := store.clock + 1 }
        (store.messages.filter (fun d => d.owner = uid ∧ d.chatId = c))).2.clock
  have hres : searchPaperReset ui store =
      { ui := resetDisplay ui,
        store := (addMessageDoc (deleteMessageDocs { store with clock := store.clock + 1 }
          (store.messages.filter (fun d => d.owner = uid ∧ d.chatId = c))).2 uid c
            welcomeDocument).2,
        result := .ok () } := by
    unfold searchPaperReset
    simp only [huser, hact]
    rw [getMessageDocs_ok store uid c (hnf _)]
    simp only []
    rw [hp]
    simp only []
    rw [addMessageDoc_ok _ uid c _ hf2]
  rw [hres, addMessageDoc_ok _ uid c _ hf2]
  dsimp only
  refine ⟨rfl, rfl, fun n => h2 n, h3, h4, ?_⟩
  rw [h5, resolveTimestamps_welcome, hfilter]
  exact ⟨_, rfl⟩

theorem goodStore_searchPaperReset {store : Store} (h : GoodStore store) (ui : ChatState) :
    GoodStore (searchPaperReset ui store).store := by
  cases hu : ui.user with
  | none =>
    unfold searchPaperReset
    simp only [hu]
    exact h
  | some uid =>
    cases ha : ui.activeChatId with
    | none =>
      have hc := goodStore_createNewChatSession h ui (resetDisplay ui) (utf16 "Untitled") true
      unfold searchPaperReset
      simp only [hu, ha]
      split <;> exact hc
    | some c =>
      obtain ⟨-, -, h3, h4, -, t, h6⟩ := searchPaperReset_active ui store uid c hu ha h.1
      refine ⟨h3, ?_⟩
      intro d hd
      rw [h4] at hd
      rw [h6]
      by_cases hk : d.owner = uid ∧ d.id = c
      · exact ⟨_, List.mem_append_right _ (List.mem_singleton.mpr rfl), hk.1.symm, hk.2.symm⟩
      · obtain ⟨m, hm, h1, h2⟩ := h.2 d hd
        refine ⟨m, List.mem_append_left _ ?_, h1, h2⟩
        simp only [List.mem_filter, hm, true_and, decide_eq_true_eq, decide_not,
          Bool.not_eq_true', decide_eq_false_iff_not]
        rw [h1, h2]
        exact hk

theorem goodStore_runOps (P : Platform) (ops : List StoreOp) (store : Store)
    (h : GoodStore store) : GoodStore (runOps P store ops) := by
  induction ops generalizing store with
  | nil => exact h
  | cons op ops ih =>
    apply ih
    cases op with
    | initialChat ui => exact goodStore_createInitialChat h ui
    | newChatSession ui title isAuto => exact goodStore_createNewChatSession h ui ui title isAuto
    | saveMessage ui message => exact goodStore_saveMessageToFirestore h P ui ui message
    | reset ui => exact goodStore_searchPaperReset h ui

/-- C16: starting from a store in which every session has a message, after any sequence
of session creations (`createInitialChat`, `createNewChatSession`), message appends
(`saveMessageToFirestore`) and resets (the reset branch of `searchPaper`), each run in an
arbitrary state of the page, with no request to the store failing, every session of the
store has at least one message. -/
theorem every_session_has_message (P : Platform) (ops : List StoreOp) (store : Store)
    (hnf : NoFaults store) (hinv : EverySessionHasMessage store) :
    EverySessionHasMessage (runOps P store ops) :=
  (goodStore_runOps P ops store ⟨hnf, hinv⟩).2

/-- Witness of C16: from the empty store, a first chat, a chat created by hand, a saved
user turn and a reset. -/
theorem every_session_has_message_witness :
    NoFaults Store.empty ∧ EverySessionHasMessage Store.empty ∧
      EverySessionHasMessage (runOps (modelPlatform noRenderer) Store.empty
        [.initialChat (ChatState.initial (some (utf16 "u1"))),
          .newChatSession (ChatState.initial (some (utf16 "u1"))) (utf16 "Notes") false,
          .saveMessage (ChatState.initial (some (utf16 "u1")))
            (userMessage (.str (utf16 "10.1/x"))),
          .reset { ChatState.initial (some (utf16 "u1")) with activeChatId := some 1 }]) :=
  ⟨fun _ => rfl, (by intro d hd; cases hd),
    every_session_has_message (modelPlatform noRenderer) _ Store.empty (fun _ => rfl)
      (by intro d hd; cases hd)⟩

/-- C17: for a logged-in user with an active session, whatever messages it holds, the reset
branch of `searchPaper` (no request failing) ends without error, leaves the session with
exactly one message, the stored welcome message, and the displayed messages are the single
welcome message. -/
theorem reset_leaves_welcome (ui : ChatState) (store : Store) (uid : JString) (c : Nat)
    (huser : ui.user = some uid) (hact : ui.activeChatId = some c) (hnf : NoFaults store) :
    (searchPaperReset ui store).result = .ok () ∧
      (∃ t, messagesOf (searchPaperReset ui store).store uid c
        = [{ id := t, owner := uid, chatId := c, data := storedWelcome t }]) ∧
      (searchPaperReset ui store).ui.messages = [welcomeMessage] := by
  obtain ⟨h1, h2, -, -, -, t, h6⟩ := searchPaperReset_active ui store uid c huser hact hnf
  refine ⟨h1, ⟨t, ?_⟩, by rw [h2]; rfl⟩
  unfold messagesOf
  rw [h6, List.filter_append, List.filter_filter]
  have : store.messages.filter (fun a =>
      (decide (a.owner = uid ∧ a.chatId = c) &&
        decide (¬ (a.owner = uid ∧ a.chatId = c)))) = [] := by
    apply List.filter_eq_nil_iff.mpr
    intro a _
    by_cases hk : a.owner = uid ∧ a.chatId = c <;> simp [hk]
  rw [this]
  simp

/-- Witness of C17: the reset of the session 1 of the sample store, which holds two
messages. -/
theorem reset_leaves_welcome_witness :
    (samplePage (utf16 "clear")).user = some (utf16 "u1") ∧
      (samplePage (utf16 "clear")).activeChatId = some 1 ∧
      (messagesOf sampleStore (utf16 "u1") 1).length = 2 ∧
      (searchPaperReset (samplePage (utf16 "clear")) sampleStore).result = .ok () ∧
      (∃ t, messagesOf (searchPaperReset (samplePage (utf16 "clear")) sampleStore).store
          (utf16 "u1") 1
        = [{ id := t, owner := utf16 "u1", chatId := 1, data := storedWelcome t }]) ∧
      (searchPaperReset (samplePage (utf16 "clear")) sampleStore).ui.messages
        = [welcomeMessage] :=
  ⟨rfl, rfl, by decide,
    reset_leaves_welcome (samplePage (utf16 "clear")) sampleStore (utf16 "u1") 1 rfl rfl
      (fun _ => rfl)⟩

/-! ## The guard of `searchPaper` -/

theorem trim_isEmpty (s : JString) :
    (trim s).isEmpty = true ↔ ∀ c ∈ s, isWhiteSpace c = true := by
  unfold trim
  rw [List.isEmpty_iff, List.reverse_eq_nil_iff, List.dropWhile_eq_nil_iff]
  constructor
  · intro h
    by_cases hd : s.dropWhile isWhiteSpace = []
    · exact List.dropWhile_eq_nil_iff.mp hd
    · exfalso
      have h1 := List.head_dropWhile_not isWhiteSpace s hd
      have h2 := h _ (List.mem_reverse.mpr (List.head_mem hd))
      rw [h2] at h1
      exact absurd h1 (by decide)
  · intro h
    rw [List.dropWhile_eq_nil_iff.mpr h]
    intro x hx
    cases hx

theorem isResetInput_iff (input : JString) :
    isResetInput input = true ↔
      ((∀ c ∈ input, isWhiteSpace c = true) ∨ toLowerCase input = utf16 "clear" ∨
        toLowerCase input = utf16 "reset") := by
  unfold isResetInput
  rw [Bool.or_eq_true, Bool.or_eq_true, trim_isEmpty, beq_iff_eq, beq_iff_eq, or_assoc]

theorem createNewChatSession_messages (cap cur : ChatState) (store : Store) (title : JString)
    (isAuto : Bool) :
    (createNewChatSession cap cur store title isAuto).ui.messages = cur.messages := by
  unfold createNewChatSession
  split
  · rfl
  · split
    · rfl
    · split
      · rfl
      · unfold newChatDisplay
        split_ifs <;> rfl

theorem createNewChatSession_none (cap cur : ChatState) (store : Store) (title : JString)
    (isAuto : Bool) :
    (∃ id, (createNewChatSession cap cur store title isAuto).result = .ok (some id)) ∨
      ((createNewChatSession cap cur store title isAuto).result = .ok none ∧
        (createNewChatSession cap cur store title isAuto).ui = cur) := by
  unfold createNewChatSession
  split
  · exact Or.inr ⟨rfl, rfl⟩
  · split
    · exact Or.inr ⟨rfl, rfl⟩
    · split
      · exact Or.inr ⟨rfl, rfl⟩
      · exact Or.inl ⟨_, rfl⟩

theorem saveMessageToFirestore_messages (P : Platform) (cap cur : ChatState) (store : Store)
    (message : JSValue) :
    (saveMessageToFirestore P cap cur store message).ui.messages = cur.messages := by
  have hens : (ensureActiveChat cap cur store).ui.messages = cur.messages := by
    unfold ensureActiveChat
    split
    · rfl
    · exact createNewChatSession_messages _ _ _ _ _
  unfold saveMessageToFirestore
  split
  · rfl
  · split
    · split
      · exact hens
      · split
        · exact hens
        · split <;> exact hens
    · exact hens

theorem serializeMessage_userTurn (P : Platform) (input : JString) :
    serializeMessage P
        (.obj (setProp (spreadProps (userMessage (.str input))) (utf16 "timestamp")
          serverTimestamp)) =
      .ok (.obj [(utf16 "type", .str (utf16 "user")), (utf16 "text", .str input),
        (utf16 "timestamp", serverTimestamp)]) := by
  rfl

theorem saveMessageToFirestore_userTurn (P : Platform) (cap cur : ChatState) (store : Store)
    (uid : JString) (c : Nat) (input : JString) (huser : cap.user = some uid)
    (hact : cap.activeChatId = some c) (hnf : NoFaults store) :
    (saveMessageToFirestore P cap cur store (userMessage (.str input))).ui = cur ∧
      (saveMessageToFirestore P cap cur store (userMessage (.str input))).store.messages =
        store.messages ++
          [{ id := store.clock, owner := uid, chatId := c,
             data := storedUserTurn input store.clock }] := by
  have hens : ensureActiveChat cap cur store =
      { ui := cur, store := store, result := .ok (some c) } := by
    simp [ensureActiveChat, hact]
  have hadd := addMessageDoc_ok store uid c
    (.obj [(utf16 "type", .str (utf16 "user")), (utf16 "text", .str input),
        (utf16 "timestamp", serverTimestamp)]) (hnf _)
  have htype : getProp (userMessage (.str input)) (utf16 "type") = .ok (.str (utf16 "user")) :=
    rfl
  have hres : resolveTimestamps store.clock
      (.obj [(utf16 "type", .str (utf16 "user")), (utf16 "text", .str input),
        (utf16 "timestamp", serverTimestamp)]) = storedUserTurn input store.clock := by
    simp [resolveTimestamps, storedUserTurn, serverTimestamp, isSymbolFor]
  unfold saveMessageToFirestore
  simp only [huser, hens, htype, serializeMessage_userTurn, hadd, hres]
  refine ⟨trivial, ?_⟩
  unfold touchSessionDoc
  split_ifs <;> rfl


/-- C18, counterexample: the input of two spaces is neither `clear` nor `reset` in any
case, and `searchPaper` performs the reset: the session 1 of the sample store, which held
two messages, holds the welcome message alone, the displayed messages are the welcome
message, and no user turn was appended. -/
theorem searchPaper_blank_input_counterexample :
    toLowerCase (utf16 "  ") ≠ utf16 "clear" ∧ toLowerCase (utf16 "  ") ≠ utf16 "reset" ∧
      searchPaper (modelPlatform noRenderer) noAnalysis (samplePage (utf16 "  ")) sampleStore
        = searchPaperReset (samplePage (utf16 "  ")) sampleStore ∧
      messagesOf (searchPaper (modelPlatform noRenderer) noAnalysis (samplePage (utf16 "  "))
          sampleStore).store (utf16 "u1") 1
        = [{ id := 10, owner := utf16 "u1", chatId := 1, data := storedWelcome 10 }] ∧
      (searchPaper (modelPlatform noRenderer) noAnalysis (samplePage (utf16 "  "))
          sampleStore).ui.messages = [welcomeMessage] := by
  refine ⟨by decide, by decide, rfl, rfl, rfl⟩

/-- C18, amended: `searchPaper` performs the reset if and only if the input is blank (every
code unit is white space, the empty input included) or is `clear` or `reset` when put in
lower case.  For every other input it appends the user turn whose text is the input to the
displayed messages and hands the analysis the messages with that turn, unless the user is
logged in without an active chat and the session could not be created, in which case it
returns with the page unchanged; and for a logged-in user with an active chat (no request
failing) the turn is appended to the messages of the store under that chat. -/
theorem searchPaper_reset_guard (P : Platform)
    (analysis : ChatState → ChatState → Store → List JSValue → Effect Unit)
    (ui : ChatState) (store : Store) :
    (isResetInput ui.input = true ↔
        ((∀ c ∈ ui.input, isWhiteSpace c = true) ∨ toLowerCase ui.input = utf16 "clear" ∨
          toLowerCase ui.input = utf16 "reset")) ∧
      (isResetInput ui.input = true →
        searchPaper P analysis ui store = searchPaperReset ui store) ∧
      (isResetInput ui.input = false →
        (∃ cur store2,
          searchPaper P analysis ui store =
            analysis ui cur store2 (ui.messages ++ [userMessage (.str ui.input)]) ∧
          cur.messages = ui.messages ++ [userMessage (.str ui.input)]) ∨
        (∃ uid, ui.user = some uid ∧ ui.activeChatId = none ∧
          (createNewChatSession ui ui store (utf16 "Untitled") true).result = .ok none ∧
          (searchPaper P analysis ui store).ui = ui ∧
          (searchPaper P analysis ui store).result = .ok ())) ∧
      (∀ uid c, ui.user = some uid → ui.activeChatId = some c → NoFaults store →
        isResetInput ui.input = false →
        ∃ store2,
          searchPaper P analysis ui store =
            analysis ui
              { ui with
                messages := ui.messages ++ [userMessage (.str ui.input)],
                isLoading := true, input := [] }
              store2 (ui.messages ++ [userMessage (.str ui.input)]) ∧
          store2.messages = store.messages ++
            [{ id := store.clock, owner := uid, chatId := c,
               data := storedUserTurn ui.input store.clock }]) := by
  refine ⟨isResetInput_iff ui.input, ?_, ?_, ?_⟩
  · intro h
    simp [searchPaper, h]
  · intro h
    unfold searchPaper
    simp only [h, Bool.false_eq_true, if_false]
    split_ifs with hc
    · rcases createNewChatSession_none ui ui store (utf16 "Untitled") true with ⟨id, hid⟩ | hn
      · left
        rw [hid]
        refine ⟨_, _, rfl, ?_⟩
        show (saveMessageToFirestore _ _ _ _ _).ui.messages = _
        rw [saveMessageToFirestore_messages]
      · right
        obtain ⟨uid, hu⟩ := Option.isSome_iff_exists.mp hc.1
        refine ⟨uid, hu, Option.isNone_iff_eq_none.mp hc.2, hn.1, ?_, ?_⟩
        · rw [hn.1]
          exact hn.2
        · rw [hn.1]
    · left
      refine ⟨_, _, rfl, ?_⟩
      show (saveMessageToFirestore _ _ _ _ _).ui.messages = _
      rw [saveMessageToFirestore_messages]
  · intro uid c huser hact hnf h
    obtain ⟨h1, h2⟩ := saveMessageToFirestore_userTurn P ui
      { ui with messages := ui.messages ++ [userMessage (.str ui.input)] } store uid c ui.input
      huser hact hnf
    refine ⟨_, ?_, h2⟩
    have hc : ¬ (ui.user.isSome ∧ ui.activeChatId.isNone) := by simp [hact]
    have hr : ¬ (isResetInput ui.input = true) := by simp [h]
    unfold searchPaper
    rw [if_neg hr, if_neg hc]
    unfold searchPaperSubmit
    rw [h1]

/-- Witness of C18: in the sample page the empty input resets, and the input `10.2/y` is
handed to the analysis as a user turn and stored under the active chat. -/
theorem searchPaper_reset_guard_witness :
    isResetInput (samplePage []).input = true ∧
      searchPaper (modelPlatform noRenderer) noAnalysis (samplePage []) sampleStore
        = searchPaperReset (samplePage []) sampleStore ∧
      isResetInput (samplePage (utf16 "10.2/y")).input = false ∧
      ∃ store2,
        searchPaper (modelPlatform noRenderer) noAnalysis (samplePage (utf16 "10.2/y"))
            sampleStore =
          noAnalysis (samplePage (utf16 "10.2/y"))
            { samplePage (utf16 "10.2/y") with
              messages := (samplePage (utf16 "10.2/y")).messages ++
                [userMessage (.str (samplePage (utf16 "10.2/y")).input)],
              isLoading := true, input := [] }
            store2
            ((samplePage (utf16 "10.2/y")).messages ++
              [userMessage (.str (samplePage (utf16 "10.2/y")).input)]) ∧
        store2.messages = sampleStore.messages ++
          [{ id := sampleStore.clock, owner := utf16 "u1", chatId := 1,
             data := storedUserTurn (samplePage (utf16 "10.2/y")).input sampleStore.clock }] :=
  ⟨rfl,
    (searchPaper_reset_guard (modelPlatform noRenderer) noAnalysis (samplePage [])
      sampleStore).2.1 rfl,
    rfl,
    (searchPaper_reset_guard (modelPlatform noRenderer) noAnalysis
      (samplePage (utf16 "10.2/y")) sampleStore).2.2.2 (utf16 "u1") 1 rfl rfl (fun _ => rfl)
      rfl⟩

/-! ## Deleting a chat session -/

theorem deleteChatSession_store_eq (ui : ChatState) (store : Store) (uid : JString)
    (chatId : Nat) (huser : ui.user = some uid) (hnf : NoFaults store) :
    (deleteChatSession ui store chatId true).store =
      { store with
        clock := store.clock + 1,
        sessions := store.sessions.filter (fun d => ¬ (d.owner = uid ∧ d.id = chatId)) } := by
  unfold deleteChatSession
  simp only [huser, if_true, deleteSessionDoc_ok store uid chatId (hnf _)]
  split_ifs
  · split <;> rfl
  · rfl

/-- C19, counterexample: in the sample store the session 1 of `u1` is deleted after
confirmation, without error; the session document is gone, and its two messages and its
citation are still in the store. -/
theorem deleteChatSession_no_cascade_counterexample :
    (deleteChatSession (samplePage []) sampleStore 1 true).result = .ok () ∧
      (sessionsOf (deleteChatSession (samplePage []) sampleStore 1 true).store
        (utf16 "u1")).map (fun d => d.id) = [5] ∧
      messagesOf (deleteChatSession (samplePage []) sampleStore 1 true).store (utf16 "u1") 1
        = messagesOf sampleStore (utf16 "u1") 1 ∧
      (messagesOf (deleteChatSession (samplePage []) sampleStore 1 true).store
        (utf16 "u1") 1).length = 2 ∧
      (citationsOf (deleteChatSession (samplePage []) sampleStore 1 true).store
        (utf16 "u1") 1).length = 1 := by
  refine ⟨rfl, rfl, rfl, rfl, rfl⟩

/-- C19, amended: after a confirmed `deleteChatSession(chatId)` of a logged-in user (no
request failing) the store holds no session document of the user with that id, the other
session documents are as before, and every message and citation document is still in the
store, those of the deleted session included. -/
theorem deleteChatSession_store (ui : ChatState) (store : Store) (uid : JString)
    (chatId : Nat) (huser : ui.user = some uid) (hnf : NoFaults store) :
    (deleteChatSession ui store chatId true).result = .ok () ∧
      (∀ d ∈ (deleteChatSession ui store chatId true).store.sessions,
        ¬ (d.owner = uid ∧ d.id = chatId)) ∧
      (deleteChatSession ui store chatId true).store.sessions =
        store.sessions.filter (fun d => ¬ (d.owner = uid ∧ d.id = chatId)) ∧
      (deleteChatSession ui store chatId true).store.messages = store.messages ∧
      (deleteChatSession ui store chatId true).store.citations = store.citations := by
  have hs := deleteChatSession_store_eq ui store uid chatId huser hnf
  refine ⟨?_, ?_, by rw [hs], by rw [hs], by rw [hs]⟩
  · unfold deleteChatSession
    simp only [huser, if_true, deleteSessionDoc_ok store uid chatId (hnf _)]
    split_ifs
    · split <;> rfl
    · rfl
  · intro d hd
    rw [hs] at hd
    exact of_decide_eq_true (List.mem_filter.mp hd).2

/-- Witness of C19: the deletion of the session 1 of the sample store. -/
theorem deleteChatSession_store_witness :
    (samplePage []).user = some (utf16 "u1") ∧ NoFaults sampleStore ∧
      (deleteChatSession (samplePage []) sampleStore 1 true).result = .ok () ∧
      (∀ d ∈ (deleteChatSession (samplePage []) sampleStore 1 true).store.sessions,
        ¬ (d.owner = utf16 "u1" ∧ d.id = 1)) ∧
      (deleteChatSession (samplePage []) sampleStore 1 true).store.sessions =
        sampleStore.sessions.filter (fun d => ¬ (d.owner = utf16 "u1" ∧ d.id = 1)) ∧
      (deleteChatSession (samplePage []) sampleStore 1 true).store.messages
        = sampleStore.messages ∧
      (deleteChatSession (samplePage []) sampleStore 1 true).store.citations
        = sampleStore.citations :=
  ⟨rfl, fun _ => rfl,
    deleteChatSession_store (samplePage []) sampleStore (utf16 "u1") 1 rfl (fun _ => rfl)⟩

/-- C20: after a confirmed deletion by a logged-in user (no request failing), when the
deleted session was the active one the new active session is the first session of the
list of the page whose id differs from the deleted one, the displayed messages being kept,
and none, with the displayed messages reset to the single welcome message, when the list
has no session with another id; when the deleted session was not the active one the state
of the page, the active selection included, is unchanged. -/
theorem deleteChatSession_active (ui : ChatState) (store : Store) (uid : JString)
    (chatId : Nat) (huser : ui.user = some uid) (hnf : NoFaults store) :
    (ui.activeChatId = some chatId →
        (∀ pre next post, ui.chatSessions = pre ++ next :: post →
          (∀ s ∈ pre, s.id = chatId) → next.id ≠ chatId →
          (deleteChatSession ui store chatId true).ui.activeChatId = some next.id ∧
            (deleteChatSession ui store chatId true).ui.messages = ui.messages) ∧
        ((∀ s ∈ ui.chatSessions, s.id = chatId) →
          (deleteChatSession ui store chatId true).ui.activeChatId = none ∧
            (deleteChatSession ui store chatId true).ui.messages = [welcomeMessage])) ∧
      (ui.activeChatId ≠ some chatId → (deleteChatSession ui store chatId true).ui = ui) := by
  refine ⟨fun hact => ⟨?_, ?_⟩, ?_⟩
  · intro pre next post hlist hpre hnext
    have hfind : ui.chatSessions.find? (fun chat => chat.id != chatId) = some next := by
      rw [hlist, List.find?_append]
      have : pre.find? (fun chat => chat.id != chatId) = none := by
        rw [List.find?_eq_none]
        intro s hs
        simp [hpre s hs]
      rw [this]
      simp [List.find?_cons, hnext]
    unfold deleteChatSession
    simp only [huser, if_true, deleteSessionDoc_ok store uid chatId (hnf _), hact, hfind]
    exact ⟨trivial, trivial⟩
  · intro hall
    have hfind : ui.chatSessions.find? (fun chat => chat.id != chatId) = none := by
      rw [List.find?_eq_none]
      intro s hs
      simp [hall s hs]
    unfold deleteChatSession
    simp only [huser, if_true, deleteSessionDoc_ok store uid chatId (hnf _), hact, hfind]
    exact ⟨trivial, trivial⟩
  · intro hact
    unfold deleteChatSession
    simp only [huser, if_true, deleteSessionDoc_ok store uid chatId (hnf _), if_neg hact]

/-- Witness of C20: in the sample page, whose sessions are 1 and 5 with 1 active, deleting
the session 1 makes 5 active. -/
theorem deleteChatSession_active_witness :
    (samplePage []).user = some (utf16 "u1") ∧ NoFaults sampleStore ∧
      (samplePage []).activeChatId = some 1 ∧
      (deleteChatSession (samplePage []) sampleStore 1 true).ui.activeChatId = some 5 :=
  ⟨rfl, fun _ => rfl, rfl,
    (((deleteChatSession_active (samplePage []) sampleStore (utf16 "u1") 1 rfl
      (fun _ => rfl)).1 rfl).1
      [⟨1, utf16 "u1", utf16 "Untitled", 1, 3, utf16 "u1"⟩]
      ⟨5, utf16 "u1", utf16 "Notes", 5, 5, utf16 "u1"⟩ []
      rfl (by simp) (by decide)).1⟩

/-! ## The session list subscription and the creation of a session -/

theorem onSessionsSnapshot_activeChatId (cap cur : ChatState) (first : SessionDoc)
    (rest : List SessionDoc) :
    (onSessionsSnapshot cap cur (first :: rest)).activeChatId =
      if cap.activeChatId = none then some first.id else cur.activeChatId := by
  unfold onSessionsSnapshot
  cases h : cap.activeChatId <;> simp

/-- C21: a run of the page on the sample store.  The list is subscribed to in the initial
state (no session selected); the first snapshot selects the most recently updated session
5; the user selects the session 1 and renames the session 5; at the snapshot that follows,
the session 1 being selected and the list being `[5, 1]`, the callback still reads the
`activeChatId` of the render it was created in and makes the session 5 active. -/
theorem snapshot_overrides_selection :
    subscribedPage.activeChatId = none ∧
      pageAfterFirstSnapshot.activeChatId = some 5 ∧
      pageAfterRename.ui.activeChatId = some 1 ∧
      (sessionsByUpdatedAt pageAfterRename.store (utf16 "u1")).map (fun d => d.id) = [5, 1] ∧
      pageAfterSecondSnapshot.activeChatId = some 5 := by
  refine ⟨rfl, ?_, ?_, ?_, ?_⟩ <;> decide

/-- C22, counterexample: in the sample page the session 1 is active; the call
`createNewChatSession("Drafts")` returns the new id 7 and makes the session 7 active. -/
theorem createNewChatSession_selects_counterexample :
    (samplePage []).activeChatId = some 1 ∧
      (createNewChatSession (samplePage []) (samplePage []) sampleStore (utf16 "Drafts")
        false).result = .ok (some 7) ∧
      (createNewChatSession (samplePage []) (samplePage []) sampleStore (utf16 "Drafts")
        false).ui.activeChatId = some 7 := by
  refine ⟨rfl, rfl, rfl⟩

/-- C22, amended: for a logged-in user (no request failing) `createNewChatSession` adds
exactly one session with the given title and one welcome message under it to the store,
changes no other document, and returns the id of the session; the new session becomes the
active one when the call is made by hand (`isAuto` false, the default) or the render has no
active session, and otherwise (`isAuto` true with an active session) the selection is left
as it was. -/
theorem createNewChatSession_adds_one (cap cur : ChatState) (store : Store) (uid : JString)
    (title : JString) (isAuto : Bool) (huser : cap.user = some uid) (hnf : NoFaults store) :
    (createNewChatSession cap cur store title isAuto).result = .ok (some store.clock) ∧
      (createNewChatSession cap cur store title isAuto).store.sessions =
        store.sessions ++
          [{ id := store.clock, owner := uid, title := title, createdAt := store.clock,
             updatedAt := store.clock, userID := uid }] ∧
      (createNewChatSession cap cur store title isAuto).store.messages =
        store.messages ++
          [{ id := store.clock + 1, owner := uid, chatId := store.clock,
             data := storedWelcome (store.clock + 1) }] ∧
      (createNewChatSession cap cur store title isAuto).store.citations = store.citations ∧
      (createNewChatSession cap cur store title isAuto).ui.activeChatId =
        (if isAuto = false ∨ cap.activeChatId = none then some store.clock
          else cur.activeChatId) := by
  have hui : (createNewChatSession cap cur store title isAuto).ui =
      newChatDisplay cap cur store.clock isAuto := by
    unfold NoFaults at hnf
    simp [createNewChatSession, huser, addSessionDoc, addMessageDoc, hnf]
  rcases createNewChatSession_store cap cur store title isAuto hnf with ⟨-, h⟩ | ⟨u, hu, h1, h2⟩
  · exfalso
    unfold NoFaults at hnf
    simp [createNewChatSession, huser, addSessionDoc, addMessageDoc, hnf] at h
  · rw [huser] at hu
    cases hu
    refine ⟨h1, by rw [h2], by rw [h2], by rw [h2], ?_⟩
    rw [hui]
    unfold newChatDisplay
    cases isAuto <;> cases hc : cap.activeChatId <;> simp

/-- Witness of C22: the creation by hand of the session `Drafts` in the sample page. -/
theorem createNewChatSession_adds_one_witness :
    (samplePage []).user = some (utf16 "u1") ∧ NoFaults sampleStore ∧
      (createNewChatSession (samplePage []) (samplePage []) sampleStore (utf16 "Drafts")
        false).result = .ok (some sampleStore.clock) ∧
      (createNewChatSession (samplePage []) (samplePage []) sampleStore (utf16 "Drafts")
        false).store.citations = sampleStore.citations :=
  ⟨rfl, fun _ => rfl,
    (createNewChatSession_adds_one (samplePage []) (samplePage []) sampleStore (utf16 "u1")
      (utf16 "Drafts") false rfl (fun _ => rfl)).1,
    (createNewChatSession_adds_one (samplePage []) (samplePage []) sampleStore (utf16 "u1")
      (utf16 "Drafts") false rfl (fun _ => rfl)).2.2.2.1⟩

/-! ## Appending a message -/

theorem getOwn_setProp_other (props : Props) (k key : JString) (v : JSValue) (h : key ≠ k) :
    getOwn (setProp props k v) key = getOwn props key := by
  induction props with
  | nil => simp [setProp, getOwn, Ne.symm h]
  | cons p props ih =>
    obtain ⟨k2, w⟩ := p
    by_cases hk : k2 = k
    · subst hk
      simp [setProp, getOwn, Ne.symm h]
    · by_cases hk2 : k2 = key
      · subst hk2
        simp [setProp, getOwn, hk]
      · simp [setProp, getOwn, hk, hk2, ih]

theorem getOwn_resolveTimestamps (now : Nat) (props : Props) (key : JString) :
    getProp (resolveTimestamps now (.obj props)) key =
      .ok (if isSymbolFor (getOwn props key) (utf16 "serverTimestamp") then .num now
        else getOwn props key) := by
  simp only [resolveTimestamps, getProp]
  congr 1
  induction props with
  | nil => simp [getOwn, isSymbolFor]
  | cons p props ih =>
    obtain ⟨k, v⟩ := p
    by_cases hk : k = key
    · simp [getOwn, hk]
    · simp only [List.map_cons, getOwn, hk, if_false]
      exact ih

theorem serializeMessage_with_timestamp (P : Platform) (props : Props) (ts sm : JSValue)
    (h : serializeMessage P (.obj props) = .ok sm) :
    ∃ p, serializeMessage P (.obj (setProp props (utf16 "timestamp") ts)) = .ok (.obj p) ∧
      getOwn p (utf16 "timestamp") = ts ∧
      getProp (.obj p) (utf16 "text") = getProp sm (utf16 "text") ∧
      ∀ key, key ≠ utf16 "text" → key ≠ utf16 "timestamp" →
        getOwn p key = getOwn props key := by
  have hne : utf16 "text" ≠ utf16 "timestamp" := by decide
  have hne2 : utf16 "timestamp" ≠ utf16 "text" := by decide
  have htext : getOwn (setProp props (utf16 "timestamp") ts) (utf16 "text") =
      getOwn props (utf16 "text") := getOwn_setProp_other _ _ _ _ hne
  have hg1 : getProp (.obj props) (utf16 "text") = .ok (getOwn props (utf16 "text")) := rfl
  have hg2 : getProp (.obj (setProp props (utf16 "timestamp") ts)) (utf16 "text") =
      .ok (getOwn props (utf16 "text")) := by rw [getProp_obj, htext]
  unfold serializeMessage at h ⊢
  simp only [truthy, Bool.not_true, Bool.false_eq_true, if_false, hg1, hg2] at h ⊢
  split_ifs at h ⊢ with h2 h3
  · cases hr : P.renderToString (getOwn props (utf16 "text")) with
    | error e => simp [hr] at h
    | ok markup =>
      simp only [hr, Except.ok.injEq] at h ⊢
      subst h
      refine ⟨_, rfl, ?_, ?_, ?_⟩
      · simp only [spreadProps]
        rw [getOwn_setProp_other _ _ _ _ hne2, getOwn_setProp]
      · simp only [withText, spreadProps, getProp_obj, getOwn_setProp]
      · intro key hk1 hk2
        simp only [spreadProps]
        rw [getOwn_setProp_other _ _ _ _ hk1, getOwn_setProp_other _ _ _ _ hk2]
  · simp only [Except.ok.injEq] at h
    subst h
    refine ⟨_, rfl, ?_, ?_, ?_⟩
    · simp only [spreadProps]
      rw [getOwn_setProp_other _ _ _ _ hne2, getOwn_setProp]
    · simp only [withText, spreadProps, getProp_obj, getOwn_setProp]
    · intro key hk1 hk2
      simp only [spreadProps]
      rw [getOwn_setProp_other _ _ _ _ hk1, getOwn_setProp_other _ _ _ _ hk2]
  · simp only [Except.ok.injEq] at h
    subst h
    refine ⟨_, rfl, getOwn_setProp _ _ _, ?_, ?_⟩
    · rw [getProp_obj, getProp_obj, htext]
    · intro key _ hk2
      exact getOwn_setProp_other _ _ _ _ hk2

theorem touchSessionDoc_store (s : Store) (owner : JString) (id : Nat)
    (h : s.faults s.clock = false) :
    (touchSessionDoc s owner id).2 =
      { s with
        clock := s.clock + 1,
        sessions := s.sessions.map (fun d =>
          if d.owner = owner ∧ d.id = id then { d with updatedAt := s.clock } else d) } := by
  unfold touchSessionDoc
  simp only [h, Bool.false_eq_true, if_false]
  split_ifs with hany
  · rfl
  · have : s.sessions.map (fun d =>
        if d.owner = owner ∧ d.id = id then { d with updatedAt := s.clock } else d)
        = s.sessions := by
      conv_rhs => rw [← List.map_id s.sessions]
      apply List.map_congr_left
      intro d hd
      have hd2 : ¬ (d.owner = owner ∧ d.id = id) := by
        intro hc
        apply hany
        rw [List.any_eq_true]
        exact ⟨d, hd, by simpa using hc⟩
      simp [hd2]
    rw [this]

/-- C23: for a logged-in user whose render has the active session `s` (no request
failing), and a message object `m` that `serializeMessage` encodes as `sm` (its type and
its encoded text not being the `serverTimestamp()` sentinel), `saveMessageToFirestore(m)`
adds exactly one message document to the store, under the session `s`, whose type is
`m.type`, whose text is `sm.text` and whose timestamp is the time of the write; the
`updatedAt` of the session `s` becomes the time of the update that follows, and no other
message, no other session, no other field of `s` and no citation changes. -/
theorem saveMessageToFirestore_appends (P : Platform) (cap cur : ChatState) (store : Store)
    (uid : JString) (s : Nat) (props : Props) (sm : JSValue)
    (huser : cap.user = some uid) (hact : cap.activeChatId = some s) (hnf : NoFaults store)
    (hser : serializeMessage P (.obj props) = .ok sm)
    (htype : isSymbolFor (getOwn props (utf16 "type")) (utf16 "serverTimestamp") = false)
    (htext : ∀ t, getProp sm (utf16 "text") = .ok t →
      isSymbolFor t (utf16 "serverTimestamp") = false) :
    (saveMessageToFirestore P cap cur store (.obj props)).result = .ok () ∧
      (saveMessageToFirestore P cap cur store (.obj props)).ui = cur ∧
      (∃ data,
        (saveMessageToFirestore P cap cur store (.obj props)).store.messages =
          store.messages ++ [{ id := store.clock, owner := uid, chatId := s, data := data }] ∧
        getProp data (utf16 "type") = getProp (.obj props) (utf16 "type") ∧
        getProp data (utf16 "text") = getProp sm (utf16 "text") ∧
        getProp data (utf16 "timestamp") = .ok (.num store.clock)) ∧
      (saveMessageToFirestore P cap cur store (.obj props)).store.sessions =
        store.sessions.map (fun d =>
          if d.owner = uid ∧ d.id = s then { d with updatedAt := store.clock + 1 } else d) ∧
      (saveMessageToFirestore P cap cur store (.obj props)).store.citations =
        store.citations := by
  obtain ⟨p, hp, hts, htx, hrest⟩ :=
    serializeMessage_with_timestamp P props serverTimestamp sm hser
  have hens : ensureActiveChat cap cur store =
      { ui := cur, store := store, result := .ok (some s) } := by
    simp [ensureActiveChat, hact]
  have hadd := addMessageDoc_ok store uid s (.obj p) (hnf _)
  have hgt : getProp (.obj props) (utf16 "type") = .ok (getOwn props (utf16 "type")) := rfl
  have htouch := touchSessionDoc_store
    { store with
      clock := store.clock + 1,
      messages := store.messages ++
        [{ id := store.clock, owner := uid, chatId := s,
           data := resolveTimestamps store.clock (.obj p) }] } uid s (hnf _)
  have hsave : saveMessageToFirestore P cap cur store (.obj props) =
      { ui := cur,
        store := (touchSessionDoc
          { store with
            clock := store.clock + 1,
            messages := store.messages ++
              [{ id := store.clock, owner := uid, chatId := s,
                 data := resolveTimestamps store.clock (.obj p) }] } uid s).2,
        result := .ok () } := by
    unfold saveMessageToFirestore
    simp only [huser, hens, hgt, spreadProps, hp, hadd]
  rw [hsave, htouch]
  refine ⟨rfl, rfl, ⟨_, rfl, ?_, ?_, ?_⟩, rfl, rfl⟩
  · rw [getOwn_resolveTimestamps, hgt, hrest _ (by decide) (by decide), htype]
    simp
  · rw [getOwn_resolveTimestamps]
    have h1 : getProp (.obj p) (utf16 "text") = .ok (getOwn p (utf16 "text")) := rfl
    rw [← htx, h1]
    have h2 := htext (getOwn p (utf16 "text")) (by rw [← htx, h1])
    rw [h2]
    simp
  · rw [getOwn_resolveTimestamps, hts]
    simp [serverTimestamp, isSymbolFor]

/-- Witness of C23: the user turn `10.2/y` saved in the sample page, whose active session
is 1. -/
theorem saveMessageToFirestore_appends_witness :
    (samplePage []).user = some (utf16 "u1") ∧ (samplePage []).activeChatId = some 1 ∧
      NoFaults sampleStore ∧
      (saveMessageToFirestore (modelPlatform noRenderer) (samplePage []) (samplePage [])
          sampleStore (userMessage (.str (utf16 "10.2/y")))).store.sessions =
        sampleStore.sessions.map (fun d =>
          if d.owner = utf16 "u1" ∧ d.id = 1 then
            { d with updatedAt := sampleStore.clock + 1 }
          else d) ∧
      (saveMessageToFirestore (modelPlatform noRenderer) (samplePage []) (samplePage [])
          sampleStore (userMessage (.str (utf16 "10.2/y")))).store.citations =
        sampleStore.citations :=
  ⟨rfl, rfl, fun _ => rfl,
    (saveMessageToFirestore_appends (modelPlatform noRenderer) (samplePage [])
      (samplePage []) sampleStore (utf16 "u1") 1
      [(utf16 "type", .str (utf16 "user")), (utf16 "text", .str (utf16 "10.2/y"))]
      (userMessage (.str (utf16 "10.2/y"))) rfl rfl (fun _ => rfl) rfl rfl
      (by intro t ht; cases ht; rfl)).2.2.2⟩

/-! ## A session that cannot be created -/

theorem createNewChatSession_cur (cap cur cur2 : ChatState) (store : Store) (title : JString)
    (isAuto : Bool) :
    (createNewChatSession cap cur store title isAuto).result =
        (createNewChatSession cap cur2 store title isAuto).result ∧
      (createNewChatSession cap cur store title isAuto).store =
        (createNewChatSession cap cur2 store title isAuto).store := by
  unfold createNewChatSession
  split
  · exact ⟨rfl, rfl⟩
  · split
    · exact ⟨rfl, rfl⟩
    · split <;> exact ⟨rfl, rfl⟩

theorem createNewChatSession_failed (cap cur : ChatState) (store : Store) (title : JString)
    (isAuto : Bool) (h : (createNewChatSession cap cur store title isAuto).result = .ok none) :
    (createNewChatSession cap cur store title isAuto).ui = cur ∧
      (createNewChatSession cap cur store title isAuto).store.messages = store.messages ∧
      (createNewChatSession cap cur store title isAuto).store.citations = store.citations := by
  cases hu : cap.user with
  | none => simp [createNewChatSession, hu]
  | some uid =>
    cases h1 : store.faults store.clock with
    | true => simp [createNewChatSession, hu, addSessionDoc, h1]
    | false =>
      cases h2 : store.faults (store.clock + 1) with
      | true => simp [createNewChatSession, hu, addSessionDoc, addMessageDoc, h1, h2]
      | false => simp [createNewChatSession, hu, addSessionDoc, addMessageDoc, h1, h2] at h

/-- C24: for a logged-in user whose render has no active session, when
`createNewChatSession("Untitled", true)` returns `null`: `saveMessageToFirestore` returns
without error, leaving the page and the message documents of the store as they are;
`searchPaper` returns, whatever the analysis part would do, with the page unchanged (for a
reset input, with the welcome display) and no message document written; and
`uploadDocument` returns, whatever the HTTP call and the report would give, with the page
unchanged and no message document written. -/
theorem failed_creation_stops (P : Platform)
    (analysis : ChatState → ChatState → Store → List JSValue → Effect Unit)
    (post : JSValue → Except JSValue JSValue)
    (report : JSValue → Option JString → Except JSValue JSValue)
    (ui cur : ChatState) (store : Store) (message : JSValue) (uid : JString)
    (huser : ui.user = some uid) (hact : ui.activeChatId = none)
    (hfail : (createNewChatSession ui ui store (utf16 "Untitled") true).result = .ok none) :
    ((saveMessageToFirestore P ui cur store message).result = .ok () ∧
        (saveMessageToFirestore P ui cur store message).ui = cur ∧
        (saveMessageToFirestore P ui cur store message).store.messages = store.messages) ∧
      (searchPaper P analysis ui store =
          { ui := if isResetInput ui.input then resetDisplay ui else ui,
            store := (createNewChatSession ui ui store (utf16 "Untitled") true).store,
            result := .ok () } ∧
        (searchPaper P analysis ui store).store.messages = store.messages) ∧
      (uploadDocument P post report ui store =
          { ui := ui,
            store := if ui.uploadedFile.isSome then
              (createNewChatSession ui ui store (utf16 "Untitled") true).store else store,
            result := .ok () } ∧
        (uploadDocument P post report ui store).store.messages = store.messages) := by
  have hres : ∀ c, (createNewChatSession ui c store (utf16 "Untitled") true).result = .ok none :=
    fun c => by rw [(createNewChatSession_cur ui c ui store _ _).1, hfail]
  have hst : ∀ c, (createNewChatSession ui c store (utf16 "Untitled") true).store =
      (createNewChatSession ui ui store (utf16 "Untitled") true).store :=
    fun c => (createNewChatSession_cur ui c ui store _ _).2
  have hf := fun c => createNewChatSession_failed ui c store (utf16 "Untitled") true (hres c)
  have hcond : ui.user.isSome ∧ ui.activeChatId.isNone := by simp [huser, hact]
  refine ⟨?_, ?_, ?_⟩
  · have hens : ensureActiveChat ui cur store =
        createNewChatSession ui cur store (utf16 "Untitled") true := by
      simp [ensureActiveChat, hact]
    unfold saveMessageToFirestore
    simp only [huser, hens, hres cur]
    exact ⟨trivial, (hf cur).1, (hf cur).2.1⟩
  · have heq : searchPaper P analysis ui store =
        { ui := if isResetInput ui.input then resetDisplay ui else ui,
          store := (createNewChatSession ui ui store (utf16 "Untitled") true).store,
          result := .ok () } := by
      unfold searchPaper
      by_cases hr : isResetInput ui.input = true
      · rw [if_pos hr, if_pos hr]
        unfold searchPaperReset
        simp only [huser, hact, hres (resetDisplay ui), (hf (resetDisplay ui)).1,
          hst (resetDisplay ui)]
      · rw [if_neg hr, if_neg hr, if_pos hcond]
        simp only [hfail, (hf ui).1]
    refine ⟨heq, ?_⟩
    rw [heq]
    exact (hf ui).2.1
  · have heq : uploadDocument P post report ui store =
        { ui := ui,
          store := if ui.uploadedFile.isSome then
            (createNewChatSession ui ui store (utf16 "Untitled") true).store else store,
          result := .ok () } := by
      unfold uploadDocument
      cases hfile : ui.uploadedFile with
      | none => simp
      | some name =>
        simp only [if_pos hcond, hfail, (hf ui).1, Option.isSome_some, if_true]
    refine ⟨heq, ?_⟩
    rw [heq]
    split_ifs
    · exact (hf ui).2.1
    · rfl

/-- Witness of C24: the sample page without active session over the store whose every
request fails. -/
theorem failed_creation_stops_witness :
    (pageWithoutChat (utf16 "10.2/y")).user = some (utf16 "u1") ∧
      (pageWithoutChat (utf16 "10.2/y")).activeChatId = none ∧
      (createNewChatSession (pageWithoutChat (utf16 "10.2/y")) (pageWithoutChat (utf16 "10.2/y"))
        offlineStore (utf16 "Untitled") true).result = .ok none ∧
      (searchPaper (modelPlatform noRenderer) noAnalysis (pageWithoutChat (utf16 "10.2/y"))
        offlineStore).store.messages = offlineStore.messages ∧
      (uploadDocument (modelPlatform noRenderer) (fun _ => .ok .null) (fun d _ => .ok d)
        (pageWithoutChat (utf16 "10.2/y")) offlineStore).store.messages
          = offlineStore.messages :=
  ⟨rfl, rfl, rfl,
    (failed_creation_stops (modelPlatform noRenderer) noAnalysis (fun _ => .ok .null)
      (fun d _ => .ok d) (pageWithoutChat (utf16 "10.2/y")) (pageWithoutChat (utf16 "10.2/y"))
      offlineStore .null (utf16 "u1") rfl rfl rfl).2.1.2,
    (failed_creation_stops (modelPlatform noRenderer) noAnalysis (fun _ => .ok .null)
      (fun d _ => .ok d) (pageWithoutChat (utf16 "10.2/y")) (pageWithoutChat (utf16 "10.2/y"))
      offlineStore .null (utf16 "u1") rfl rfl rfl).2.2.2⟩

/-! ## The analysis of a paper -/

theorem optionalProp_ok (value : JSValue) (key : JString) :
    ∃ r, optionalProp value key = .ok r := by
  cases value <;> simp [optionalProp, getProp]

theorem errorDetail_obj (eprops : Props) :
    ∃ data serviceError,
      optionalProp (getOwn eprops (utf16 "response")) (utf16 "data") = .ok data ∧
      optionalProp data (utf16 "error") = .ok serviceError ∧
      errorDetail (.obj eprops) =
        .ok (if truthy serviceError then serviceError
          else if truthy (getOwn eprops (utf16 "message")) then
            getOwn eprops (utf16 "message")
          else .str (utf16 "Unknown error")) := by
  obtain ⟨data, hd⟩ := optionalProp_ok (getOwn eprops (utf16 "response")) (utf16 "data")
  obtain ⟨serviceError, he⟩ := optionalProp_ok data (utf16 "error")
  refine ⟨data, serviceError, hd, he, ?_⟩
  simp only [errorDetail, getProp, hd, he]
  split_ifs <;> rfl

set_option maxRecDepth 100000 in
/-- Sample: with the number model of this file a template literal writes numbers as
Number::toString does, 10^21 as `1e+21`. -/
theorem toStringJS_number_forms :
    toStringJS (modelPlatform noRenderer) (.num (10 ^ 21)) = .ok (utf16 "1e+21") ∧
      toStringJS (modelPlatform noRenderer) (.num (-42)) = .ok (utf16 "-42") ∧
      toStringJS (modelPlatform noRenderer) (.frac 15 1) = .ok (utf16 "1.5") ∧
      toStringJS (modelPlatform noRenderer) (.arr [.num 1, .null, .frac 5 8])
        = .ok (utf16 "1,,5e-8") ∧
      errorText (modelPlatform noRenderer) (utf16 "Error analyzing paper: ")
          (utf16 ". Please try again with a different identifier.") numericError
        = .ok (utf16 "Error analyzing paper: 1e+21" ++
            utf16 ". Please try again with a different identifier.") :=
  ⟨rfl, rfl, rfl, rfl, rfl⟩

theorem searchPaperSubmit_failure (P : Platform) (post : JSValue → Except JSValue JSValue)
    (report : JSValue → Option JString → Except JSValue JSValue) (cap cur : ChatState)
    (store : Store) (error detail : JSValue) (text : JString)
    (hpost : post (analyzeRequest cap.input) = .error error)
    (hdetail : errorDetail error = .ok detail) (htext : toStringJS P detail = .ok text) :
    (searchPaperSubmit P (analyzePaper P post report) cap cur store).result = .ok () ∧
      (searchPaperSubmit P (analyzePaper P post report) cap cur store).ui.messages =
        cap.messages ++ [userMessage (.str cap.input)] ++
          [botMessage (.str (utf16 "Error analyzing paper: " ++ text ++
            utf16 ". Please try again with a different identifier."))] ∧
      (searchPaperSubmit P (analyzePaper P post report) cap cur store).ui.isLoading = false := by
  simp [searchPaperSubmit, analyzePaper, runAnalysis, analysisAttempt, hpost, errorText,
    hdetail, htext]

/-- C25: for an input that is not a reset, when the analysis call is reached (the user is
logged out, or has an active session, or the session could be created) and is rejected
with an error object, `searchPaper` ends without error, the displayed messages are the
messages of the render followed by the user turn and one bot turn whose text is the string
`Error analyzing paper: <e>. Please try again with a different identifier.`, and
`isLoading` is false.  Here `<e>` is the text of the `error` field of the data of the
response of the error when that field is truthy, else of the `message` of the error when
it is truthy, else `Unknown error`.  The detail is a string or other JSON data, as a
response carries it, and its text is what a template literal writes for it: a string is
written as it is, a number as Number::toString of the platform writes it. -/
theorem analysis_failure_message (P : Platform) (post : JSValue → Except JSValue JSValue)
    (report : JSValue → Option JString → Except JSValue JSValue) (ui : ChatState)
    (store : Store) (eprops : Props) (detail : JSValue) (text : JString)
    (hinput : isResetInput ui.input = false)
    (hreach : ui.user = none ∨ ui.activeChatId.isSome = true ∨
      ∃ id, (createNewChatSession ui ui store (utf16 "Untitled") true).result = .ok (some id))
    (hpost : post (analyzeRequest ui.input) = .error (.obj eprops))
    (hdetail : errorDetail (.obj eprops) = .ok detail)
    (hdata : isJSONValue detail = true)
    (htext : toStringJS P detail = .ok text) :
    (searchPaper P (analyzePaper P post report) ui store).result = .ok () ∧
      (searchPaper P (analyzePaper P post report) ui store).ui.messages =
        ui.messages ++ [userMessage (.str ui.input)] ++
          [botMessage (.str (utf16 "Error analyzing paper: " ++ text ++
            utf16 ". Please try again with a different identifier."))] ∧
      (searchPaper P (analyzePaper P post report) ui store).ui.isLoading = false ∧
      (∃ data serviceError,
        optionalProp (getOwn eprops (utf16 "response")) (utf16 "data") = .ok data ∧
        optionalProp data (utf16 "error") = .ok serviceError ∧
        detail = (if truthy serviceError then serviceError
          else if truthy (getOwn eprops (utf16 "message")) then
            getOwn eprops (utf16 "message")
          else .str (utf16 "Unknown error"))) ∧
      (∀ s, detail = .str s → text = s) ∧
      (∀ n, detail = .num n → text = P.numberToString (.num n)) ∧
      (∀ m f, detail = .frac m f → text = P.numberToString (.frac m f)) := by
  have hr : ¬ (isResetInput ui.input = true) := by simp [hinput]
  have hlast : (∀ s, detail = .str s → text = s) ∧
      (∀ n, detail = .num n → text = P.numberToString (.num n)) ∧
      (∀ m f, detail = .frac m f → text = P.numberToString (.frac m f)) := by
    refine ⟨?_, ?_, ?_⟩
    · intro s hs
      subst hs
      simp only [toStringJS, Except.ok.injEq] at htext
      exact htext.symm
    · intro n hn
      subst hn
      simp only [toStringJS, Except.ok.injEq] at htext
      exact htext.symm
    · intro m f hm
      subst hm
      simp only [toStringJS, Except.ok.injEq] at htext
      exact htext.symm
  have hchar : ∃ data serviceError,
      optionalProp (getOwn eprops (utf16 "response")) (utf16 "data") = .ok data ∧
      optionalProp data (utf16 "error") = .ok serviceError ∧
      detail = (if truthy serviceError then serviceError
        else if truthy (getOwn eprops (utf16 "message")) then
          getOwn eprops (utf16 "message")
        else .str (utf16 "Unknown error")) := by
    obtain ⟨data, serviceError, h1, h2, h3⟩ := errorDetail_obj eprops
    rw [hdetail] at h3
    exact ⟨data, serviceError, h1, h2, Except.ok.inj h3⟩
  unfold searchPaper
  rw [if_neg hr]
  by_cases hc : ui.user.isSome ∧ ui.activeChatId.isNone
  · rw [if_pos hc]
    rcases hreach with hu | ha | ⟨id, hid⟩
    · rw [hu] at hc
      simp at hc
    · cases hact : ui.activeChatId with
      | none => rw [hact] at ha; simp at ha
      | some c => rw [hact] at hc; simp at hc
    · simp only [hid]
      obtain ⟨h1, h2, h3⟩ := searchPaperSubmit_failure P post report ui
        (createNewChatSession ui ui store (utf16 "Untitled") true).ui
        (createNewChatSession ui ui store (utf16 "Untitled") true).store
        (.obj eprops) detail text hpost hdetail htext
      exact ⟨h1, h2, h3, hchar, hlast⟩
  · rw [if_neg hc]
    obtain ⟨h1, h2, h3⟩ := searchPaperSubmit_failure P post report ui ui store
      (.obj eprops) detail text hpost hdetail htext
    exact ⟨h1, h2, h3, hchar, hlast⟩

/-- Witness of C25: in the sample page the input `10.2/y` is submitted and the service
answers 404 with the error `Paper not found`. -/
theorem analysis_failure_message_witness :
    isResetInput (samplePage (utf16 "10.2/y")).input = false ∧
      errorDetail notFoundError = .ok (.str (utf16 "Paper not found")) ∧
      (searchPaper (modelPlatform noRenderer)
        (analyzePaper (modelPlatform noRenderer) (fun _ => .error notFoundError) sampleReport)
        (samplePage (utf16 "10.2/y")) sampleStore).result = .ok () ∧
      (searchPaper (modelPlatform noRenderer)
        (analyzePaper (modelPlatform noRenderer) (fun _ => .error notFoundError) sampleReport)
        (samplePage (utf16 "10.2/y")) sampleStore).ui.messages =
        (samplePage (utf16 "10.2/y")).messages ++
          [userMessage (.str (samplePage (utf16 "10.2/y")).input)] ++
          [botMessage (.str (utf16 "Error analyzing paper: " ++ utf16 "Paper not found" ++
            utf16 ". Please try again with a different identifier."))] :=
  ⟨rfl, rfl,
    (analysis_failure_message (modelPlatform noRenderer) (fun _ => .error notFoundError)
      sampleReport (samplePage (utf16 "10.2/y")) sampleStore _ _ (utf16 "Paper not found")
      rfl (Or.inr (Or.inl rfl)) rfl rfl rfl rfl).1,
    (analysis_failure_message (modelPlatform noRenderer) (fun _ => .error notFoundError)
      sampleReport (samplePage (utf16 "10.2/y")) sampleStore _ _ (utf16 "Paper not found")
      rfl (Or.inr (Or.inl rfl)) rfl rfl rfl rfl).2.1⟩

/-! ## Loading the messages of a session -/

theorem deserializeMessage_returns (P : Platform) (m : JSValue) :
    ∃ r, deserializeMessage P m = .ok r := by
  unfold deserializeMessage
  split_ifs with h1
  · exact ⟨m, rfl⟩
  · have ht : truthy m = true := by
      cases hh : truthy m
      · simp [hh] at h1
      · rfl
    obtain ⟨v, hv⟩ := getProp_of_truthy ht (utf16 "text")
    rw [hv]
    cases v with
    | str text =>
      simp only []
      cases hd : deserializeTry P m text with
      | error e => exact ⟨m, rfl⟩
      | ok o =>
        cases o with
        | none => exact ⟨m, rfl⟩
        | some r => exact ⟨r, rfl⟩
    | _ => exact ⟨m, rfl⟩

theorem timestampOf_obj (doc : MessageDoc) (h : (timestampOf doc).isSome = true) :
    ∃ props, doc.data = .obj props := by
  unfold timestampOf at h
  cases hd : doc.data with
  | obj props => exact ⟨props, rfl⟩
  | _ => rw [hd] at h; simp at h

theorem loadMessages_returns (P : Platform) (docs : List MessageDoc)
    (h : ∀ d ∈ docs, ∃ props, d.data = .obj props) :
    ∃ loaded, loadMessages P docs = .ok loaded ∧
      List.Forall₂ (fun doc message => ∃ props, doc.data = .obj props ∧
        deserializeMessage P (loadedMessage (docId doc.id) (getOwn props (utf16 "type"))
          (getOwn props (utf16 "text")) (getOwn props (utf16 "timestamp"))) = .ok message)
        docs loaded := by
  induction docs with
  | nil => exact ⟨[], rfl, List.Forall₂.nil⟩
  | cons d docs ih =>
    obtain ⟨props, hp⟩ := h d (List.mem_cons_self _ _)
    obtain ⟨loaded, hl, hf⟩ := ih (fun x hx => h x (List.mem_cons_of_mem _ hx))
    obtain ⟨r, hr⟩ := deserializeMessage_returns P
      (loadedMessage (docId d.id) (getOwn props (utf16 "type"))
        (getOwn props (utf16 "text")) (getOwn props (utf16 "timestamp")))
    have hone : loadMessage P d = .ok r := by
      simp only [loadMessage, hp, getProp_obj, hr]
    refine ⟨r :: loaded, ?_, List.Forall₂.cons ⟨props, hp, hr⟩ hf⟩
    simp only [loadMessages, hone, hl]

theorem messagesByTimestamp_perm (s : Store) (owner : JString) (chatId : Nat) :
    (messagesByTimestamp s owner chatId).Perm
      ((messagesOf s owner chatId).filter (fun d => (timestampOf d).isSome)) :=
  List.perm_insertionSort _ _

theorem messagesByTimestamp_sorted (s : Store) (owner : JString) (chatId : Nat) :
    (messagesByTimestamp s owner chatId).Pairwise timestampLE := by
  haveI : IsTotal MessageDoc timestampLE := ⟨fun a b => Int.le_total _ _⟩
  haveI : IsTrans MessageDoc timestampLE := ⟨fun a b c hab hbc => Int.le_trans hab hbc⟩
  exact List.sorted_insertionSort _ _

/-- C26: for a logged-in user with an active session whose message documents all have a
server time (as all those the page writes have), the read not failing:
`loadChatMessages` sets the displayed messages to the single welcome message when the
session has no stored message; otherwise to the list, of the same length as the stored
messages, of `deserializeMessage` applied to `(id, type, text, timestamp)` of each stored
message, the stored messages being taken in ascending order of their time. -/
theorem loadChatMessages_display (P : Platform) (cap cur : ChatState) (store : Store)
    (uid : JString) (c : Nat) (huser : cap.user = some uid) (hact : cap.activeChatId = some c)
    (hnf : NoFaults store)
    (hts : ∀ m ∈ messagesOf store uid c, (timestampOf m).isSome = true) :
    (loadChatMessages P cap cur store).result = .ok () ∧
      (messagesOf store uid c = [] →
        (loadChatMessages P cap cur store).ui.messages = [welcomeMessage]) ∧
      (messagesOf store uid c ≠ [] →
        (loadChatMessages P cap cur store).ui.messages.length =
            (messagesOf store uid c).length ∧
          ∃ docs, docs.Perm (messagesOf store uid c) ∧ docs.Pairwise timestampLE ∧
            List.Forall₂ (fun doc message => ∃ props, doc.data = .obj props ∧
              deserializeMessage P (loadedMessage (docId doc.id)
                (getOwn props (utf16 "type")) (getOwn props (utf16 "text"))
                (getOwn props (utf16 "timestamp"))) = .ok message)
              docs (loadChatMessages P cap cur store).ui.messages) := by
  have hfilter : (messagesOf store uid c).filter (fun d => (timestampOf d).isSome) =
      messagesOf store uid c := List.filter_eq_self.mpr hts
  have hperm : (messagesByTimestamp store uid c).Perm (messagesOf store uid c) := by
    have := messagesByTimestamp_perm store uid c
    rwa [hfilter] at this
  have hobj : ∀ d ∈ messagesByTimestamp store uid c, ∃ props, d.data = .obj props :=
    fun d hd => timestampOf_obj d (hts d (hperm.mem_iff.mp hd))
  obtain ⟨loaded, hl, hf⟩ := loadMessages_returns P _ hobj
  have hget : getOrderedMessageDocs store uid c =
      (.ok (messagesByTimestamp store uid c), { store with clock := store.clock + 1 }) := by
    simp [getOrderedMessageDocs, hnf store.clock]
  have hload : loadChatMessages P cap cur store =
      { ui := { cur with messages :=
          if (messagesByTimestamp store uid c).isEmpty then [welcomeMessage] else loaded },
        store := { store with clock := store.clock + 1 }, result := .ok () } := by
    unfold loadChatMessages
    simp only [huser, hact, hget]
    split_ifs with he
    · rfl
    · simp only [hl]
  rw [hload]
  refine ⟨rfl, ?_, ?_⟩
  · intro hempty
    have : messagesByTimestamp store uid c = [] := by
      rw [hempty] at hperm
      exact List.Perm.eq_nil hperm
    simp [this]
  · intro hne
    have hne2 : (messagesByTimestamp store uid c).isEmpty = false := by
      cases hq : messagesByTimestamp store uid c with
      | nil =>
        rw [hq] at hperm
        exact absurd (List.Perm.nil_eq hperm).symm hne
      | cons d ds => rfl
    simp only [hne2, Bool.false_eq_true, if_false]
    refine ⟨?_, messagesByTimestamp store uid c, hperm, messagesByTimestamp_sorted store uid c,
      hf⟩
    rw [← hf.length_eq, hperm.length_eq]

/-- Witness of C26: the session 1 of the sample store, which holds two messages, is
loaded. -/
theorem loadChatMessages_display_witness :
    (samplePage []).user = some (utf16 "u1") ∧ (samplePage []).activeChatId = some 1 ∧
      NoFaults sampleStore ∧ messagesOf sampleStore (utf16 "u1") 1 ≠ [] ∧
      (loadChatMessages (modelPlatform noRenderer) (samplePage []) (samplePage [])
        sampleStore).ui.messages.length = (messagesOf sampleStore (utf16 "u1") 1).length :=
  ⟨rfl, rfl, fun _ => rfl, List.ne_nil_of_length_pos (by decide),
    ((loadChatMessages_display (modelPlatform noRenderer) (samplePage []) (samplePage [])
      sampleStore (utf16 "u1") 1 rfl rfl (fun _ => rfl) (by decide)).2.2
        (List.ne_nil_of_length_pos (by decide))).1⟩

/-! ## The sessions created by one submission -/

theorem createNewChatSession_logged_in (cap cur : ChatState) (store : Store) (uid : JString)
    (title : JString) (isAuto : Bool) (huser : cap.user = some uid) (hnf : NoFaults store) :
    (createNewChatSession cap cur store title isAuto).result = .ok (some store.clock) ∧
      (createNewChatSession cap cur store title isAuto).ui =
        newChatDisplay cap cur store.clock isAuto ∧
      (createNewChatSession cap cur store title isAuto).store =
        { store with
          clock := store.clock + 2,
          sessions := store.sessions ++
            [{ id := store.clock, owner := uid, title := title, createdAt := store.clock,
               updatedAt := store.clock, userID := uid }],
          messages := store.messages ++
            [{ id := store.clock + 1, owner := uid, chatId := store.clock,
               data := storedWelcome (store.clock + 1) }] } := by
  unfold NoFaults at hnf
  refine ⟨?_, ?_, ?_⟩ <;>
    simp [createNewChatSession, huser, addSessionDoc, addMessageDoc, hnf,
      resolveTimestamps_welcome]

theorem touchSessionDoc_ids (s : Store) (owner : JString) (id : Nat) :
    (touchSessionDoc s owner id).2.sessions.map (fun d => d.id) =
        s.sessions.map (fun d => d.id) ∧
      (touchSessionDoc s owner id).2.messages = s.messages ∧
      (touchSessionDoc s owner id).2.citations = s.citations ∧
      (touchSessionDoc s owner id).2.clock = s.clock + 1 ∧
      (touchSessionDoc s owner id).2.faults = s.faults := by
  unfold touchSessionDoc
  split_ifs
  · exact ⟨rfl, rfl, rfl, rfl, rfl⟩
  · refine ⟨?_, rfl, rfl, rfl, rfl⟩
    simp only [List.map_map]
    apply List.map_congr_left
    intro d _
    simp only [Function.comp]
    split_ifs <;> rfl
  · exact ⟨rfl, rfl, rfl, rfl, rfl⟩

theorem saveMessageToFirestore_no_active (P : Platform) (cap cur : ChatState) (store : Store)
    (uid : JString) (props : Props) (sm : JSValue)
    (huser : cap.user = some uid) (hact : cap.activeChatId = none) (hnf : NoFaults store)
    (hser : serializeMessage P (.obj (setProp props (utf16 "timestamp") serverTimestamp))
      = .ok sm) :
    (saveMessageToFirestore P cap cur store (.obj props)).ui =
        { cur with activeChatId := some store.clock } ∧
      (saveMessageToFirestore P cap cur store (.obj props)).store.sessions.map (fun d => d.id)
        = store.sessions.map (fun d => d.id) ++ [store.clock] ∧
      (saveMessageToFirestore P cap cur store (.obj props)).store.messages =
        store.messages ++
          [{ id := store.clock + 1, owner := uid, chatId := store.clock,
             data := storedWelcome (store.clock + 1) },
           { id := store.clock + 2, owner := uid, chatId := store.clock,
             data := resolveTimestamps (store.clock + 2) sm }] ∧
      (saveMessageToFirestore P cap cur store (.obj props)).store.clock = store.clock + 4 ∧
      NoFaults (saveMessageToFirestore P cap cur store (.obj props)).store := by
  obtain ⟨h1, h2, h3⟩ := createNewChatSession_logged_in cap cur store uid (utf16 "Untitled")
    true huser hnf
  have hens : ensureActiveChat cap cur store =
      createNewChatSession cap cur store (utf16 "Untitled") true := by
    simp [ensureActiveChat, hact]
  have hgt : getProp (.obj props) (utf16 "type") = .ok (getOwn props (utf16 "type")) := rfl
  have hdisp : newChatDisplay cap cur store.clock true =
      { cur with activeChatId := some store.clock } := by
    simp [newChatDisplay, hact]
  have hadd := addMessageDoc_ok
    { store with
      clock := store.clock + 2,
      sessions := store.sessions ++
        [{ id := store.clock, owner := uid, title := utf16 "Untitled",
           createdAt := store.clock, updatedAt := store.clock, userID := uid }],
      messages := store.messages ++
        [{ id := store.clock + 1, owner := uid, chatId := store.clock,
           data := storedWelcome (store.clock + 1) }] } uid store.clock sm (hnf _)
  have hsave : saveMessageToFirestore P cap cur store (.obj props) =
      { ui := { cur with activeChatId := some store.clock },
        store := (touchSessionDoc
          { store with
            clock := store.clock + 2 + 1,
            sessions := store.sessions ++
              [{ id := store.clock, owner := uid, title := utf16 "Untitled",
                 createdAt := store.clock, updatedAt := store.clock, userID := uid }],
            messages := store.messages ++
              [{ id := store.clock + 1, owner := uid, chatId := store.clock,
                 data := storedWelcome (store.clock + 1) }] ++
              [{ id := store.clock + 2, owner := uid, chatId := store.clock,
                 data := resolveTimestamps (store.clock + 2) sm }] } uid store.clock).2,
        result := .ok () } := by
    unfold saveMessageToFirestore
    simp only [huser, hens, h1, h2, h3, hgt, spreadProps, hser, hadd, hdisp]
  obtain ⟨t1, t2, -, t4, t5⟩ := touchSessionDoc_ids
    { store with
      clock := store.clock + 2 + 1,
      sessions := store.sessions ++
        [{ id := store.clock, owner := uid, title := utf16 "Untitled",
           createdAt := store.clock, updatedAt := store.clock, userID := uid }],
      messages := store.messages ++
        [{ id := store.clock + 1, owner := uid, chatId := store.clock,
           data := storedWelcome (store.clock + 1) }] ++
        [{ id := store.clock + 2, owner := uid, chatId := store.clock,
           data := resolveTimestamps (store.clock + 2) sm }] } uid store.clock
  rw [hsave]
  refine ⟨rfl, ?_, ?_, ?_, ?_⟩
  · rw [t1]
    simp
  · rw [t2]
    simp
  · rw [t4]
  · intro n
    show (touchSessionDoc _ uid store.clock).2.faults n = false
    rw [t5]
    exact hnf n

theorem resolveTimestamps_userTurn (input : JString) (t : Nat) :
    resolveTimestamps t
        (.obj [(utf16 "type", .str (utf16 "user")), (utf16 "text", .str input),
          (utf16 "timestamp", serverTimestamp)]) = storedUserTurn input t := by
  simp [resolveTimestamps, storedUserTurn, serverTimestamp, isSymbolFor]

theorem searchPaperSubmit_no_active (P : Platform)
    (post : JSValue → Except JSValue JSValue)
    (report : JSValue → Option JString → Except JSValue JSValue) (cap cur : ChatState)
    (store : Store) (uid : JString) (data element sm : JSValue)
    (huser : cap.user = some uid) (hact : cap.activeChatId = none) (hnf : NoFaults store)
    (hpost : post (analyzeRequest cap.input) = .ok data)
    (hreport : report data cap.user = .ok element)
    (hser : serializeMessage P
      (.obj [(utf16 "type", .str (utf16 "bot")), (utf16 "text", element),
        (utf16 "timestamp", serverTimestamp)]) = .ok sm) :
    (searchPaperSubmit P (analyzePaper P post report) cap cur store).result = .ok () ∧
      (searchPaperSubmit P (analyzePaper P post report) cap cur store).store.sessions.map
          (fun d => d.id)
        = store.sessions.map (fun d => d.id) ++ [store.clock, store.clock + 4] ∧
      (searchPaperSubmit P (analyzePaper P post report) cap cur store).store.messages =
        store.messages ++
          [{ id := store.clock + 1, owner := uid, chatId := store.clock,
             data := storedWelcome (store.clock + 1) },
           { id := store.clock + 2, owner := uid, chatId := store.clock,
             data := storedUserTurn cap.input (store.clock + 2) },
           { id := store.clock + 5, owner := uid, chatId := store.clock + 4,
             data := storedWelcome (store.clock + 5) },
           { id := store.clock + 6, owner := uid, chatId := store.clock + 4,
             data := resolveTimestamps (store.clock + 6) sm }] ∧
      (searchPaperSubmit P (analyzePaper P post report) cap cur store).ui.activeChatId
        = some (store.clock + 4) ∧
      (searchPaperSubmit P (analyzePaper P post report) cap cur store).ui.messages =
        cap.messages ++ [userMessage (.str cap.input), botMessage element] := by
  have hu : userMessage (.str cap.input) =
      .obj [(utf16 "type", .str (utf16 "user")), (utf16 "text", .str cap.input)] := rfl
  have hb : botMessage element =
      .obj [(utf16 "type", .str (utf16 "bot")), (utf16 "text", element)] := rfl
  obtain ⟨u1, u2, u3, u4, u5⟩ := saveMessageToFirestore_no_active P cap
    { cur with messages := cap.messages ++ [userMessage (.str cap.input)] } store uid
    [(utf16 "type", .str (utf16 "user")), (utf16 "text", .str cap.input)]
    (.obj [(utf16 "type", .str (utf16 "user")), (utf16 "text", .str cap.input),
      (utf16 "timestamp", serverTimestamp)]) huser hact hnf rfl
  rw [← hu] at u1 u2 u3 u4 u5
  obtain ⟨b1, b2, b3, -, -⟩ := saveMessageToFirestore_no_active P cap
    { (saveMessageToFirestore P cap
        { cur with messages := cap.messages ++ [userMessage (.str cap.input)] } store
        (userMessage (.str cap.input))).ui with isLoading := true, input := [] }
    (saveMessageToFirestore P cap
      { cur with messages := cap.messages ++ [userMessage (.str cap.input)] } store
      (userMessage (.str cap.input))).store uid
    [(utf16 "type", .str (utf16 "bot")), (utf16 "text", element)] sm huser hact u5 hser
  rw [← hb] at b1 b2 b3
  rw [u2, u4] at b2
  rw [u3, u4, resolveTimestamps_userTurn] at b3
  rw [u4] at b1
  have hrun : searchPaperSubmit P (analyzePaper P post report) cap cur store =
      { ui :=
          { (saveMessageToFirestore P cap
              { (saveMessageToFirestore P cap
                  { cur with messages := cap.messages ++ [userMessage (.str cap.input)] }
                  store (userMessage (.str cap.input))).ui with
                isLoading := true, input := [] }
              (saveMessageToFirestore P cap
                { cur with messages := cap.messages ++ [userMessage (.str cap.input)] }
                store (userMessage (.str cap.input))).store (botMessage element)).ui with
            messages := cap.messages ++ [userMessage (.str cap.input)] ++ [botMessage element],
            isLoading := false },
        store :=
          (saveMessageToFirestore P cap
            { (saveMessageToFirestore P cap
                { cur with messages := cap.messages ++ [userMessage (.str cap.input)] }
                store (userMessage (.str cap.input))).ui with
              isLoading := true, input := [] }
            (saveMessageToFirestore P cap
              { cur with messages := cap.messages ++ [userMessage (.str cap.input)] }
              store (userMessage (.str cap.input))).store (botMessage element)).store,
        result := .ok () } := by
    simp only [searchPaperSubmit, analyzePaper, runAnalysis, analysisAttempt, hpost, hreport]
  rw [hrun]
  refine ⟨rfl, ?_, ?_, ?_, ?_⟩
  · show (saveMessageToFirestore _ _ _ _ _).store.sessions.map _ = _
    rw [b2]
    simp
  · show (saveMessageToFirestore _ _ _ _ _).store.messages = _
    rw [b3]
    simp
  · show (saveMessageToFirestore _ _ _ _ _).ui.activeChatId = _
    rw [b1]
  · show cap.messages ++ [userMessage (.str cap.input)] ++ [botMessage element] = _
    simp

/-- C27: for a logged-in user whose render has no active session (no request failing), a
non-reset input and an analysis that succeeds (the call answers with `data`, the report
gives `element`, and the bot turn is encoded as `sm`), `searchPaper` creates three
sessions: one by its own call of `createNewChatSession`, and one more in each of the two
calls of `saveMessageToFirestore`, which still read the `activeChatId` of the render.  The
first session holds the welcome message alone, the user turn is stored in the second and
the bot turn in the third, which is the active one at the end. -/
theorem searchPaper_creates_three_sessions (P : Platform)
    (post : JSValue → Except JSValue JSValue)
    (report : JSValue → Option JString → Except JSValue JSValue) (ui : ChatState)
    (store : Store) (uid : JString) (data element sm : JSValue)
    (huser : ui.user = some uid) (hact : ui.activeChatId = none) (hnf : NoFaults store)
    (hinput : isResetInput ui.input = false)
    (hpost : post (analyzeRequest ui.input) = .ok data)
    (hreport : report data ui.user = .ok element)
    (hser : serializeMessage P
      (.obj [(utf16 "type", .str (utf16 "bot")), (utf16 "text", element),
        (utf16 "timestamp", serverTimestamp)]) = .ok sm) :
    (searchPaper P (analyzePaper P post report) ui store).result = .ok () ∧
      (searchPaper P (analyzePaper P post report) ui store).store.sessions.map (fun d => d.id)
        = store.sessions.map (fun d => d.id) ++
          [store.clock, store.clock + 2, store.clock + 6] ∧
      (searchPaper P (analyzePaper P post report) ui store).store.messages =
        store.messages ++
          [{ id := store.clock + 1, owner := uid, chatId := store.clock,
             data := storedWelcome (store.clock + 1) },
           { id := store.clock + 3, owner := uid, chatId := store.clock + 2,
             data := storedWelcome (store.clock + 3) },
           { id := store.clock + 4, owner := uid, chatId := store.clock + 2,
             data := storedUserTurn ui.input (store.clock + 4) },
           { id := store.clock + 7, owner := uid, chatId := store.clock + 6,
             data := storedWelcome (store.clock + 7) },
           { id := store.clock + 8, owner := uid, chatId := store.clock + 6,
             data := resolveTimestamps (store.clock + 8) sm }] ∧
      (searchPaper P (analyzePaper P post report) ui store).ui.activeChatId
        = some (store.clock + 6) ∧
      (searchPaper P (analyzePaper P post report) ui store).ui.messages =
        ui.messages ++ [userMessage (.str ui.input), botMessage element] := by
  have hr : ¬ (isResetInput ui.input = true) := by simp [hinput]
  have hcond : ui.user.isSome ∧ ui.activeChatId.isNone := by simp [huser, hact]
  obtain ⟨c1, -, c3⟩ := createNewChatSession_logged_in ui ui store uid (utf16 "Untitled")
    true huser hnf
  have hnf1 : NoFaults (createNewChatSession ui ui store (utf16 "Untitled") true).store := by
    rw [c3]
    exact fun n => hnf n
  obtain ⟨r1, r2, r3, r4, r5⟩ := searchPaperSubmit_no_active P post report ui
    (createNewChatSession ui ui store (utf16 "Untitled") true).ui
    (createNewChatSession ui ui store (utf16 "Untitled") true).store uid data element sm
    huser hact hnf1 hpost hreport hser
  have hsp : searchPaper P (analyzePaper P post report) ui store =
      searchPaperSubmit P (analyzePaper P post report) ui
        (createNewChatSession ui ui store (utf16 "Untitled") true).ui
        (createNewChatSession ui ui store (utf16 "Untitled") true).store := by
    unfold searchPaper
    rw [if_neg hr, if_pos hcond]
    simp only [c1]
  rw [hsp, c3]
  rw [c3] at r1 r2 r3 r4 r5
  refine ⟨r1, ?_, ?_, ?_, r5⟩
  · rw [r2]
    simp
  · rw [r3]
    simp
  · rw [r4]

/-- Witness of C27: the input `10.2/y` submitted in the sample page without active session;
the sessions 7, 9 and 13 are created. -/
theorem searchPaper_creates_three_sessions_witness :
    (pageWithoutChat (utf16 "10.2/y")).user = some (utf16 "u1") ∧
      (pageWithoutChat (utf16 "10.2/y")).activeChatId = none ∧ NoFaults sampleStore ∧
      isResetInput (pageWithoutChat (utf16 "10.2/y")).input = false ∧
      (searchPaper (modelPlatform sampleRenderer)
        (analyzePaper (modelPlatform sampleRenderer) (fun _ => .ok (.obj [])) sampleReport)
        (pageWithoutChat (utf16 "10.2/y")) sampleStore).store.sessions.map (fun d => d.id)
        = sampleStore.sessions.map (fun d => d.id) ++
          [sampleStore.clock, sampleStore.clock + 2, sampleStore.clock + 6] :=
  ⟨rfl, rfl, fun _ => rfl, rfl,
    (searchPaper_creates_three_sessions (modelPlatform sampleRenderer)
      (fun _ => .ok (.obj [])) sampleReport (pageWithoutChat (utf16 "10.2/y")) sampleStore
      (utf16 "u1") (.obj []) _ _ rfl rfl (fun _ => rfl) rfl rfl rfl rfl).2.1⟩

/-! ## Invariants of the statistics and frame of the codec -/

/-- C28: for every reference list and every outcome of the calls (hence every assignment
of statuses), after a completed run of `verifyAllReferences` the three counters add up to
the number of input references and `unverifiableRefs` has as many entries as the
`unverifiable` counter says; and the statistics are the same whatever the state before the
run was, the statistics of an earlier run included. -/
theorem verifyAllReferences_stats_invariant (post : Nat → JSValue → Except JSError JSValue)
    (references : List JSValue) (st st2 : StatsButtonState) :
    (verifyAllReferences post references st).verificationStats.verified +
        (verifyAllReferences post references st).verificationStats.notVerified +
        (verifyAllReferences post references st).verificationStats.unverifiable
        = references.length ∧
      (verifyAllReferences post references st).verificationStats.unverifiableRefs.length
        = (verifyAllReferences post references st).verificationStats.unverifiable ∧
      (verifyAllReferences post references st).verificationStats
        = (verifyAllReferences post references st2).verificationStats ∧
      (verifyAllReferences post references
          (verifyAllReferences post references st2)).verificationStats
        = (verifyAllReferences post references st).verificationStats := by
  obtain ⟨h1, h2⟩ := foldl_tallyStep_sum (verifyFrom post 0 references)
    { verified := 0, notVerified := 0, unverifiable := 0, unverifiableRefs := [] }
  rw [verifyFrom_length] at h1
  refine ⟨?_, ?_, rfl, rfl⟩
  · show (tally _).verified + (tally _).notVerified + (tally _).unverifiable = _
    unfold tally
    simpa using h1
  · show (tally _).unverifiableRefs.length = (tally _).unverifiable
    unfold tally
    simpa using h2

theorem withText_frame (m text : JSValue) (props : Props) (hm : m = .obj props)
    (key : JString) (h : key ≠ utf16 "text") :
    getProp (withText m text) key = getProp m key := by
  subst hm
  simp [withText, spreadProps, getProp, getOwn_setProp_other _ _ _ _ h]

theorem serializeMessage_frame (P : Platform) (m r : JSValue)
    (h : serializeMessage P m = .ok r) (key : JString) (hk : key ≠ utf16 "text") :
    getProp r key = getProp m key := by
  unfold serializeMessage at h
  split_ifs at h with h1
  · cases h; rfl
  · cases hg : getProp m (utf16 "text") with
    | error e => simp [hg] at h
    | ok text =>
      simp only [hg] at h
      split_ifs at h with h2 h3
      · have hne : text ≠ .undefined := by
          intro hu; subst hu; simp [isValidElement] at h2
        obtain ⟨props, hm, -⟩ := getProp_text_obj hg hne
        cases hr : P.renderToString text with
        | error e => simp [hr] at h
        | ok markup =>
          simp only [hr] at h
          cases h
          exact withText_frame m _ props hm key hk
      · have hne : text ≠ .undefined := by
          intro hu; subst hu
          have : utf16 "undefined" ≠ utf16 "object" := by decide
          simp [typeof, this] at h3
        obtain ⟨props, hm, -⟩ := getProp_text_obj hg hne
        cases h
        exact withText_frame m _ props hm key hk
      · cases h; rfl

theorem deserializeTry_frame (P : Platform) (m : JSValue) (props : Props) (hm : m = .obj props)
    (text : JString) (r : JSValue) (h : deserializeTry P m text = .ok (some r))
    (key : JString) (hk : key ≠ utf16 "text") : getProp r key = getProp m key := by
  unfold deserializeTry at h
  split_ifs at h
  swap
  · cases h
  cases hp : P.parse text with
  | error e => simp [hp] at h
  | ok parsed =>
    simp only [hp] at h
    cases h1 : getProp parsed (utf16 "__isReactElement") with
    | error e => simp [h1] at h
    | ok tag =>
      simp only [h1] at h
      split_ifs at h
      · cases h2 : getProp parsed (utf16 "jsx") with
        | error e => simp [h2] at h
        | ok jsx =>
          simp only [h2, Except.ok.injEq, Option.some.injEq] at h
          subst h
          exact withText_frame m _ props hm key hk
      · cases h3 : getProp parsed (utf16 "__isObject") with
        | error e => simp [h3] at h
        | ok tag2 =>
          simp only [h3] at h
          split_ifs at h
          swap
          · cases h
          cases h4 : getProp parsed (utf16 "data") with
          | error e => simp [h4] at h
          | ok data =>
            simp only [h4, Except.ok.injEq, Option.some.injEq] at h
            subst h
            exact withText_frame m _ props hm key hk

theorem deserializeMessage_frame (P : Platform) (m : JSValue) :
    ∃ r, deserializeMessage P m = .ok r ∧
      ∀ key, key ≠ utf16 "text" → getProp r key = getProp m key := by
  unfold deserializeMessage
  split_ifs with h1
  · exact ⟨m, rfl, fun _ _ => rfl⟩
  · have ht : truthy m = true := by
      cases hh : truthy m
      · simp [hh] at h1
      · rfl
    obtain ⟨v, hv⟩ := getProp_of_truthy ht (utf16 "text")
    rw [hv]
    cases v with
    | str text =>
      obtain ⟨props, hm, -⟩ := getProp_text_obj hv (by simp)
      simp only []
      cases hd : deserializeTry P m text with
      | error e => exact ⟨m, rfl, fun _ _ => rfl⟩
      | ok o =>
        cases o with
        | none => exact ⟨m, rfl, fun _ _ => rfl⟩
        | some r =>
          exact ⟨r, rfl, fun key hk => deserializeTry_frame P m props hm text r hd key hk⟩
    | _ => exact ⟨m, rfl, fun _ _ => rfl⟩

/-- C29: `serializeMessage` (whenever it returns, which it does unless `renderToString`
throws on the text) and `deserializeMessage` (which always returns) give a message in which
every field other than `text` reads as in the message they were given; a missing (falsy)
message is returned as it is by both; and `deserializeMessage` returns a message whose
text is not a string as it is. -/
theorem codec_changes_text_only (P : Platform) (m : JSValue) :
    (∀ r, serializeMessage P m = .ok r →
        ∀ key, key ≠ utf16 "text" → getProp r key = getProp m key) ∧
      ((∀ text, getProp m (utf16 "text") = .ok text → isValidElement text = true →
          ∃ markup, P.renderToString text = .ok markup) →
        ∃ r, serializeMessage P m = .ok r) ∧
      (∃ r, deserializeMessage P m = .ok r ∧
        ∀ key, key ≠ utf16 "text" → getProp r key = getProp m key) ∧
      (truthy m = false → serializeMessage P m = .ok m ∧ deserializeMessage P m = .ok m) ∧
      (∀ text, getProp m (utf16 "text") = .ok text → (∀ s, text ≠ .str s) →
        deserializeMessage P m = .ok m) := by
  refine ⟨fun r h key hk => serializeMessage_frame P m r h key hk, ?_,
    deserializeMessage_frame P m, ?_, ?_⟩
  · intro hrender
    unfold serializeMessage
    split_ifs with h1
    · exact ⟨m, rfl⟩
    · have ht : truthy m = true := by
        cases hh : truthy m
        · simp [hh] at h1
        · rfl
      obtain ⟨v, hv⟩ := getProp_of_truthy ht (utf16 "text")
      rw [hv]
      simp only []
      split_ifs with h2 h3
      · obtain ⟨markup, hmk⟩ := hrender v hv h2
        rw [hmk]
        exact ⟨_, rfl⟩
      · exact ⟨_, rfl⟩
      · exact ⟨_, rfl⟩
  · intro h
    simp [serializeMessage, deserializeMessage, h]
  · intro text htext hns
    unfold deserializeMessage
    split_ifs
    · rfl
    · rw [htext]
      cases text with
      | str s => exact absurd rfl (hns s)
      | _ => rfl

/-- Witness of C29: a stored bot turn whose text is an object; the serialized message has
the same `type`, `id` and `timestamp`. -/
theorem codec_changes_text_only_witness :
    ∃ r, serializeMessage (modelPlatform noRenderer)
        (loadedMessage (.str (utf16 "7")) (.str (utf16 "bot"))
          (.obj [(utf16 "a", .num 1)]) (.num 3)) = .ok r ∧
      getProp r (utf16 "type") = .ok (.str (utf16 "bot")) ∧
      getProp r (utf16 "id") = .ok (.str (utf16 "7")) ∧
      getProp r (utf16 "timestamp") = .ok (.num 3) :=
  ⟨_, rfl,
    (codec_changes_text_only (modelPlatform noRenderer)
      (loadedMessage (.str (utf16 "7")) (.str (utf16 "bot"))
        (.obj [(utf16 "a", .num 1)]) (.num 3))).1 _ rfl (utf16 "type") (by decide),
    (codec_changes_text_only (modelPlatform noRenderer)
      (loadedMessage (.str (utf16 "7")) (.str (utf16 "bot"))
        (.obj [(utf16 "a", .num 1)]) (.num 3))).1 _ rfl (utf16 "id") (by decide),
    (codec_changes_text_only (modelPlatform noRenderer)
      (loadedMessage (.str (utf16 "7")) (.str (utf16 "bot"))
        (.obj [(utf16 "a", .num 1)]) (.num 3))).1 _ rfl (utf16 "timestamp") (by decide)⟩

end VerifAI
